import Mathlib

/-!
# neoGFX window core: a shallow embedding of `window.cpp`

The window objects of `src/src/gui/window/window.cpp` are embedded as records
(`window`), kept in a store that is indexed by object identity (`WinId`, the
address of the C++ object).  The collaborators that the translation unit only
calls (window manager registry, native surface, widget base class) appear as
plain data in `World`.

Definitions come first, theorems afterwards.
-/

namespace neogfx

/-! ## Style flags -/

/-- A `window_style` value: a 32 bit mask (`enum class window_style : uint32_t`). -/
abbrev window_style := Nat

/-- Modelled from the spec: the enumerators of `window_style` are declared in
`i_window.hpp`, which is not among the sources; the spec describes the style
as a bitmask of flags, so every flag is a distinct single bit. -/
def window_style.Invalid : window_style := 0x00000000
/-- Modelled from the spec: single style bit, see `window_style.Invalid`. -/
def window_style.NoDecoration : window_style := 0x00000001
/-- Modelled from the spec: single style bit, see `window_style.Invalid`. -/
def window_style.TitleBar : window_style := 0x00000002
/-- Modelled from the spec: single style bit, see `window_style.Invalid`. -/
def window_style.MinimizeBox : window_style := 0x00000010
/-- Modelled from the spec: single style bit, see `window_style.Invalid`. -/
def window_style.MaximizeBox : window_style := 0x00000020
/-- Modelled from the spec: single style bit, see `window_style.Invalid`. -/
def window_style.Resize : window_style := 0x00000040
/-- Modelled from the spec: single style bit, see `window_style.Invalid`. -/
def window_style.Nested : window_style := 0x00000200
/-- Modelled from the spec: single style bit, see `window_style.Invalid`. -/
def window_style.Fullscreen : window_style := 0x00000400
/-- Modelled from the spec: single style bit, see `window_style.Invalid`. -/
def window_style.Main : window_style := 0x00000800
/-- Modelled from the spec: single style bit, see `window_style.Invalid`. -/
def window_style.Dialog : window_style := 0x00001000
/-- Modelled from the spec: single style bit, see `window_style.Invalid`. -/
def window_style.Modal : window_style := 0x00020000
/-- Modelled from the spec: single style bit, see `window_style.Invalid`. -/
def window_style.ApplicationModal : window_style := 0x00040000
/-- Modelled from the spec: single style bit, see `window_style.Invalid`. -/
def window_style.NoActivate : window_style := 0x00080000
/-- Modelled from the spec: single style bit, see `window_style.Invalid`. -/
def window_style.RequiresOwnerFocus : window_style := 0x00100000
/-- Modelled from the spec: single style bit, see `window_style.Invalid`. -/
def window_style.DismissOnOwnerClick : window_style := 0x00200000
/-- Modelled from the spec: single style bit, see `window_style.Invalid`. -/
def window_style.DismissOnParentClick : window_style := 0x00400000
/-- Modelled from the spec: single style bit, see `window_style.Invalid`. -/
def window_style.HideOnOwnerClick : window_style := 0x00800000
/-- Modelled from the spec: single style bit, see `window_style.Invalid`. -/
def window_style.HideOnParentClick : window_style := 0x01000000
/-- Modelled from the spec: single style bit, see `window_style.Invalid`. -/
def window_style.InitiallyHidden : window_style := 0x02000000
/-- Modelled from the spec: single style bit, see `window_style.Invalid`. -/
def window_style.InitiallyCentered : window_style := 0x04000000
/-- Modelled from the spec: single style bit, see `window_style.Invalid`. -/
def window_style.InitiallyRenderable : window_style := 0x08000000
/-- Modelled from the spec: single style bit, see `window_style.Invalid`. -/
def window_style.Weak : window_style := 0x10000000

/-- The idiom `(aStyle & flag) == flag` used throughout `window.cpp`. -/
def has_style (aStyle flag : window_style) : Bool := (aStyle &&& flag) == flag

/-- The compound assignment `iStyle |= flag`. -/
def style_or (aStyle flag : window_style) : window_style := aStyle ||| flag

/-- The compound assignment `iStyle &= ~mask` on the 32 bit underlying type. -/
def style_and_not (aStyle mask : window_style) : window_style :=
  aStyle &&& (0xFFFFFFFF ^^^ mask)

/-! ## The enable counter (`int32_t iCountedEnable`) -/

/-- Reduction of an integer to the `int32_t` range (two's complement). -/
def wrap_int32 (n : Int) : Int := (n + 2147483648) % 4294967296 - 2147483648

/-- The values an `int32_t` can hold. -/
def in_int32 (n : Int) : Prop := -2147483648 ≤ n ∧ n ≤ 2147483647

instance (n : Int) : Decidable (in_int32 n) := by
  unfold in_int32; infer_instance

/-! ## Data model -/

/-- Object identity of a window (the address of the C++ object). -/
abbrev WinId := Nat

/-- The failures raised by `window.cpp`. `endless_parent_chain` stands for a
parent walk that does not terminate (a cyclic parent chain). -/
inductive window_error where
  | fullscreen_window_cannot_nest
  | parentless_window_cannot_nest
  | not_yet_implemented
  | no_surface
  | no_native_surface
  | no_parent_window
  | not_in_nest
  | not_a_nest
  | no_nested_parent
  | endless_parent_chain
  | widget_not_entered
  | widget_not_focused
deriving DecidableEq, Repr

/-- The placement state of `window_placement::state()`. -/
inductive window_state where
  | Normal
  | Iconized
  | Maximized
deriving DecidableEq, Repr

/-- The parts of `window_placement` that `window.cpp` reads. -/
structure window_placement where
  /-- The value of `video_mode()`: the requested video mode, if any. -/
  video_mode : Option Nat
  /-- The value of `state()`. -/
  state : window_state
  /-- The value of `position_specified()`. -/
  position_specified : Bool
deriving DecidableEq, Repr

/-- The surface object a window owns through `iSurfaceWindow` (a
`surface_window_proxy` together with the native window behind it). -/
structure surface_window where
  /-- Identity of the surface object (compared by address in `has_parent_window`). -/
  handle : Nat
  /-- Whether `surface_type() == surface_type::Window`. -/
  is_window_type : Bool
  /-- The native enable state, `native_window().enabled()`. -/
  native_enabled : Bool
  /-- The native fullscreen state, `native_window().is_fullscreen()`. -/
  native_fullscreen : Bool
  /-- Whether `close()` has been called on the surface. -/
  close_called : Bool
deriving DecidableEq, Repr

/-- The members of `class window` (named as in `window.hpp`) followed by the
state of the widget base class that `window.cpp` reads or writes. -/
structure window where
  iParentWindow : Option WinId
  iPlacement : window_placement
  iClosed : Bool
  /-- The member `iNest`: when engaged, the collection of nested windows. -/
  iNest : Option (List WinId)
  iSurfaceWindow : Option surface_window
  /-- Whether `iNestedWindowDetails` holds a surrogate. -/
  iNestedWindowDetails : Bool
  iReadyToRender : Bool
  iTitleText : String
  iStyle : window_style
  iCountedEnable : Int
  iEnteredWidget : Option Nat
  iFocusedWidget : Option Nat
  iDismissingChildren : Bool
  /-- The member `iSurfaceDestroyed`: empty before `init`, afterwards whether
  the native surface captured by `init` has been destroyed. -/
  iSurfaceDestroyed : Option Bool
  /-- Widget base class: the local enabled state (`enabled()` / `enable(bool)`). -/
  widget_enabled : Bool
  /-- Widget base class: the local visibility (`visible()` / `show(bool)`). -/
  widget_visible : Bool
  /-- Widget base class: the handle of the surface `find_surface()` returns, if any. -/
  found_surface : Option Nat
  /-- Title shown by the title bar, once `create_title_bar` has run. -/
  title_bar_title : Option String
deriving DecidableEq, Repr

/-! ## Accessors of a single window -/

/-- Source: `window::style`. -/
def window.style (x : window) : window_style := x.iStyle

/-- Source: `window::set_style`. -/
def window.set_style (x : window) (aStyle : window_style) : window :=
  { x with iStyle := aStyle }

/-- Source: `window::is_surface`. -/
def window.is_surface (x : window) : Bool := x.iSurfaceWindow.isSome

/-- Source: `window::has_surface`. -/
def window.has_surface (x : window) : Bool :=
  if x.is_surface then true else x.found_surface.isSome

/-- Source: `window::surface`, as the handle of the surface returned. -/
def window.surface (x : window) : Except window_error Nat :=
  match x.iSurfaceWindow with
  | some s => .ok s.handle
  | none =>
    match x.found_surface with
    | some h => .ok h
    | none => .error .no_surface

/-- Source: `window::has_native_surface`. An empty `iSurfaceDestroyed` (the
window has not run `init` yet) is read as "not destroyed". -/
def window.has_native_surface (x : window) : Bool :=
  x.is_surface && !(x.iSurfaceDestroyed.getD false)

/-- Source: `window::has_native_window`. -/
def window.has_native_window (x : window) : Bool :=
  x.has_native_surface &&
    (match x.iSurfaceWindow with
     | some s => s.is_window_type
     | none => false)

/-- Source: `window::native_window` / `window::native_surface`. -/
def window.native_window (x : window) : Except window_error surface_window :=
  if !x.has_native_surface then .error .no_native_surface
  else
    match x.iSurfaceWindow with
    | some s => .ok s
    | none => .error .no_native_surface

/-- Source: `window::is_nested`. -/
def window.is_nested (x : window) : Bool := has_style x.style window_style.Nested

/-- Source: `window::is_nest`. -/
def window.is_nest (x : window) : Bool := x.iNest.isSome

/-- Source: `window::is_weak`. -/
def window.is_weak (x : window) : Bool := has_style x.style window_style.Weak

/-- Source: `window::is_closed`. -/
def window.is_closed (x : window) : Bool := x.iClosed

/-- Source: `window::is_fullscreen`. -/
def window.is_fullscreen (x : window) : Bool :=
  x.has_native_window &&
    (match x.iSurfaceWindow with
     | some s => s.native_fullscreen
     | none => false)

/-- The call `native_window().enable(b)` on the owned surface. -/
def window.native_enable (x : window) (b : Bool) : window :=
  match x.iSurfaceWindow with
  | some s => { x with iSurfaceWindow := some { s with native_enabled := b } }
  | none => x

/-- Source: `window::window_enabled`. -/
def window.window_enabled (x : window) : Bool :=
  if x.is_surface then
    x.has_native_window &&
      (match x.iSurfaceWindow with
       | some s => s.native_enabled
       | none => false)
  else
    x.widget_enabled

/-- The call `enable(b)` of the widget base class: it stores the local
enabled state that `enabled()` reports. -/
def window.enable (x : window) (b : Bool) : window := { x with widget_enabled := b }

/-- Source: `window::counted_window_enable`. -/
def window.counted_window_enable (x : window) (aEnable : Bool) : window :=
  let x1 : window :=
    if aEnable then { x with iCountedEnable := wrap_int32 (x.iCountedEnable + 1) }
    else { x with iCountedEnable := wrap_int32 (x.iCountedEnable - 1) }
  if x1.is_surface && x1.has_native_window && !x1.is_nest then
    x1.native_enable (decide (x1.iCountedEnable ≥ 0))
  else if !x1.is_surface || x1.is_nest then
    x1.enable (decide (x1.iCountedEnable ≥ 0))
  else
    x1

/-- Modelled from the spec: `has_parent()` is inherited from the widget base
class, which is not among the sources (`window::set_parent` only records the
parent window). The spec reads the constructor's test as "the window has a
parent window at construction", so it is modelled by the recorded parent. -/
def window.has_parent (x : window) : Bool := x.iParentWindow.isSome

/-- The handle of the surface `surface()` returns, if it returns one. -/
def window.surface_handle (x : window) : Option Nat :=
  match x.surface with
  | .ok h => some h
  | .error _ => none

/-! ## The world: object store, window manager registry, collaborators -/

/-- A position (`point`). `window.cpp` hands positions on to the widgets it
notifies and asks; it does not compute with their coordinates here. -/
abbrev point := Int × Int

/-- The reasons of a focus change. The enumerators are declared in a header
that is not among the sources; these are the ones `window.cpp` names, and
`Tab` stands for the reasons it only passes through. -/
inductive focus_reason where
  | ClickNonClient
  | ClickClient
  | Tab
  | Other
deriving DecidableEq, Repr

/-- Observable calls made by `window.cpp` on its collaborators. -/
inductive Event where
  /-- The notification `Closed.trigger()` of the given window. -/
  | Closed (w : WinId)
  /-- A call of `window::activate` on the given window. -/
  | activate (w : WinId)
  /-- The call `native_window().activate()` made by the given window. -/
  | native_activate (w : WinId)
  /-- The call `native_window().show()` made by the given window. -/
  | native_show (w : WinId)
  /-- The call `native_window().hide()` made by the given window. -/
  | native_hide (w : WinId)
  /-- The notification `DismissingChildren.trigger(aClickedWidget)` of the
  given window; the clicked widget is named by its root window. -/
  | DismissingChildren (w : WinId) (aClickedWidget : Option WinId)
  /-- The call `focus_lost(reason)` on the given widget. -/
  | focus_lost (widget : Nat) (reason : focus_reason)
  /-- The call `focus_gained(reason)` on the given widget. -/
  | focus_gained (widget : Nat) (reason : focus_reason)
  /-- The call `mouse_left()` on the given widget. -/
  | mouse_left (widget : Nat)
  /-- The call `mouse_entered(position)` on the given widget. -/
  | mouse_entered (widget : Nat) (position : point)
  /-- The call `set_focus(reason)` on the given widget. -/
  | set_focus (widget : Nat) (reason : focus_reason)
  /-- An invocation of `window::update_click_focus` for the given candidate. -/
  | update_click_focus (candidate : Nat)
  /-- The call `surface().release_capture(widget)`. -/
  | release_capture (widget : Nat)
  /-- The call `layout_items(true)` of the widget base class. -/
  | layout_items
  /-- The call `title_bar().set_title(title)`. -/
  | title_bar_set_title (title : String)
  /-- The call `native_window().set_title_text(title)`. -/
  | native_set_title_text (title : String)
deriving DecidableEq, Repr

/-- Everything `window.cpp` reads or writes outside a single window object. -/
structure World where
  /-- The live window objects, by identity. -/
  windows : List (WinId × window)
  /-- Modelled from the spec: the window manager registry (`i_window_manager`
  is not among the sources): the ordered collection of registered windows,
  insertion order, with indexed access `window(i)`. -/
  registry : List WinId
  /-- The calls observed so far, oldest first. -/
  events : List Event
  /-- The value of `service<i_app>().program_options().nest()`. -/
  program_options_nest : Bool
  /-- The value of `service<i_surface_manager>().display().is_fullscreen()`. -/
  display_is_fullscreen : Bool
  /-- The placement made from `display().fullscreen_video_mode()`. -/
  display_fullscreen_placement : window_placement
  /-- The widget tree relation behind `i_widget::is_ancestor_of` (base class,
  not among the sources): the pairs `(a, d)` with `a.is_ancestor_of(d)`. -/
  widget_ancestors : List (WinId × WinId)
  /-- The windows that are destroyed as a side effect of closing their surface
  (the case `close` guards with its `destroyed_flag`). -/
  surface_close_destroys : List WinId
deriving DecidableEq, Repr

/-- Lookup in the object store. -/
def store_find : List (WinId × window) → WinId → Option window
  | [], _ => none
  | (j, y) :: t, i => if j = i then some y else store_find t i

/-- Write into the object store, replacing the object of the same identity. -/
def store_insert : List (WinId × window) → WinId → window → List (WinId × window)
  | [], i, x => [(i, x)]
  | (j, y) :: t, i, x => if j = i then (i, x) :: t else (j, y) :: store_insert t i x

/-- Removal of every object with the given identity from the object store. -/
def store_erase : List (WinId × window) → WinId → List (WinId × window)
  | [], _ => []
  | (j, y) :: t, i => if j = i then store_erase t i else (j, y) :: store_erase t i

/-- The window object with the given identity, if it is alive. -/
def World.find (w : World) (i : WinId) : Option window := store_find w.windows i

/-- The world with the window object `i` set to `x`. -/
def World.set (w : World) (i : WinId) (x : window) : World :=
  { w with windows := store_insert w.windows i x }

/-- The world with `f` applied to the window object `i`, when it is alive. -/
def World.modify (w : World) (i : WinId) (f : window → window) : World :=
  match w.find i with
  | some x => w.set i (f x)
  | none => w

/-- The world without the window object `i` (its lifetime has ended). -/
def World.erase (w : World) (i : WinId) : World :=
  { w with windows := store_erase w.windows i }

/-- The world with one more observed call. -/
def World.emit (w : World) (e : Event) : World :=
  { w with events := w.events ++ [e] }

/-- The call `a.is_ancestor_of(d)` of the widget base class. -/
def World.is_ancestor_of (w : World) (a d : WinId) : Bool :=
  decide ((a, d) ∈ w.widget_ancestors)

/-- Modelled from the spec: `i_window_manager::add_window` (not among the
sources) appends to the registry, whose order is insertion order. -/
def World.add_window (w : World) (i : WinId) : World :=
  { w with registry := w.registry ++ [i] }

/-- Modelled from the spec: `i_window_manager::has_window` (not among the
sources), lookup by identity. -/
def World.has_window (w : World) (i : WinId) : Bool := decide (i ∈ w.registry)

/-- Modelled from the spec: `i_window_manager::remove_window` (not among the
sources) removes the window from the registry. -/
def World.remove_window (w : World) (i : WinId) : World :=
  { w with registry := w.registry.erase i }

/-! ## Operations that need the world -/

/-- Source: `window::has_parent_window`. -/
def has_parent_window (w : World) (x : window) (aSameSurface : Bool) : Bool :=
  match x.iParentWindow with
  | none => false
  | some p =>
    !aSameSurface ||
      (x.has_surface &&
        (match w.find p with
         | some px => px.has_surface && decide (x.surface_handle = px.surface_handle)
         | none => false))

/-- The loop of `window::ultimate_ancestor`, with a bound on the number of
windows visited; `none` when the bound is reached. -/
def ultimate_ancestor_walk (w : World) : Nat → WinId → Option WinId
  | 0, _ => none
  | fuel + 1, cur =>
    match w.find cur with
    | none => some cur
    | some x =>
      match x.iParentWindow with
      | none => some cur
      | some p => ultimate_ancestor_walk w fuel p

/-- Source: `window::ultimate_ancestor`. A parent chain without a cycle visits
every live window at most once, which the bound allows. -/
def ultimate_ancestor (w : World) (self : WinId) : Option WinId :=
  ultimate_ancestor_walk w (w.windows.length + 1) self

/-- The loop of `window::nest`, started at the parent window. -/
def nest_walk (w : World) : Nat → WinId → Except window_error WinId
  | 0, _ => .error .endless_parent_chain
  | fuel + 1, cur =>
    match w.find cur with
    | none => .error .not_in_nest
    | some x =>
      if !x.is_nest && has_parent_window w x true then
        match x.iParentWindow with
        | some p => nest_walk w fuel p
        | none => .error .not_in_nest
      else if x.is_nest then .ok cur
      else .error .not_in_nest

/-- Source: `window::nest`, as the identity of the window whose nest is returned. -/
def nest (w : World) (self : WinId) : Except window_error WinId :=
  match w.find self with
  | none => .error .not_in_nest
  | some x =>
    if x.is_nest then .ok self
    else if !has_parent_window w x true then .error .not_in_nest
    else
      match x.iParentWindow with
      | some p => nest_walk w (w.windows.length + 1) p
      | none => .error .not_in_nest

/-- Source: `window::show(bool)`. The base `widget::show` records the
visibility and reports whether it changed. -/
def show_window (w : World) (self : WinId) (aVisible : Bool) : World :=
  match w.find self with
  | none => w
  | some x =>
    let result := x.widget_visible != aVisible
    let w1 := w.set self { x with widget_visible := aVisible }
    if result && x.has_native_surface then
      w1.emit (if aVisible then .native_show self else .native_hide self)
    else w1

/-- Source: `window::activate`. -/
def activate (w : World) (self : WinId) : World :=
  let w0 := w.emit (.activate self)
  match w0.find self with
  | none => w0
  | some x =>
    let w1 := if !x.widget_visible then show_window w0 self true else w0
    if x.has_native_window then w1.emit (.native_activate self) else w1

/-- Source: `window::counted_window_enable`, on the window `target` of the world. -/
def counted_window_enable (w : World) (target : WinId) (aEnable : Bool) : World :=
  w.modify target (fun x => x.counted_window_enable aEnable)

/-- Source: the body of the loop of `window::update_modality` for the
registry entry `j`. -/
def update_modality_body (self : WinId) (aEnableAncestors : Bool) (acc : World)
    (j : WinId) : World :=
  match acc.find self with
  | none => acc
  | some me =>
    if j ≠ self then
      if has_style me.iStyle window_style.ApplicationModal then
        counted_window_enable acc j aEnableAncestors
      else if has_style me.iStyle window_style.Modal && acc.is_ancestor_of j self then
        counted_window_enable acc j aEnableAncestors
      else acc
    else acc

/-- Source: `window::update_modality`. The loop body never changes the
registry, so the index loop visits the registry entries in order. -/
def update_modality (w : World) (self : WinId) (aEnableAncestors : Bool) : World :=
  let w1 := w.registry.foldl (update_modality_body self aEnableAncestors) w
  match w1.find self with
  | none => w1
  | some me =>
    if aEnableAncestors && has_parent_window w1 me false &&
        !has_style me.style window_style.NoActivate then
      match me.iParentWindow with
      | some p => activate w1 p
      | none => w1
    else w1

/-- Source: `window::modal_enable`. -/
def modal_enable (w : World) (self : WinId) (aEnable : Bool) : World :=
  let w1 := counted_window_enable w self aEnable
  let w2 := update_modality w1 self aEnable
  match w2.find self with
  | none => w2
  | some me =>
    if aEnable && !has_style me.style window_style.NoActivate then activate w2 self
    else w2

/-- The call `surface().close()` on the surface the window owns. -/
def surface_close (w : World) (self : WinId) : World :=
  w.modify self (fun x =>
    match x.iSurfaceWindow with
    | some s => { x with iSurfaceWindow := some { s with close_called := true } }
    | none => x)

/-- Source: `window::close`. `onSurfaceClose` is the effect of
`surface().close()`: the world afterwards and whether the window was destroyed
by it (what the local `destroyed_flag` reports). Children and layout items
removed by `remove_all` are not part of the model. -/
def close_with (onSurfaceClose : World → WinId → World × Bool) (w : World)
    (self : WinId) : World :=
  match w.find self with
  | none => w
  | some x =>
    if x.iClosed then w
    else
      let r := if x.is_surface then onSurfaceClose w self else (w, false)
      if r.2 then r.1
      else (r.1.modify self (fun y => { y with iClosed := true })).emit (.Closed self)

/-- Source: `nested_details::~nested_details`, run when the members of a
window are destroyed: the surrogate leaves the nest it registered with. -/
def nested_details_destroy (w : World) (self : WinId) : World :=
  match w.find self with
  | none => w
  | some x =>
    if x.iNestedWindowDetails then
      match nest w self with
      | .ok r => w.modify r (fun y => { y with iNest := y.iNest.map (fun l => l.erase self) })
      | .error _ => w
    else w

/-- Source: `window::~window`, followed by the end of the object's lifetime. -/
def destroy (w : World) (self : WinId) : World :=
  match w.find self with
  | none => w
  | some _ =>
    let w1 := update_modality w self true
    let w2 := if w1.has_window self then w1.remove_window self else w1
    let w3 := close_with (fun v s => (surface_close v s, false)) w2 self
    (nested_details_destroy w3 self).erase self

/-- Source: `window::close`, with the surface's reaction to `close()` taken
from the world: either the window is destroyed by it or it is not. -/
def close (w : World) (self : WinId) : World :=
  close_with
    (fun v s =>
      if s ∈ v.surface_close_destroys then (destroy (surface_close v s) s, true)
      else (surface_close v s, false))
    w self

/-- Source: `window::set_style`, on the window `self` of the world. -/
def set_style (w : World) (self : WinId) (aStyle : window_style) : World :=
  w.modify self (fun x => x.set_style aStyle)

/-! ## Construction -/

/-- The arguments of the private constructor `window::window(i_widget*, ...)`
together with the answers of the collaborators it consults. -/
structure construct_request where
  /-- The root window of `aParent` (`aParent->root()`), when a parent is given. -/
  aParent : Option WinId
  aPlacement : window_placement
  aWindowTitle : Option String
  aStyle : window_style
  /-- The value of `service<i_app>().name()`. -/
  app_name : String
  /-- The surface the rendering engine's `create_window` hands back. -/
  created_surface : surface_window
  /-- What `find_surface()` of the widget base class finds for the new window. -/
  found_surface : Option Nat
deriving DecidableEq, Repr

/-- Outcome of a construction: the world afterwards and the exception that
left the constructor, if any. -/
structure construct_result where
  world : World
  failure : Option window_error
deriving DecidableEq, Repr

/-- Source: the member initialisers of the private constructor. A fresh widget
is enabled and visible. -/
def initial_window (rq : construct_request) : window :=
  { iParentWindow := none
    iPlacement := rq.aPlacement
    iClosed := false
    iNest := none
    iSurfaceWindow := none
    iNestedWindowDetails := false
    iReadyToRender := has_style rq.aStyle window_style.InitiallyRenderable
    iTitleText := rq.aWindowTitle.getD rq.app_name
    iStyle := rq.aStyle
    iCountedEnable := 0
    iEnteredWidget := none
    iFocusedWidget := none
    iDismissingChildren := false
    iSurfaceDestroyed := none
    widget_enabled := true
    widget_visible := true
    found_surface := rq.found_surface
    title_bar_title := none }

/-- An exception leaves the constructor: the object under construction ceases
to exist; whatever the constructor did to the rest of the world stays. -/
def construct_throw (w : World) (self : WinId) (e : window_error) : construct_result :=
  { world := w.erase self, failure := some e }

/-- Source: the condition `is_fullscreen() || (program_options().nest() &&
&ultimate_ancestor() == this)` of `window::init`. -/
def init_makes_nest (w : World) (self : WinId) (x : window) : Except window_error Bool :=
  if x.is_fullscreen then .ok true
  else if w.program_options_nest then
    match ultimate_ancestor w self with
    | some r => .ok (decide (r = self))
    | none => .error .endless_parent_chain
  else .ok false

/-- Source: `nested_details::nested_details`, the surrogate registers with
the nest of its window. -/
def nested_details_create (w : World) (self : WinId) : Except window_error World :=
  match nest w self with
  | .error e => .error e
  | .ok r =>
    .ok ((w.modify r (fun y => { y with iNest := y.iNest.map (fun l => l ++ [self]) })).modify
      self (fun y => { y with iNestedWindowDetails := true }))

/-- Source: `window::init`, the part after the nested surrogate has been
made: modality pass, title bar, initial size. Layout, scrollbars, geometry and
the client widget are not part of the model. -/
def init_tail (w : World) (self : WinId) : construct_result :=
  let w1 := update_modality w self false
  match w1.find self with
  | none => { world := w1, failure := none }
  | some x =>
    let w2 :=
      if has_style x.style window_style.TitleBar then
        w1.set self { x with title_bar_title := some x.iTitleText }
      else w1
    if !x.is_nested && !x.has_native_surface then
      construct_throw w2 self .no_native_surface
    else { world := w2, failure := none }

/-- Source: `window::init`. -/
def init (w : World) (self : WinId) : construct_result :=
  match w.find self with
  | none => { world := w, failure := none }
  | some x =>
    match x.surface with
    | .error e => construct_throw w self e
    | .ok _ =>
      let x1 : window := { x with iSurfaceDestroyed := some false }
      match init_makes_nest w self x1 with
      | .error e => construct_throw w self e
      | .ok makesNest =>
        let x2 : window := if makesNest then { x1 with iNest := some [] } else x1
        let w1 := w.set self x2
        let w2 :=
          if has_style x2.style window_style.InitiallyHidden then show_window w1 self false
          else w1
        if x2.is_nested then
          match nested_details_create w2 self with
          | .error e => construct_throw w2 self e
          | .ok w3 => init_tail w3 self
        else init_tail w2 self

/-- Source: the test `has_parent() && (ultimate_ancestor().is_fullscreen() ||
program_options().nest()) && &ultimate_ancestor() != this` of the constructor. -/
def construct_forces_nested (w : World) (self : WinId) (x : window) :
    Except window_error Bool :=
  if x.has_parent then
    match ultimate_ancestor w self with
    | none => .error .endless_parent_chain
    | some r =>
      let fullscreen :=
        match w.find r with
        | some rx => rx.is_fullscreen
        | none => false
      .ok ((fullscreen || w.program_options_nest) && decide (r ≠ self))
  else .ok false

/-- Source: `window::set_parent`. -/
def window.set_parent (x : window) (aParentRoot : WinId) : window :=
  { x with iParentWindow := some aParentRoot }

/-- Source: the constructor up to `if (aParent) set_parent(*aParent);`. -/
def construct_begin (rq : construct_request) : window :=
  match rq.aParent with
  | some p => (initial_window rq).set_parent p
  | none => initial_window rq

/-- Source: the statement `iStyle |= window_style::Nested;` of the
constructor, run when the test before it holds. -/
def window.force_nested (x : window) (forced : Bool) : window :=
  if forced then { x with iStyle := style_or x.iStyle window_style.Nested } else x

/-- Source: the assignment `iSurfaceWindow = std::make_unique<surface_window_proxy>(...)`. -/
def window.attach_surface (x : window) (s : surface_window) : window :=
  { x with iSurfaceWindow := some s }

/-- Source: the two statements `iStyle |= window_style::Fullscreen; iStyle &=
~(window_style::Resize | window_style::MinimizeBox | window_style::MaximizeBox);`
of the constructor. -/
def fullscreen_style (aStyle : window_style) : window_style :=
  style_and_not (style_or aStyle window_style.Fullscreen)
    (window_style.Resize ||| window_style.MinimizeBox ||| window_style.MaximizeBox)

/-- The window after the two statements of `fullscreen_style`. -/
def window.make_fullscreen (x : window) : window :=
  { x with iStyle := fullscreen_style x.iStyle }

/-- Source: the branch `if (aPlacement.video_mode())` of the constructor. -/
def construct_video_mode (w : World) (self : WinId) (rq : construct_request)
    (x : window) : construct_result :=
  if x.is_nested then construct_throw w self .fullscreen_window_cannot_nest
  else
    init (w.set self (x.make_fullscreen.attach_surface rq.created_surface)) self

/-- Source: the branch `else if (!is_nested())` of the constructor. -/
def construct_desktop (w : World) (self : WinId) (rq : construct_request)
    (x : window) : construct_result :=
  let takeover := !has_parent_window w x false && w.display_is_fullscreen
  let x1 : window := if takeover then x.make_fullscreen else x
  let correctedPlacement :=
    if takeover then w.display_fullscreen_placement else rq.aPlacement
  match correctedPlacement.state with
  | .Normal =>
    if !has_parent_window w x1 false then
      init (w.set self (x1.attach_surface rq.created_surface)) self
    else
      match x1.iParentWindow.bind w.find with
      | none => construct_throw w self .no_surface
      | some px =>
        match px.surface with
        | .error e => construct_throw w self e
        | .ok _ => init (w.set self (x1.attach_surface rq.created_surface)) self
  | .Iconized => construct_throw w self .not_yet_implemented
  | .Maximized => construct_throw w self .not_yet_implemented

/-- Source: the private constructor `window::window(i_widget* aParent, ...)`
building the object with identity `self`. -/
def construct (w : World) (self : WinId) (rq : construct_request) : construct_result :=
  let x0 : window := construct_begin rq
  let w1 := (w.set self x0).add_window self
  if x0.is_nested && !x0.has_parent then
    construct_throw w1 self .parentless_window_cannot_nest
  else
    match construct_forces_nested w1 self x0 with
    | .error e => construct_throw w1 self e
    | .ok forced =>
      let x1 : window := x0.force_nested forced
      let w2 := w1.set self x1
      if rq.aPlacement.video_mode.isSome then construct_video_mode w2 self rq x1
      else if !x1.is_nested then construct_desktop w2 self rq x1
      else init w2 self

/-! ## Operations as data -/

/-- The operations of the model, for statements about every operation. -/
inductive Op where
  | construct (self : WinId) (rq : construct_request)
  | destroy (self : WinId)
  | close (self : WinId)
  | set_style (self : WinId) (aStyle : window_style)
  | counted_window_enable (self : WinId) (aEnable : Bool)
  | update_modality (self : WinId) (aEnableAncestors : Bool)
  | modal_enable (self : WinId) (aEnable : Bool)
  | activate (self : WinId)
  | show_window (self : WinId) (aVisible : Bool)
deriving DecidableEq, Repr

/-- The world after one operation. -/
def step (w : World) : Op → World
  | .construct self rq => (construct w self rq).world
  | .destroy self => destroy w self
  | .close self => close w self
  | .set_style self aStyle => set_style w self aStyle
  | .counted_window_enable self aEnable => counted_window_enable w self aEnable
  | .update_modality self aEnableAncestors => update_modality w self aEnableAncestors
  | .modal_enable self aEnable => modal_enable w self aEnable
  | .activate self => activate w self
  | .show_window self aVisible => show_window w self aVisible

/-! ## Dismissal -/

/-- The enumeration `dismissal_type_e` of `i_window`. -/
inductive dismissal_type_e where
  | CannotDismiss
  | CloseOnDismissal
  | HideOnDismissal
deriving DecidableEq, Repr

/-- Source: `window::dismissal_type`, as a function of the style. -/
def dismissal_type_of (aStyle : window_style) : dismissal_type_e :=
  if (aStyle &&& (window_style.DismissOnOwnerClick ||| window_style.DismissOnParentClick))
      != window_style.Invalid then
    .CloseOnDismissal
  else if (aStyle &&& (window_style.HideOnOwnerClick ||| window_style.HideOnParentClick))
      != window_style.Invalid then
    .HideOnDismissal
  else
    .CannotDismiss

/-- Source: `window::dismissal_type`. -/
def window.dismissal_type (x : window) : dismissal_type_e := dismissal_type_of x.style

/-- The call `hidden()` of the widget base class: the widget is not visible. -/
def window.hidden (x : window) : Bool := !x.widget_visible

/-- Source: `window::dismissed`. -/
def window.dismissed (x : window) : Bool :=
  match x.dismissal_type with
  | .CloseOnDismissal => x.is_closed
  | .HideOnDismissal => x.hidden
  | .CannotDismiss => false

/-- Source: `window::is_parent_of`, for the window `self` and the live child
window object `child`. -/
def window.is_child_of (child : window) (self : WinId) : Bool :=
  child.iParentWindow.isSome && decide (child.iParentWindow = some self)

/-- Source: `window::is_parent_of`. -/
def is_parent_of (w : World) (self aChildWindow : WinId) : Bool :=
  match w.find aChildWindow with
  | some child => child.is_child_of self
  | none => false

/-- The loop of `window::is_owner_of`, with a bound on the number of windows
visited; `none` when the bound is reached. -/
def is_owner_of_walk (w : World) (self : WinId) : Nat → WinId → Option Bool
  | 0, _ => none
  | fuel + 1, cur =>
    match w.find cur with
    | none => some false
    | some x =>
      match x.iParentWindow with
      | none => some false
      | some p => if p = self then some true else is_owner_of_walk w self fuel p

/-- Source: `window::is_owner_of`. A parent chain without a cycle visits
every live window at most once, which the bound allows; `none` stands for a
walk that does not end. -/
def is_owner_of (w : World) (self aChildWindow : WinId) : Option Bool :=
  if aChildWindow = self then some false
  else is_owner_of_walk w self (w.windows.length + 1) aChildWindow

/-- Source: the expression `aClickedWidget == nullptr || (flag(owner) &&
root.is_owner_of(*this)) || (flag(parent) && root.is_parent_of(*this))` of
`window::can_dismiss`, evaluated left to right; the clicked widget is named by
its root window. -/
def can_dismiss_by (w : World) (self : WinId) (x : window) (aClickedWidget : Option WinId)
    (ownerFlag parentFlag : window_style) : Option Bool :=
  match aClickedWidget with
  | none => some true
  | some root =>
    if has_style x.style ownerFlag then
      match is_owner_of w root self with
      | none => none
      | some true => some true
      | some false => some (has_style x.style parentFlag && x.is_child_of root)
    else some (has_style x.style parentFlag && x.is_child_of root)

/-- Source: `window::can_dismiss`. -/
def can_dismiss (w : World) (self : WinId) (aClickedWidget : Option WinId) : Option Bool :=
  match w.find self with
  | none => some false
  | some x =>
    match x.dismissal_type with
    | .CannotDismiss => some false
    | .CloseOnDismissal =>
      can_dismiss_by w self x aClickedWidget window_style.DismissOnOwnerClick
        window_style.DismissOnParentClick
    | .HideOnDismissal =>
      can_dismiss_by w self x aClickedWidget window_style.HideOnOwnerClick
        window_style.HideOnParentClick

/-- Source: `window::dismiss`. The keyboard grab it releases first belongs to
the keyboard service and is not part of the model. -/
def dismiss (w : World) (self : WinId) : World :=
  match w.find self with
  | none => w
  | some x =>
    match x.dismissal_type with
    | .CloseOnDismissal => close w self
    | .HideOnDismissal => show_window w self false
    | .CannotDismiss => w

/-- Source: the test `!w.dismissed() && is_owner_of(w) && w.can_dismiss(aClickedWidget)`
of `window::dismiss_children` for the registry entry `j`, evaluated left to
right. The code calls `w.dismissed()` through the reference that `window(i)`
returned: when the registry entry names no live window object the call has no
result (`none`), as when a parent walk does not end. -/
def dismiss_children_test (w : World) (self j : WinId) (aClickedWidget : Option WinId) :
    Option Bool :=
  match w.find j with
  | none => none
  | some x =>
    if x.dismissed then some false
    else
      match is_owner_of w self j with
      | none => none
      | some false => some false
      | some true => can_dismiss w j aClickedWidget

/-- Source: the loop `for (std::size_t i = 0; i < window_manager().window_count();)`
of `window::dismiss_children`, from index `i` on, with a bound on the number
of iterations; `none` when the bound is reached, when a registry entry names
no live window object, or when a parent walk does not end. -/
def dismiss_children_loop (self : WinId) (aClickedWidget : Option WinId) :
    Nat → World → Nat → Option World
  | 0, _, _ => none
  | fuel + 1, w, i =>
    match w.registry.get? i with
    | none => some w
    | some j =>
      match dismiss_children_test w self j aClickedWidget with
      | none => none
      | some false => dismiss_children_loop self aClickedWidget fuel w (i + 1)
      | some true =>
        match (w.find j).map window.dismissal_type with
        | some .CloseOnDismissal =>
          dismiss_children_loop self aClickedWidget fuel (dismiss w j) 0
        | _ => dismiss_children_loop self aClickedWidget fuel (dismiss w j) (i + 1)

/-- The number of iterations allowed to the loop of `dismiss_children`: every
iteration either advances the index or closes a window that was not closed. -/
def dismiss_children_bound (w : World) : Nat :=
  (w.registry.length + 1) * (w.registry.length + 1) + 1

/-- A write of the member `iDismissingChildren`, as the `neolib::scoped_flag`
of `window::dismiss_children` does on entry and on exit. -/
def window.scoped_flag (x : window) (b : Bool) : window :=
  { x with iDismissingChildren := b }

/-- The world in which the loop of `window::dismiss_children` starts: the
event `DismissingChildren` has been triggered and the `scoped_flag` has set
`iDismissingChildren`. -/
def dismiss_children_entry (w : World) (self : WinId) (aClickedWidget : Option WinId)
    (me : window) : World :=
  (w.emit (.DismissingChildren self aClickedWidget)).set self (me.scoped_flag true)

/-- The end of `window::dismiss_children`: the `scoped_flag` puts the former
value of `iDismissingChildren` back. -/
def dismiss_children_exit (v : World) (self : WinId) (me : window) : World :=
  v.modify self (fun y => y.scoped_flag me.iDismissingChildren)

/-- Source: `window::dismiss_children`. The `scoped_flag` sets
`iDismissingChildren` for the duration of the call and puts the former value
back at the end. The call is a member call: without a live window object
`self` it has no result. -/
def dismiss_children (w : World) (self : WinId) (aClickedWidget : Option WinId) :
    Option World :=
  match w.find self with
  | none => none
  | some me =>
    let w1 := dismiss_children_entry w self aClickedWidget me
    let after :=
      if !has_style me.iStyle window_style.RequiresOwnerFocus then
        dismiss_children_loop self aClickedWidget (dismiss_children_bound w1) w1 0
      else some w1
    after.map (fun v => dismiss_children_exit v self me)

/-! ## Focus and pointer routing -/

/-- Source: `window::has_entered_widget`. -/
def window.has_entered_widget (x : window) : Bool := x.iEnteredWidget.isSome

/-- Source: `window::has_focused_widget`. -/
def window.has_focused_widget (x : window) : Bool := x.iFocusedWidget.isSome

/-- The notification `focus_lost(reason)` to the previously focused widget,
when there is one. -/
def focus_lost_calls (previouslyFocused : Option Nat) (aFocusReason : focus_reason) :
    List Event :=
  match previouslyFocused with
  | some y => [Event.focus_lost y aFocusReason]
  | none => []

/-- Source: `window::set_focused_widget`: the window afterwards and the calls
made on widgets, in order. -/
def window.set_focused_widget (x : window) (aWidget : Nat) (aFocusReason : focus_reason) :
    window × List Event :=
  if x.iFocusedWidget = some aWidget then (x, [])
  else
    ({ x with iFocusedWidget := some aWidget },
      focus_lost_calls x.iFocusedWidget aFocusReason
        ++ [Event.focus_gained aWidget aFocusReason])

/-- Source: `window::release_focused_widget`. -/
def window.release_focused_widget (x : window) (aWidget : Nat) :
    Except window_error (window × List Event) :=
  if x.iFocusedWidget ≠ some aWidget then .error .widget_not_focused
  else .ok ({ x with iFocusedWidget := none }, [Event.focus_lost aWidget focus_reason.Other])

/-- The notification `mouse_left()` to the previously entered widget, when
there is one. -/
def mouse_left_calls (oldEnteredWidget : Option Nat) : List Event :=
  match oldEnteredWidget with
  | some o => [Event.mouse_left o]
  | none => []

/-- The widget `mouse_entered` resolves: `surface().capturing_widget()` when
the surface has a capturing widget, else `widget_for_mouse_event(aPosition)`. -/
def widget_under_mouse (capturing_widget : Option Nat) (widget_for_mouse_event : point → Nat)
    (aPosition : point) : Nat :=
  match capturing_widget with
  | none => widget_for_mouse_event aPosition
  | some c => c

/-- Source: the assignment `iEnteredWidget = newEnteredWidget;` of
`window::mouse_entered`. -/
def window.enter (x : window) (newEnteredWidget : Nat) : window :=
  { x with iEnteredWidget := some newEnteredWidget }

/-- Source: `window::mouse_entered`. `capturing_widget` is the capturing
widget of the surface, if it has one, and `widget_for_mouse_event` the hit
test of the widget base class. -/
def window.mouse_entered (x : window) (aPosition : point) (capturing_widget : Option Nat)
    (widget_for_mouse_event : point → Nat) : Except window_error (window × List Event) :=
  match x.surface with
  | .error e => .error e
  | .ok _ =>
    let newEnteredWidget := widget_under_mouse capturing_widget widget_for_mouse_event aPosition
    let oldEnteredWidget := x.iEnteredWidget
    if some newEnteredWidget ≠ oldEnteredWidget then
      .ok (x.enter newEnteredWidget,
        mouse_left_calls oldEnteredWidget
          ++ [Event.mouse_entered newEnteredWidget aPosition])
    else .ok (x, [])

/-- A `focus_policy` value: a bit mask. -/
abbrev focus_policy := Nat

/-- Modelled from the spec: the enumerators of `focus_policy` are declared in
a header that is not among the sources; the spec names the policy "ignore
non-client clicks", a single flag of the mask. -/
def focus_policy.IgnoreNonClient : focus_policy := 0x40000000

/-- The answers of the widgets that `update_click_focus` asks. Where the
source passes `aClickPos - w.origin()` to a widget `w`, the answer is given as
a function of the widget and of `aClickPos`. -/
structure widget_tree where
  /-- The answer of `a.is_descendent_of(b)`. -/
  is_descendent_of : Nat → Nat → Bool
  /-- The answer of `w.client_rect().contains(aClickPos - w.origin())`. -/
  client_rect_contains : Nat → point → Bool
  /-- Whether `w.hit_test(aClickPos - w.origin()).part == widget_part::Client`. -/
  hit_test_is_client : Nat → point → Bool
  /-- The answer of `w.focus_policy()`. -/
  focus_policy : Nat → focus_policy
  /-- The answer of `w.enabled()`. -/
  enabled : Nat → Bool
  /-- The answer of `w.can_set_focus(reason)`. -/
  can_set_focus : Nat → focus_reason → Bool
  /-- The parent `w.parent()`, when `w.has_parent()`. -/
  parent : Nat → Option Nat

/-- Source: the local `childHasFocus` of `window::update_click_focus`. -/
def child_has_focus (t : widget_tree) (x : window) (aCandidateWidget : Nat) : Bool :=
  x.has_focused_widget &&
    (match x.iFocusedWidget with
     | some f => t.is_descendent_of f aCandidateWidget
     | none => false)

/-- Source: the condition of the early `return` of `window::update_click_focus`. -/
def click_keeps_focus (t : widget_tree) (x : window) (aCandidateWidget : Nat)
    (aClickPos : point) : Bool :=
  child_has_focus t x aCandidateWidget &&
    (match x.iFocusedWidget with
     | some f => t.client_rect_contains f aClickPos
     | none => false)

/-- Source: the local `ignoreNonClientArea` of `window::update_click_focus`:
`(focus_policy() & IgnoreNonClient) != IgnoreNonClient`. -/
def ignoreNonClientArea (t : widget_tree) (aCandidateWidget : Nat) : Bool :=
  (t.focus_policy aCandidateWidget &&& focus_policy.IgnoreNonClient)
    != focus_policy.IgnoreNonClient

/-- Source: the local `focusReason` of `window::update_click_focus`. -/
def click_focus_reason (inClientArea : Bool) : focus_reason :=
  if inClientArea then .ClickClient else .ClickNonClient

/-- Source: `window::update_click_focus`: the calls it makes, in order, every
invocation being recorded with its candidate. The recursion follows the parent
chain of the candidate; `fuel` bounds the number of invocations and `none`
stands for a chain longer than the bound. No member of the window is written. -/
def update_click_focus (t : widget_tree) (x : window) (aClickPos : point) :
    Nat → Nat → Option (List Event)
  | 0, _ => none
  | fuel + 1, aCandidateWidget =>
    let childHasFocus := child_has_focus t x aCandidateWidget
    if click_keeps_focus t x aCandidateWidget aClickPos then
      some [Event.update_click_focus aCandidateWidget]
    else
      let inClientArea := t.hit_test_is_client aCandidateWidget aClickPos
      let focusReason := click_focus_reason inClientArea
      if t.enabled aCandidateWidget && t.can_set_focus aCandidateWidget focusReason then
        if inClientArea || (!ignoreNonClientArea t aCandidateWidget && !childHasFocus) then
          some [Event.update_click_focus aCandidateWidget,
            Event.set_focus aCandidateWidget focusReason]
        else some [Event.update_click_focus aCandidateWidget]
      else if (t.parent aCandidateWidget).isSome && !childHasFocus then
        match t.parent aCandidateWidget with
        | some parent =>
          (update_click_focus t x aClickPos fuel parent).map
            (fun calls => Event.update_click_focus aCandidateWidget :: calls)
        | none => some [Event.update_click_focus aCandidateWidget]
      else some [Event.update_click_focus aCandidateWidget]

/-! ## The nested window surrogate -/

/-- Source: the statement `if (iEnteredWidget == &aWidget) iEnteredWidget = nullptr;`
of `window::widget_removed`. -/
def window.clear_entered (x : window) (aWidget : Nat) : window :=
  if x.iEnteredWidget = some aWidget then { x with iEnteredWidget := none } else x

/-- Source: the statement `if (iFocusedWidget == &aWidget) iFocusedWidget = nullptr;`
of `window::widget_removed`. -/
def window.clear_focused (x : window) (aWidget : Nat) : window :=
  if x.iFocusedWidget = some aWidget then { x with iFocusedWidget := none } else x

/-- Source: `window::widget_removed`. `capturing_widget` is the widget that
holds the input capture of the surface, if any; the result is the window, the
capturing widget of the surface afterwards and the calls made, in order. The
test `!iSurfaceDestroyed` is applied to the `std::optional` itself: it holds
when the optional is empty. `release_capture` ends the capture. -/
def window.widget_removed (x : window) (aWidget : Nat) (capturing_widget : Option Nat) :
    Except window_error (window × Option Nat × List Event) :=
  let x1 := x.clear_entered aWidget
  if x1.iSurfaceDestroyed.isNone then
    match x1.surface with
    | .error e => .error e
    | .ok _ =>
      if capturing_widget = some aWidget then
        .ok (x1.clear_focused aWidget, none,
          [Event.release_capture aWidget, Event.layout_items])
      else .ok (x1.clear_focused aWidget, capturing_widget, [Event.layout_items])
  else .ok (x1.clear_focused aWidget, capturing_widget, [Event.layout_items])

/-! ## Title text -/

/-- Source: `window::title_text`. -/
def window.title_text (x : window) : String := x.iTitleText

/-- The call `title_bar().set_title(t)`: the title bar made by
`create_title_bar` shows `t`. Without a title bar `title_bar()` has no object
to return (`none`); the base class that declares it is not among the sources. -/
def window.title_bar_set_title (x : window) (t : String) : Option window :=
  match x.title_bar_title with
  | some _ => some { x with title_bar_title := some t }
  | none => none

/-- The call `native_window().set_title_text(t)` made when `has_native_window()`. -/
def native_title_calls (x : window) (t : String) : List Event :=
  if x.has_native_window then [Event.native_set_title_text t] else []

/-- The assignment `iTitleText = aTitleText;` of `window::set_title_text`. -/
def window.assign_title (x : window) (aTitleText : String) : window :=
  { x with iTitleText := aTitleText }

/-- Source: `window::set_title_text`: the window afterwards and the calls
made, in order; `none` when `title_bar()` is called on a window without a
title bar. -/
def window.set_title_text (x : window) (aTitleText : String) :
    Option (window × List Event) :=
  if x.iTitleText ≠ aTitleText then
    let x1 := x.assign_title aTitleText
    if has_style x1.style window_style.TitleBar then
      match x1.title_bar_set_title x1.title_text with
      | some x2 =>
        some (x2, Event.title_bar_set_title x1.title_text
          :: native_title_calls x2 x1.title_text)
      | none => none
    else some (x1, native_title_calls x1 x1.title_text)
  else some (x, [])

/-! ## Frame rate -/

/-- Source: `window::fps`. `native_fps` is the answer of `fps()` of the native
window; the `double` values are modelled by rational numbers. -/
def window.fps (x : window) (native_fps : surface_window → ℚ) : Except window_error ℚ :=
  if x.has_surface then
    match x.native_window with
    | .ok s => .ok (native_fps s)
    | .error e => .error e
  else .ok 0

/-- Source: `window::potential_fps`. `native_potential_fps` is the answer of
`potential_fps()` of the native window. -/
def window.potential_fps (x : window) (native_potential_fps : surface_window → ℚ) :
    Except window_error ℚ :=
  if x.has_surface then
    match x.native_window with
    | .ok s => .ok (native_potential_fps s)
    | .error e => .error e
  else .ok 0

/-! ## Popup placement -/

/-- The number of binary digits of `n`, counted in at most `fuel` steps. -/
def double.bit_length_aux : Nat → Nat → Nat
  | 0, _ => 0
  | fuel + 1, n => if n = 0 then 0 else double.bit_length_aux fuel (n / 2) + 1

/-- The number of binary digits of `n`. -/
def double.bit_length (n : Nat) : Nat := double.bit_length_aux n n

/-- The `double` of the program is the IEEE 754 binary64 format. Every finite
value of it is a whole multiple of 2^-1074, and the model represents the
finite value `v` by the integer `v * 2^1074` (its number of units); the two
zeros are one value, infinities and NaN are not represented. A binary64
significand has 53 binary digits: of a magnitude of `n` units the format keeps
the 53 leading digits and drops the `dropped_bits n` digits below them. -/
def double.dropped_bits (n : Nat) : Nat := double.bit_length n - 53

/-- The binary64 value nearest to the magnitude `n` (in units of 2^-1074): the
nearest whole multiple of `2 ^ dropped_bits n`, and of two nearest ones the
one with the even significand (round to nearest, ties to even). -/
def double.round_magnitude (n : Nat) : Nat :=
  if 2 * (n % (1 <<< double.dropped_bits n)) < 1 <<< double.dropped_bits n then
    (n >>> double.dropped_bits n) <<< double.dropped_bits n
  else if 1 <<< double.dropped_bits n < 2 * (n % (1 <<< double.dropped_bits n)) then
    ((n >>> double.dropped_bits n) + 1) <<< double.dropped_bits n
  else if (n >>> double.dropped_bits n) % 2 = 0 then
    (n >>> double.dropped_bits n) <<< double.dropped_bits n
  else ((n >>> double.dropped_bits n) + 1) <<< double.dropped_bits n

/-- The rounding of the exact result `z` of an operation (in units of 2^-1074)
to binary64 in the default rounding mode, with an exponent that is not bounded
above. -/
def double.round (z : Int) : Int := z.sign * (double.round_magnitude z.natAbs : Int)

/-- A rounded result of magnitude 2^1024 (2^2098 units) or more is an infinity
in binary64: it is no finite value (`none`). -/
def double.finite (z : Int) : Option Int := if z.natAbs < 1 <<< 2098 then some z else none

/-- The operator `+` of `double`: the exact sum, rounded; `none` when the
result is an infinity. -/
def double.add (a b : Int) : Option Int := double.finite (double.round (a + b))

/-- The operator `-` of `double`: the exact difference, rounded; `none` when
the result is an infinity. -/
def double.sub (a b : Int) : Option Int := double.finite (double.round (a - b))

/-- The value of `v` after the compound assignment `v += (a - b)` on `double`
values: the difference is rounded, then the sum is rounded. -/
def double.add_difference (v a b : Int) : Option Int :=
  (double.sub a b).bind (fun d => double.add v d)

/-- Modelled from the spec: the class `rect` is declared in a header that is
not among the sources. A rect has a position `x`, `y` and extents `cx`, `cy`,
four `double` values, each given by its number of units of 2^-1074. -/
structure rect where
  x : Int
  y : Int
  cx : Int
  cy : Int
deriving DecidableEq, Repr

/-- Modelled from the spec: `rect::right()` is `x + cx`, a `double` addition. -/
def rect.right (r : rect) : Option Int := double.add r.x r.cx

/-- Modelled from the spec: `rect::bottom()` is `y + cy`, a `double` addition. -/
def rect.bottom (r : rect) : Option Int := double.add r.y r.cy

/-- Source: the statement `if (aPopupRect.x < desktopRect.x) aPopupRect.x +=
(desktopRect.x - aPopupRect.x);` of `corrected_popup_rect`. -/
def popup_rect_left (desktopRect aPopupRect : rect) : Option rect :=
  if aPopupRect.x < desktopRect.x then
    (double.add_difference aPopupRect.x desktopRect.x aPopupRect.x).map
      (fun v => { aPopupRect with x := v })
  else some aPopupRect

/-- Source: the statement `if (aPopupRect.y < desktopRect.y) aPopupRect.y +=
(desktopRect.y - aPopupRect.y);` of `corrected_popup_rect`. -/
def popup_rect_top (desktopRect aPopupRect : rect) : Option rect :=
  if aPopupRect.y < desktopRect.y then
    (double.add_difference aPopupRect.y desktopRect.y aPopupRect.y).map
      (fun v => { aPopupRect with y := v })
  else some aPopupRect

/-- Source: the statement `if (aPopupRect.right() > desktopRect.right())
aPopupRect.position().x += (desktopRect.right() - aPopupRect.right());` of
`corrected_popup_rect`; `position()` refers to the `x`, `y` of the rect itself. -/
def popup_rect_right (desktopRect aPopupRect : rect) : Option rect :=
  aPopupRect.right.bind (fun r => desktopRect.right.bind (fun dr =>
    if r > dr then
      (double.add_difference aPopupRect.x dr r).map (fun v => { aPopupRect with x := v })
    else some aPopupRect))

/-- Source: the statement `if (aPopupRect.bottom() > desktopRect.bottom())
aPopupRect.position().y += (desktopRect.bottom() - aPopupRect.bottom());` of
`corrected_popup_rect`. -/
def popup_rect_bottom (desktopRect aPopupRect : rect) : Option rect :=
  aPopupRect.bottom.bind (fun b => desktopRect.bottom.bind (fun db =>
    if b > db then
      (double.add_difference aPopupRect.y db b).map (fun v => { aPopupRect with y := v })
    else some aPopupRect))

/-- Source: the statement `aPopupRect.x = std::max(aPopupRect.x, desktopRect.x);`
of `corrected_popup_rect`. -/
def popup_rect_max_x (desktopRect aPopupRect : rect) : rect :=
  { aPopupRect with x := max aPopupRect.x desktopRect.x }

/-- Source: the statement `aPopupRect.y = std::max(aPopupRect.y, desktopRect.y);`
of `corrected_popup_rect`. -/
def popup_rect_max_y (desktopRect aPopupRect : rect) : rect :=
  { aPopupRect with y := max aPopupRect.y desktopRect.y }

/-- Source: the statement `if (aPopupRect.right() > desktopRect.right())
aPopupRect.cx += (desktopRect.right() - aPopupRect.right());` of
`corrected_popup_rect`. -/
def popup_rect_width (desktopRect aPopupRect : rect) : Option rect :=
  aPopupRect.right.bind (fun r => desktopRect.right.bind (fun dr =>
    if r > dr then
      (double.add_difference aPopupRect.cx dr r).map (fun v => { aPopupRect with cx := v })
    else some aPopupRect))

/-- Source: the statement `if (aPopupRect.bottom() > desktopRect.bottom())
aPopupRect.cy += (desktopRect.bottom() - aPopupRect.bottom());` of
`corrected_popup_rect`. -/
def popup_rect_height (desktopRect aPopupRect : rect) : Option rect :=
  aPopupRect.bottom.bind (fun b => desktopRect.bottom.bind (fun db =>
    if b > db then
      (double.add_difference aPopupRect.cy db b).map (fun v => { aPopupRect with cy := v })
    else some aPopupRect))

/-- Source: `corrected_popup_rect(i_window&, rect)`: its eight statements in
order, in `double` arithmetic; `desktopRect` is the answer of
`desktop_rect(aPopup)` of the window manager. The result is `none` when one of
the sums or differences is an infinity: the model does not follow the
computation beyond the finite values. -/
def corrected_popup_rect (desktopRect aPopupRect : rect) : Option rect :=
  (popup_rect_left desktopRect aPopupRect).bind (fun r1 =>
    (popup_rect_top desktopRect r1).bind (fun r2 =>
      (popup_rect_right desktopRect r2).bind (fun r3 =>
        (popup_rect_bottom desktopRect r3).bind (fun r4 =>
          (popup_rect_width desktopRect
            (popup_rect_max_y desktopRect (popup_rect_max_x desktopRect r4))).bind
            (popup_rect_height desktopRect)))))

/-! ## Concrete scenarios -/

/-- A world without windows on a windowed (not fullscreen) display. -/
def empty_world : World :=
  { windows := []
    registry := []
    events := []
    program_options_nest := false
    display_is_fullscreen := false
    display_fullscreen_placement :=
      { video_mode := some 0, state := .Normal, position_specified := false }
    widget_ancestors := []
    surface_close_destroys := [] }

/-- The default placement: no video mode, normal state. -/
def default_placement : window_placement :=
  { video_mode := none, state := .Normal, position_specified := false }

/-- A native desktop window as the backend creates it: enabled, not fullscreen. -/
def desktop_surface (handle : Nat) : surface_window :=
  { handle := handle
    is_window_type := true
    native_enabled := true
    native_fullscreen := false
    close_called := false }

/-- A request for a top level window of the given style, default placement. -/
def plain_request (aStyle : window_style) (handle : Nat) : construct_request :=
  { aParent := none
    aPlacement := default_placement
    aWindowTitle := none
    aStyle := aStyle
    app_name := "app"
    created_surface := desktop_surface handle
    found_surface := none }

/-- The nested window 2 built by the constructor as a child of the fullscreen
root window (request `nested_request 1 10` in `fullscreen_root_world`), after
the application has disabled it through the widget interface (`enable(false)`):
no surface of its own, enable count zero, local enabled state false. -/
def disabled_nested_window : window :=
  { iParentWindow := some 1
    iPlacement := default_placement
    iClosed := false
    iNest := none
    iSurfaceWindow := none
    iNestedWindowDetails := true
    iReadyToRender := false
    iTitleText := "app"
    iStyle := window_style.Nested
    iCountedEnable := 0
    iEnteredWidget := none
    iFocusedWidget := none
    iDismissingChildren := false
    iSurfaceDestroyed := some false
    widget_enabled := false
    widget_visible := true
    found_surface := some 10
    title_bar_title := none }

/-- One top level window, identity 1, built by the constructor. -/
def one_window_world : World := (construct empty_world 1 (plain_request 0 10)).world

/-- The window of `one_window_world` after `set_style(window_style::Nested)`. -/
def surface_nested_world : World := set_style one_window_world 1 window_style.Nested

/-! ## Notions used in the statements -/

/-- A request for a child window of `parent` that gets a native window of its
own (default placement, no nesting). -/
def child_request (parent : WinId) (aStyle : window_style) (handle : Nat) :
    construct_request :=
  { plain_request aStyle handle with aParent := some parent }

/-- A request for a nested child window of `parent` in fullscreen placement
(a video mode is specified). -/
def nested_fullscreen_request (parent : WinId) : construct_request :=
  { child_request parent window_style.Nested 20 with
    aPlacement := { video_mode := some 0, state := .Normal, position_specified := false } }

/-- A fullscreen top level window (identity 1) that hosts nested windows: it
is built with a video mode on a backend that reports it fullscreen. -/
def fullscreen_root_world : World :=
  (construct empty_world 1
    { plain_request 0 10 with
      aPlacement := { video_mode := some 0, state := .Normal, position_specified := false }
      created_surface := { desktop_surface 10 with native_fullscreen := true } }).world

/-- A request for a nested child window of `parent`, default placement; the
widget base class finds the surface with handle `surface` for it. -/
def nested_request (parent : WinId) (surface : Nat) : construct_request :=
  { child_request parent window_style.Nested 20 with found_surface := some surface }

/-- A request for a top level window whose placement state is Iconized. -/
def iconized_request : construct_request :=
  { plain_request 0 10 with
    aPlacement := { video_mode := none, state := .Iconized, position_specified := false } }

/-- How often the `Closed` notification of window `i` has fired. -/
def closed_count (w : World) (i : WinId) : Nat := w.events.count (Event.Closed i)

/-- How often `activate` has been called on window `i`. -/
def activation_count (w : World) (i : WinId) : Nat := w.events.count (Event.activate i)

/-- A sequence of `counted_window_enable` calls on one window, in order. -/
def enable_sequence (x : window) (calls : List Bool) : window :=
  calls.foldl window.counted_window_enable x

/-- The windows for which `counted_window_enable` writes the state that
`window_enabled` reads: windows without a surface of their own (local enabled
state) and surface owners with a live native window that are not a nest
(native enable state). -/
def pushes_to_window_enabled (x : window) : Bool :=
  !x.is_surface || (x.has_native_window && !x.is_nest)

/-- A view `π` of a window that the bookkeeping writes of `window.cpp`
(visibility, closed flag, surface close, nest collection, surrogate, title
bar, destroyed flag) leave alone. -/
structure Inert {α : Type} (π : window → α) : Prop where
  visible : ∀ (x : window) (b : Bool), π { x with widget_visible := b } = π x
  closed : ∀ (x : window) (b : Bool), π { x with iClosed := b } = π x
  surface_close : ∀ (x : window) (s : surface_window),
    π { x with iSurfaceWindow := some { s with close_called := true } }
      = π { x with iSurfaceWindow := some s }
  nest : ∀ (x : window) (l : Option (List WinId)), π { x with iNest := l } = π x
  details : ∀ (x : window) (b : Bool), π { x with iNestedWindowDetails := b } = π x
  title : ∀ (x : window) (t : Option String), π { x with title_bar_title := t } = π x
  destroyed : ∀ (x : window) (b : Option Bool), π { x with iSurfaceDestroyed := b } = π x

/-- The worlds `w` and `v` hold the same window objects as far as the view
`π` can tell. -/
def frame {α : Type} (π : window → α) (w v : World) : Prop :=
  ∀ j : WinId, (v.find j).map π = (w.find j).map π

/-- Every window object of `v` is a window object of `w` with the same view `π`
(objects may have ended their lifetime on the way from `w` to `v`). -/
def stable {α : Type} (π : window → α) (w v : World) : Prop :=
  ∀ (j : WinId) (y : window), v.find j = some y → ∃ x, w.find j = some x ∧ π y = π x

/-- The outcome `r` of a construction step started in world `w` for the object
`self`, seen through the view `π`: registry and widget tree are those of `w`,
the other objects look the same, and `self` looks the same on success and is
gone on failure. -/
def construction_step {α : Type} (π : window → α) (w : World) (self : WinId)
    (r : construct_result) : Prop :=
  r.world.registry = w.registry ∧
  r.world.widget_ancestors = w.widget_ancestors ∧
  (∀ j, j ≠ self → (r.world.find j).map π = (w.find j).map π) ∧
  (r.failure = none → (r.world.find self).map π = (w.find self).map π) ∧
  (r.failure ≠ none → r.world.find self = none)

/-- The world `v` in which the constructor of `self` leaves its checks, seen
from the world `w` the constructor started in: the other objects are
untouched, `self` has been registered, the widget tree is the same. -/
def construct_base (w : World) (self : WinId) (v : World) : Prop :=
  (∀ j, j ≠ self → v.find j = w.find j) ∧
  v.registry = w.registry ++ [self] ∧
  v.widget_ancestors = w.widget_ancestors

/-- The style and the surface ownership of a window. -/
def window.core (x : window) : window_style × Bool := (x.iStyle, x.is_surface)

/-- No window of the world is both a surface owner and nested. -/
def surface_nested_exclusive (w : World) : Prop :=
  ∀ (j : WinId) (x : window), w.find j = some x → ¬ (x.is_surface = true ∧ x.is_nested = true)

/-- The parent chain of every window ends: there is a rank that drops from
every live window to its parent window. -/
def acyclic (w : World) : Prop :=
  ∃ rank : WinId → Nat, ∀ (j : WinId) (x : window) (p : WinId),
    w.find j = some x → x.iParentWindow = some p → rank p < rank j

/-- Window 1 is a top level window; window 2 (style DismissOnOwnerClick) and
window 3 (style HideOnOwnerClick) are child windows of window 1; all three are
built by the constructor. -/
def owner_world : World :=
  (construct
    (construct one_window_world 2
      (child_request 1 window_style.DismissOnOwnerClick 20)).world 3
    (child_request 1 window_style.HideOnOwnerClick 30)).world

/-- What the window code leaves alone in a window object that it neither
closes nor hides: the closed flag, the style and the parent window; a visible
window stays visible (`activate` may show a hidden one). -/
def window.kept (x y : window) : Prop :=
  y.iClosed = x.iClosed ∧ y.iStyle = x.iStyle ∧ y.iParentWindow = x.iParentWindow ∧
    (x.widget_visible = true → y.widget_visible = true)

/-- The relation `window.kept` between the states of one window identity in
two worlds: the object is alive in both or in neither. -/
def kept_opt : Option window → Option window → Prop
  | some x, some y => x.kept y
  | none, none => True
  | _, _ => False

/-- The world `v` comes from `w` by writes that no dismissal test can see:
same registry, same reactions of the surfaces to `close()`, and every window
object kept in the sense of `window.kept`. -/
def calm (w v : World) : Prop :=
  v.surface_close_destroys = w.surface_close_destroys ∧ v.registry = w.registry ∧
    ∀ j : WinId, kept_opt (w.find j) (v.find j)

/-- The window `self` is an owner of the window `i`: the parent walk of
`is_owner_of` from `i` reaches `self`. -/
def owns (w : World) (self i : WinId) : Prop :=
  i ≠ self ∧ ∃ fuel : Nat, is_owner_of_walk w self fuel i = some true

/-- No live window has a parent window that its surface destroys on `close()`:
parent pointers are not left dangling by a close. -/
def orphan_free (w : World) : Prop :=
  ∀ d ∈ w.surface_close_destroys, ∀ (i : WinId) (x : window),
    w.find i = some x → x.iParentWindow ≠ some d

/-- The registry of the window manager names live window objects only, each of
them once. -/
def registry_sound (w : World) : Prop :=
  w.registry.Nodup ∧ ∀ j ∈ w.registry, ∃ x, w.find j = some x

/-- The window `i` is alive and its closed flag is not set. -/
def World.is_open (w : World) (i : WinId) : Bool :=
  match w.find i with
  | some x => !x.iClosed
  | none => false

/-- The number of registered windows that are alive and not closed: what the
loop of `dismiss_children` uses up when it closes a window. -/
def World.open_count (w : World) : Nat :=
  (w.registry.toFinset.filter (fun k => w.is_open k = true)).card

/-- The world `v` is reached from `w` by a sequence of `dismiss()` calls, each
on a registered window for which the test of the loop of `dismiss_children`
(not yet dismissed, owned by `self`, `can_dismiss(aClickedWidget)`) held at the
time of the call. -/
inductive dismiss_run (self : WinId) (aClickedWidget : Option WinId) : World → World → Prop
  | done (w : World) : dismiss_run self aClickedWidget w w
  | step (w v : World) (j : WinId) :
      j ∈ w.registry → dismiss_children_test w self j aClickedWidget = some true →
      dismiss_run self aClickedWidget (dismiss w j) v → dismiss_run self aClickedWidget w v

/-- What a sequence of dismissals by `owner` does to the world: the surviving
window objects keep style and parent and stay closed once closed; a window
object ends its lifetime only when it is owned by `owner`, has the dismissal
type CloseOnDismissal and its surface destroys it on `close()`; live registered
windows stay registered; a window that `owner` does not own is kept; a
registry that named live window objects only, each once, still does. -/
structure evolves (owner : WinId) (w v : World) : Prop where
  destroys : v.surface_close_destroys = w.surface_close_destroys
  survivors : ∀ (i : WinId) (y : window), v.find i = some y →
    ∃ x, w.find i = some x ∧ y.iStyle = x.iStyle ∧ y.iParentWindow = x.iParentWindow ∧
      (x.iClosed = true → y.iClosed = true)
  ended : ∀ (i : WinId) (x : window), w.find i = some x → v.find i = none →
    x.dismissal_type = .CloseOnDismissal ∧ i ∈ w.surface_close_destroys ∧ owns w owner i
  registered : ∀ i : WinId, i ∈ w.registry → v.find i ≠ none → i ∈ v.registry
  untouched : ∀ (i : WinId) (x : window), w.find i = some x → ¬ owns w owner i →
    ∃ y, v.find i = some y ∧ x.kept y
  sound : registry_sound w → registry_sound v

/-- The child windows of `owner_world` as the constructor leaves them: parent
window 1, a native surface of their own, visible, not closed. -/
def owner_world_child (aStyle : window_style) (handle : Nat) : window :=
  { disabled_nested_window with
    iSurfaceWindow := some (desktop_surface handle)
    iNestedWindowDetails := false
    iStyle := aStyle
    widget_enabled := true
    found_surface := none }

/-- The top level window 1 of `owner_world` as the constructor leaves it. -/
def owner_world_root : window :=
  { owner_world_child window_style.Invalid 10 with iParentWindow := none }

/-- The world `owner_world` with a surface of window 2 that destroys the
window object when it is closed. -/
def owner_world_destroying : World :=
  { owner_world with surface_close_destroys := [2] }

/-- The title bar of the window, when its style asks for one, exists and
shows the title text: the state in which `init` leaves the title bar. -/
def title_bar_synced (x : window) : Prop :=
  has_style x.style window_style.TitleBar = true → x.title_bar_title = some x.iTitleText

/-- The top level window of style TitleBar as the constructor leaves it
(request `plain_request window_style.TitleBar 10` in the empty world). -/
def titled_window : window :=
  { owner_world_root with iStyle := window_style.TitleBar, title_bar_title := some "app" }

/-- The window `titled_window` after its style has been set to none and its
title to "editor": the title bar made by the constructor still shows "app". -/
def untold_title_window : window :=
  { titled_window with iStyle := window_style.Invalid, iTitleText := "editor" }

/-- The largest magnitude of a coordinate for which no sum or difference of
`corrected_popup_rect` can reach an infinity: 2^1020 (2^2094 units). -/
def double.bound : Int := ((1 <<< 2094 : Nat) : Int)

/-- The integer `z` is the number of units of a binary64 value (rounding
leaves it as it is) of magnitude at most 2^1020. -/
@[reducible] def double.is_value (z : Int) : Prop :=
  double.round z = z ∧ -double.bound ≤ z ∧ z ≤ double.bound

/-- The four coordinates of the rect are binary64 values of magnitude at most
2^1020. -/
@[reducible] def rect.is_value (r : rect) : Prop :=
  double.is_value r.x ∧ double.is_value r.y ∧ double.is_value r.cx ∧ double.is_value r.cy

/-- The value `z` is a whole multiple of `2 ^ k` units, at most 2^48 of them
in magnitude: sums and differences of a few such values need no rounding. With
`k = 1074` these are the whole numbers up to 2^48. -/
@[reducible] def double.on_grid (k : Nat) (z : Int) : Prop :=
  ((1 <<< k : Nat) : Int) ∣ z ∧ -(281474976710656 * ((1 <<< k : Nat) : Int)) ≤ z ∧
    z ≤ 281474976710656 * ((1 <<< k : Nat) : Int)

/-- The four coordinates of the rect are whole multiples of `2 ^ k` units, at
most 2^48 of them in magnitude. -/
@[reducible] def rect.on_grid (k : Nat) (r : rect) : Prop :=
  double.on_grid k r.x ∧ double.on_grid k r.y ∧ double.on_grid k r.cx ∧ double.on_grid k r.cy

/-- The rect `inner` lies inside the rect `outer`, as the program can test it:
with the values that `right()` and `bottom()` return. -/
def rect.inside (inner outer : rect) : Prop :=
  outer.x ≤ inner.x ∧ outer.y ≤ inner.y ∧
    (∃ a b, inner.right = some a ∧ outer.right = some b ∧ a ≤ b) ∧
    (∃ a b, inner.bottom = some a ∧ outer.bottom = some b ∧ a ≤ b)

/-- The binary64 value `m * 2^-e` (for `e ≤ 1074`), in units of 2^-1074. -/
def double.of_scaled (m : Int) (e : Nat) : Int := m * ((1 <<< (1074 - e) : Nat) : Int)

/-- The binary64 value of the whole number `n`, in units of 2^-1074. -/
def double.of_int (n : Int) : Int := double.of_scaled n 0

/-- The first two statements of `corrected_popup_rect`, seen on one axis: the
position `v` after `if (v < lo) v += (lo - v);`. -/
def double.raised (lo v : Int) : Option Int :=
  if v < lo then double.add_difference v lo v else some v

/-- The third and fourth statement of `corrected_popup_rect`, seen on one
axis with desktop position `dpos`, desktop extent `dext` and popup extent
`ext`: the position `pos` after `if (pos + ext > dpos + dext) pos += ((dpos +
dext) - (pos + ext));`. -/
def double.pulled (dpos dext pos ext : Int) : Option Int :=
  (double.add pos ext).bind (fun r => (double.add dpos dext).bind (fun dr =>
    if r > dr then double.add_difference pos dr r else some pos))

/-- The last two statements of `corrected_popup_rect`, seen on one axis: the
extent `ext` after `if (pos + ext > dpos + dext) ext += ((dpos + dext) - (pos +
ext));`. -/
def double.shrunk (dpos dext pos ext : Int) : Option Int :=
  (double.add pos ext).bind (fun r => (double.add dpos dext).bind (fun dr =>
    if r > dr then double.add_difference ext dr r else some ext))

/-- The statements of `corrected_popup_rect` that concern one axis, in their
order: the position and the extent they leave. -/
def double.axis (dpos dext pos ext : Int) : Option (Int × Int) :=
  (double.raised dpos pos).bind (fun p1 =>
    (double.pulled dpos dext p1 ext).bind (fun p3 =>
      (double.shrunk dpos dext (max p3 dpos) ext).map (fun e => (max p3 dpos, e))))

/-- A desktop of 800 by 600 at the origin. -/
def desktop_800_600 : rect :=
  { x := 0, y := 0, cx := double.of_int 800, cy := double.of_int 600 }

/-- A popup of 300 by 700 at (700, 100): it hangs over the right and the
bottom edge of `desktop_800_600` and is taller than it. -/
def overhanging_popup : rect :=
  { x := double.of_int 700, y := double.of_int 100, cx := double.of_int 300,
    cy := double.of_int 700 }

/-- The desktop `rect{ 10.0, 0.0, 5.4, 10.0 }`: the literal 5.4 is the binary64
value 6079859496950170 * 2^-50. -/
def desktop_5_4 : rect :=
  { x := double.of_int 10, y := 0, cx := double.of_scaled 6079859496950170 50,
    cy := double.of_int 10 }

/-- The popup `rect{ 0.0, 0.0, 5.7, 1.0 }`: the literal 5.7 is the binary64
value 6417629469002957 * 2^-50. -/
def popup_5_7 : rect :=
  { x := 0, y := 0, cx := double.of_scaled 6417629469002957 50, cy := double.of_int 1 }

/-- The rect `{ 10.0, 0.0, 5.4000000000000012, 1.0 }`: its width is the
binary64 value 6079859496950171 * 2^-50, the successor of 5.4. -/
def popup_5_4_above : rect :=
  { x := double.of_int 10, y := 0, cx := double.of_scaled 6079859496950171 50,
    cy := double.of_int 1 }

/-- The rect `{ 10.0, 0.0, 5.3999999999999995, 1.0 }`: its width is the
binary64 value 6079859496950169 * 2^-50, the predecessor of 5.4. -/
def popup_5_4_below : rect :=
  { x := double.of_int 10, y := 0, cx := double.of_scaled 6079859496950169 50,
    cy := double.of_int 1 }

/-- The desktop `rect{ 0.0, 0.0, 5.4, 10.0 }`. -/
def desktop_origin_5_4 : rect :=
  { x := 0, y := 0, cx := double.of_scaled 6079859496950170 50, cy := double.of_int 10 }

/-- The popup `rect{ 3.0, 0.0, 5.2, 1.0 }`: the literal 5.2 is the binary64
value 5854679515581645 * 2^-50. -/
def popup_5_2 : rect :=
  { x := double.of_int 3, y := 0, cx := double.of_scaled 5854679515581645 50,
    cy := double.of_int 1 }

/-- The rect `{ 0.20000000000000107, 0.0, 5.1999999999999993, 1.0 }`: its
position is the binary64 value 112589990684263 * 2^-49, its width the binary64
value 1463669878895411 * 2^-48. -/
def popup_5_2_corrected : rect :=
  { x := double.of_scaled 112589990684263 49, y := 0,
    cx := double.of_scaled 1463669878895411 48, cy := double.of_int 1 }

/-- The rect `{ 500.0, 0.0, 300.0, 600.0 }`. -/
def popup_500_0 : rect :=
  { x := double.of_int 500, y := 0, cx := double.of_int 300, cy := double.of_int 600 }

/-- Every parent pointer of a live window points to a live window. -/
def parents_alive (w : World) : Prop :=
  ∀ (j : WinId) (x : window) (p : WinId),
    w.find j = some x → x.iParentWindow = some p → ∃ y, w.find p = some y

/-- The worlds in which `dismiss_children` reads live window objects only, now
and after each of its dismissals: parent chains end, every parent pointer of a
live window points to a live window, no window that its surface destroys on
`close()` has child windows, and the registry names live window objects only,
each once. -/
def well_formed (w : World) : Prop :=
  acyclic w ∧ parents_alive w ∧ orphan_free w ∧ registry_sound w

/-- The number of registered windows that are alive and not dismissed. -/
def World.undismissed_count (w : World) : Nat :=
  (w.registry.toFinset.filter
    (fun k => (w.find k).map (fun x => !x.dismissed) = some true)).card

/-- Window 1 is a top level window, window 2 (style HideOnOwnerClick) is a
child of window 1 and window 3 (style DismissOnOwnerClick) is a child of window
2; the surface of window 3 destroys the window object when it is closed. -/
def owner_chain_world : World :=
  { (construct
      (construct one_window_world 2
        (child_request 1 window_style.HideOnOwnerClick 20)).world 3
      (child_request 2 window_style.DismissOnOwnerClick 30)).world with
    surface_close_destroys := [3] }

/-- The world `owner_world` after the construction of a window 4 has failed
(its placement state is Iconized): the registry entry 4 names no live window
object. -/
def owner_world_failed_fourth : World := (construct owner_world 4 iconized_request).world

/-- The rank used for the scenario worlds: the identity of the window. -/
def scenario_rank (j : WinId) : Nat := j

/-- A window whose widget 5 has the focus and whose widget 6 is entered. -/
def focused_window : window :=
  { disabled_nested_window with iFocusedWidget := some 5, iEnteredWidget := some 6 }

/-- A widget tree for clicks outside any client area: widget 7, the
candidate, has the parent 8 and the given focus policy; every widget is
enabled and accepts the focus; no widget is a descendant of another. -/
def non_client_click_tree (policy : focus_policy) : widget_tree :=
  { is_descendent_of := fun _ _ => false
    client_rect_contains := fun _ _ => false
    hit_test_is_client := fun _ _ => false
    focus_policy := fun _ => policy
    enabled := fun _ => true
    can_set_focus := fun _ _ => true
    parent := fun i => if i = 7 then some 8 else none }

/-- A widget tree in which widget 5 is a descendant of widget 7 and the click
falls into the client rect of widget 5; widget 7 is disabled and has the
parent 8. -/
def focused_child_tree : widget_tree :=
  { is_descendent_of := fun a b => decide (a = 5 ∧ b = 7)
    client_rect_contains := fun i _ => decide (i = 5)
    hit_test_is_client := fun _ _ => true
    focus_policy := fun _ => 0
    enabled := fun i => decide (i ≠ 7)
    can_set_focus := fun _ _ => true
    parent := fun i => if i = 7 then some 8 else none }

end neogfx

/-! # Theorems -/

namespace neogfx

/-! ## The object store -/

theorem store_find_insert (l : List (WinId × window)) (i : WinId) (x : window) (j : WinId) :
    store_find (store_insert l i x) j = if j = i then some x else store_find l j := by
  induction l with
  | nil =>
    by_cases h : j = i
    · subst h
      simp [store_insert, store_find]
    · have h2 : ¬ i = j := fun e => h e.symm
      simp [store_insert, store_find, h, h2]
  | cons a t ih =>
    obtain ⟨k, y⟩ := a
    by_cases h : j = i
    · subst h
      by_cases hk : k = j
      · simp [store_insert, store_find, hk]
      · simp [store_insert, store_find, hk, ih]
    · by_cases hk : k = i
      · subst hk
        have h2 : ¬ k = j := fun e => h e.symm
        simp [store_insert, store_find, h, h2]
      · by_cases hkj : k = j
        · subst hkj
          simp [store_insert, store_find, hk]
        · simp [store_insert, store_find, hk, hkj, ih, h]

theorem store_find_erase (l : List (WinId × window)) (i j : WinId) :
    store_find (store_erase l i) j = if j = i then none else store_find l j := by
  induction l with
  | nil => simp [store_erase, store_find]
  | cons a t ih =>
    obtain ⟨k, y⟩ := a
    by_cases h : j = i
    · subst h
      by_cases hk : k = j
      · simpa [store_erase, hk] using ih
      · simpa [store_erase, store_find, hk] using ih
    · by_cases hk : k = i
      · subst hk
        have h2 : ¬ k = j := fun e => h e.symm
        simpa [store_erase, store_find, h, h2] using ih
      · by_cases hkj : k = j
        · subst hkj
          simp [store_erase, store_find, hk]
        · simpa [store_erase, store_find, hk, hkj, h] using ih

theorem store_insert_length (l : List (WinId × window)) (i : WinId) (x y : window)
    (h : store_find l i = some y) : (store_insert l i x).length = l.length := by
  induction l with
  | nil => simp [store_find] at h
  | cons a t ih =>
    obtain ⟨k, z⟩ := a
    by_cases hk : k = i
    · simp [store_insert, hk]
    · simp only [store_find, hk, if_false] at h
      simp [store_insert, hk, ih h]

@[simp] theorem find_set (w : World) (i : WinId) (x : window) (j : WinId) :
    (w.set i x).find j = if j = i then some x else w.find j := by
  simp [World.set, World.find, store_find_insert]

@[simp] theorem find_erase (w : World) (i j : WinId) :
    (w.erase i).find j = if j = i then none else w.find j := by
  simp [World.erase, World.find, store_find_erase]

@[simp] theorem find_emit (w : World) (e : Event) (j : WinId) :
    (w.emit e).find j = w.find j := rfl

@[simp] theorem find_add_window (w : World) (i j : WinId) :
    (w.add_window i).find j = w.find j := rfl

@[simp] theorem find_remove_window (w : World) (i j : WinId) :
    (w.remove_window i).find j = w.find j := rfl

theorem find_modify (w : World) (i : WinId) (f : window → window) (j : WinId) :
    (w.modify i f).find j = if j = i then (w.find i).map f else w.find j := by
  unfold World.modify
  cases h : w.find i with
  | none =>
    by_cases hj : j = i
    · simp [hj, h]
    · simp [hj]
  | some x =>
    by_cases hj : j = i
    · simp [hj]
    · simp [hj]

theorem store_find_mem (l : List (WinId × window)) (j : WinId) (x : window)
    (h : store_find l j = some x) : (j, x) ∈ l := by
  induction l with
  | nil => simp [store_find] at h
  | cons a t ih =>
    obtain ⟨k, y⟩ := a
    by_cases hk : k = j
    · subst hk
      simp only [store_find, if_true, Option.some.injEq] at h
      simp [h]
    · simp only [store_find, hk, if_false] at h
      exact List.mem_cons_of_mem _ (ih h)

theorem find_forall (w : World) (P : window → Prop) (h : ∀ p ∈ w.windows, P p.2) :
    ∀ j x, w.find j = some x → P x :=
  fun j x hj => h (j, x) (store_find_mem w.windows j x hj)

@[simp] theorem events_set (w : World) (i : WinId) (x : window) :
    (w.set i x).events = w.events := rfl

@[simp] theorem events_erase (w : World) (i : WinId) : (w.erase i).events = w.events := rfl

@[simp] theorem events_emit (w : World) (e : Event) :
    (w.emit e).events = w.events ++ [e] := rfl

@[simp] theorem events_add_window (w : World) (i : WinId) :
    (w.add_window i).events = w.events := rfl

@[simp] theorem events_remove_window (w : World) (i : WinId) :
    (w.remove_window i).events = w.events := rfl

@[simp] theorem events_modify (w : World) (i : WinId) (f : window → window) :
    (w.modify i f).events = w.events := by
  unfold World.modify
  cases w.find i <;> rfl

@[simp] theorem registry_set (w : World) (i : WinId) (x : window) :
    (w.set i x).registry = w.registry := rfl

@[simp] theorem registry_erase (w : World) (i : WinId) :
    (w.erase i).registry = w.registry := rfl

@[simp] theorem registry_emit (w : World) (e : Event) :
    (w.emit e).registry = w.registry := rfl

@[simp] theorem registry_modify (w : World) (i : WinId) (f : window → window) :
    (w.modify i f).registry = w.registry := by
  unfold World.modify
  cases w.find i <;> rfl

@[simp] theorem ancestors_set (w : World) (i : WinId) (x : window) :
    (w.set i x).widget_ancestors = w.widget_ancestors := rfl

@[simp] theorem ancestors_erase (w : World) (i : WinId) :
    (w.erase i).widget_ancestors = w.widget_ancestors := rfl

@[simp] theorem ancestors_emit (w : World) (e : Event) :
    (w.emit e).widget_ancestors = w.widget_ancestors := rfl

@[simp] theorem ancestors_modify (w : World) (i : WinId) (f : window → window) :
    (w.modify i f).widget_ancestors = w.widget_ancestors := by
  unfold World.modify
  cases w.find i <;> rfl

/-! ## Style bits -/

theorem has_style_or_self (s f : window_style) : has_style (style_or s f) f = true := by
  have h : (s ||| f) &&& f = f := by
    apply Nat.eq_of_testBit_eq
    intro i
    simp only [Nat.testBit_and, Nat.testBit_or]
    cases s.testBit i <;> cases f.testBit i <;> rfl
  simp [has_style, style_or, h]

theorem has_style_or_of_disjoint (s g f : window_style) (h : g &&& f = 0) :
    has_style (style_or s g) f = has_style s f := by
  have h2 : (s ||| g) &&& f = s &&& f := by
    rw [Nat.and_comm, Nat.and_or_distrib_left, Nat.and_comm f g, h, Nat.or_zero, Nat.and_comm]
  simp [has_style, style_or, h2]

theorem has_style_and_not_of_kept (s m f : window_style) (h : (0xFFFFFFFF ^^^ m) &&& f = f) :
    has_style (style_and_not s m) f = has_style s f := by
  have h2 : (s &&& (0xFFFFFFFF ^^^ m)) &&& f = s &&& f := by
    rw [Nat.and_assoc, h]
  simp only [has_style, style_and_not, h2]

theorem fullscreen_style_nested (s : window_style) :
    has_style (fullscreen_style s) window_style.Nested = has_style s window_style.Nested := by
  unfold fullscreen_style
  rw [has_style_and_not_of_kept _ _ _ (by decide), has_style_or_of_disjoint _ _ _ (by decide)]

/-! ## The enable counter -/

theorem wrap_int32_in_range (n : Int) : in_int32 (wrap_int32 n) := by
  unfold in_int32 wrap_int32
  omega

theorem wrap_int32_of_in_range (n : Int) (h : in_int32 n) : wrap_int32 n = n := by
  unfold in_int32 at h
  unfold wrap_int32
  omega

/-- The state after a call of `counted_window_enable` that leaves the counter
at `c`: the counter is stored and `c >= 0` is pushed to the native window or
to the local enabled state. -/
theorem counted_window_enable_eq (x : window) (e : Bool) :
    x.counted_window_enable e =
      (let c := wrap_int32 (if e then x.iCountedEnable + 1 else x.iCountedEnable - 1)
       let x1 : window := { x with iCountedEnable := c }
       if x.is_surface && x.has_native_window && !x.is_nest then
         x1.native_enable (decide (c ≥ 0))
       else if !x.is_surface || x.is_nest then
         { x1 with widget_enabled := decide (c ≥ 0) }
       else x1) := by
  cases e <;> rfl

theorem counted_window_enable_is_surface (x : window) (e : Bool) :
    (x.counted_window_enable e).is_surface = x.is_surface := by
  rw [counted_window_enable_eq]
  simp only [window.is_surface, window.native_enable]
  split
  · cases h : x.iSurfaceWindow <;> simp
  · split <;> rfl

theorem counted_window_enable_has_native_window (x : window) (e : Bool) :
    (x.counted_window_enable e).has_native_window = x.has_native_window := by
  rw [counted_window_enable_eq]
  simp only [window.has_native_window, window.has_native_surface, window.is_surface,
    window.native_enable]
  split
  · cases h : x.iSurfaceWindow <;> simp
  · split <;> rfl

theorem counted_window_enable_is_nest (x : window) (e : Bool) :
    (x.counted_window_enable e).is_nest = x.is_nest := by
  rw [counted_window_enable_eq]
  simp only [window.is_nest, window.native_enable]
  split
  · cases h : x.iSurfaceWindow <;> simp
  · split <;> rfl

theorem counted_window_enable_count (x : window) (e : Bool) :
    (x.counted_window_enable e).iCountedEnable =
      wrap_int32 (if e then x.iCountedEnable + 1 else x.iCountedEnable - 1) := by
  rw [counted_window_enable_eq]
  simp only [window.native_enable]
  split
  · cases h : x.iSurfaceWindow <;> simp
  · split <;> rfl

theorem counted_window_enable_window_enabled (x : window) (e : Bool) :
    (x.counted_window_enable e).window_enabled =
      if pushes_to_window_enabled x then
        decide (0 ≤ (x.counted_window_enable e).iCountedEnable)
      else x.window_enabled := by
  rw [counted_window_enable_count, counted_window_enable_eq]
  obtain ⟨pw, pl, cl, nest, sw, nd, rr, tt, st, ce, ew, fw, dc, sd, we, wv, fs, tb⟩ := x
  rcases sw with _ | ⟨h, wt, ne, nf, cc⟩
  · cases nest <;>
      simp [pushes_to_window_enabled, window.window_enabled, window.has_native_window,
        window.has_native_surface, window.is_surface, window.native_enable, window.is_nest]
  · rcases sd with _ | _ | _ <;> cases nest <;> cases wt <;>
      simp [pushes_to_window_enabled, window.window_enabled, window.has_native_window,
        window.has_native_surface, window.is_surface, window.native_enable, window.is_nest]

theorem pushes_to_window_enabled_counted (x : window) (e : Bool) :
    pushes_to_window_enabled (x.counted_window_enable e) = pushes_to_window_enabled x := by
  simp only [pushes_to_window_enabled, counted_window_enable_is_surface,
    counted_window_enable_has_native_window, counted_window_enable_is_nest]

theorem enable_sequence_count (calls : List Bool) :
    ∀ x : window, in_int32 x.iCountedEnable →
      (enable_sequence x calls).iCountedEnable =
        wrap_int32 (x.iCountedEnable + calls.count true - calls.count false) := by
  induction calls with
  | nil =>
    intro x hx
    simp [enable_sequence, wrap_int32_of_in_range _ hx]
  | cons e t ih =>
    intro x _
    have h := ih (x.counted_window_enable e)
      (by rw [counted_window_enable_count]; exact wrap_int32_in_range _)
    simp only [enable_sequence, List.foldl_cons] at h ⊢
    rw [h, counted_window_enable_count]
    cases e <;> simp only [List.count_cons, wrap_int32] <;> simp <;> omega

theorem enable_sequence_window_enabled (calls : List Bool) :
    ∀ x : window,
      (enable_sequence x calls).window_enabled =
        if pushes_to_window_enabled x = true ∧ calls ≠ [] then
          decide (0 ≤ (enable_sequence x calls).iCountedEnable)
        else x.window_enabled := by
  induction calls with
  | nil => intro x; simp [enable_sequence]
  | cons e t ih =>
    intro x
    have h := ih (x.counted_window_enable e)
    simp only [enable_sequence, List.foldl_cons] at h ⊢
    rw [h, pushes_to_window_enabled_counted, counted_window_enable_window_enabled]
    by_cases hp : pushes_to_window_enabled x = true
    · by_cases ht : t = []
      · subst ht; simp [hp]
      · simp [hp, ht]
    · simp [hp]

/-! ## C6: balanced sequences of `counted_window_enable` -/

/-- C6, as stated, fails: a nested window, built by the constructor and then
disabled through the widget interface (local enabled state false, enable count
0), reports `window_enabled()` false, and after one
`counted_window_enable(true)` followed by one `counted_window_enable(false)`
it reports true. -/
theorem balanced_enable_sequence_counterexample :
    ((construct fullscreen_root_world 2 (nested_request 1 10)).world.find 2).map
      (fun x => x.enable false) = some disabled_nested_window ∧
    [true, false].count true = [true, false].count false ∧
    disabled_nested_window.window_enabled = false ∧
    (enable_sequence disabled_nested_window [true, false]).window_enabled = true := by
  decide

/-- C6, amended: after any interleaving of N calls `counted_window_enable(true)`
and N calls `counted_window_enable(false)`, `window_enabled()` is what it was
before the sequence, provided that before the sequence `window_enabled()`
agreed with the sign of the enable count on every window whose
`counted_window_enable` writes the state that `window_enabled()` reads. -/
theorem balanced_enable_sequence_restores (x : window) (calls : List Bool)
    (hbalanced : calls.count true = calls.count false)
    (hrange : in_int32 x.iCountedEnable)
    (hagree : pushes_to_window_enabled x = true →
      x.window_enabled = decide (0 ≤ x.iCountedEnable)) :
    (enable_sequence x calls).window_enabled = x.window_enabled := by
  rw [enable_sequence_window_enabled, enable_sequence_count calls x hrange, hbalanced]
  have hc : wrap_int32 (x.iCountedEnable + (calls.count false : Int) - (calls.count false : Int))
      = x.iCountedEnable := by
    rw [show x.iCountedEnable + (calls.count false : Int) - (calls.count false : Int)
      = x.iCountedEnable by omega]
    exact wrap_int32_of_in_range _ hrange
  rw [hc]
  split
  · next h => exact (hagree h.1).symm
  · rfl

/-- Witness for C6: a window without a surface, enabled, count 0, after the
calls true, false, false, true. -/
theorem balanced_enable_sequence_restores_witness :
    (enable_sequence { disabled_nested_window with widget_enabled := true }
      [true, false, false, true]).window_enabled =
      ({ disabled_nested_window with widget_enabled := true } : window).window_enabled :=
  balanced_enable_sequence_restores { disabled_nested_window with widget_enabled := true }
    [true, false, false, true] (by decide) (by decide) (by decide)

/-! ## C7: one call of `counted_window_enable` -/

/-- C7, as stated, fails. The window of `surface_nested_world` (built by the
constructor, then given the style Nested by `set_style`) is nested, owns a
surface with a live native window and is not a nest; the call
`counted_window_enable(false)` leaves the count at -1 and pushes false to the
native window, while the local enabled state stays true. And the fullscreen
root window, a surface owner that is a nest, gets false pushed to its local
enabled state only: its count is -1 and `window_enabled()` is still true. -/
theorem counted_window_enable_nested_counterexample :
    (surface_nested_world.find 1).map
      (fun x => (x.is_nested, (x.counted_window_enable false).iCountedEnable,
        (x.counted_window_enable false).widget_enabled,
        (x.counted_window_enable false).iSurfaceWindow.map (fun s => s.native_enabled))) =
      some (true, -1, true, some false) ∧
    (fullscreen_root_world.find 1).map
      (fun x => (x.is_surface, x.is_nest, x.has_native_window,
        (x.counted_window_enable false).iCountedEnable,
        (x.counted_window_enable false).widget_enabled,
        (x.counted_window_enable false).window_enabled)) =
      some (true, true, true, -1, false, true) := by
  decide

/-- C7, amended: `counted_window_enable(enable)` changes the enable count by
exactly +1 (enable true) or -1 (enable false) and then pushes the boolean
(count >= 0): to the native window's enable state when the window is a
surface owner, is not a nest and has a live native window; to the local widget
enabled state when the window does not own a surface or is a nest (hosts
nested windows); a surface owner that is not a nest and has no live native
window gets nothing pushed. The pushed state equals (count >= 0) after the
call, and so does `window_enabled()` for the windows whose pushed state is the
one `window_enabled()` reads (windows without a surface, and surface owners
with a live native window that are not a nest). -/
theorem counted_window_enable_spec (x : window) (e : Bool)
    (hrange : in_int32 x.iCountedEnable)
    (hroom : if e = true then x.iCountedEnable < 2147483647
      else -2147483648 < x.iCountedEnable) :
    (x.counted_window_enable e).iCountedEnable
        = x.iCountedEnable + (if e = true then 1 else -1) ∧
    (x.is_surface = true ∧ x.is_nest = false ∧ x.has_native_window = true →
      (x.counted_window_enable e).iSurfaceWindow.map (fun s => s.native_enabled)
          = some (decide (0 ≤ (x.counted_window_enable e).iCountedEnable)) ∧
        (x.counted_window_enable e).widget_enabled = x.widget_enabled) ∧
    (x.is_surface = false ∨ x.is_nest = true →
      (x.counted_window_enable e).widget_enabled
          = decide (0 ≤ (x.counted_window_enable e).iCountedEnable) ∧
        (x.counted_window_enable e).iSurfaceWindow = x.iSurfaceWindow) ∧
    (x.is_surface = true ∧ x.is_nest = false ∧ x.has_native_window = false →
      (x.counted_window_enable e).widget_enabled = x.widget_enabled ∧
        (x.counted_window_enable e).iSurfaceWindow = x.iSurfaceWindow) ∧
    (pushes_to_window_enabled x = true →
      (x.counted_window_enable e).window_enabled
        = decide (0 ≤ (x.counted_window_enable e).iCountedEnable)) := by
  have hcount : (x.counted_window_enable e).iCountedEnable
      = x.iCountedEnable + (if e = true then 1 else -1) := by
    rw [counted_window_enable_count]
    unfold in_int32 at hrange
    unfold wrap_int32
    cases e <;> simp at hroom ⊢ <;> omega
  refine ⟨hcount, ?_, ?_, ?_, ?_⟩
  rotate_right
  · intro hp
    rw [counted_window_enable_window_enabled, if_pos hp]
  · rintro ⟨hs, hn, hw⟩
    rw [counted_window_enable_count, counted_window_enable_eq]
    simp only [hs, hn, hw, window.native_enable]
    cases hsw : x.iSurfaceWindow with
    | none => simp [window.is_surface, hsw] at hs
    | some s => simp
  · intro h
    rw [counted_window_enable_count, counted_window_enable_eq]
    rcases h with hs | hn
    · simp [hs]
    · simp only [hn, window.native_enable]
      cases x.is_surface <;> simp
  · rintro ⟨hs, hn, hw⟩
    rw [counted_window_enable_eq]
    simp [hs, hn, hw]

/-- Witness for C7: the disabled nested window (no surface of its own) and
`counted_window_enable(true)`. -/
theorem counted_window_enable_spec_witness :
    in_int32 disabled_nested_window.iCountedEnable ∧
    (disabled_nested_window.counted_window_enable true).iCountedEnable = 1 ∧
    (disabled_nested_window.counted_window_enable true).widget_enabled = true :=
  ⟨by decide,
    (counted_window_enable_spec disabled_nested_window true (by decide) (by decide)).1,
    ((counted_window_enable_spec disabled_nested_window true (by decide) (by decide)).2.2.1
      (Or.inl rfl)).1⟩

/-! ## Events, registry and ancestors through the operations -/

theorem events_update_modality_body (self : WinId) (e : Bool) (acc : World) (j : WinId) :
    (update_modality_body self e acc j).events = acc.events := by
  unfold update_modality_body counted_window_enable
  split
  · rfl
  · split
    · split
      · simp
      · split <;> simp
    · rfl

theorem registry_update_modality_body (self : WinId) (e : Bool) (acc : World) (j : WinId) :
    (update_modality_body self e acc j).registry = acc.registry := by
  unfold update_modality_body counted_window_enable
  split
  · rfl
  · split
    · split
      · simp
      · split <;> simp
    · rfl

theorem ancestors_update_modality_body (self : WinId) (e : Bool) (acc : World) (j : WinId) :
    (update_modality_body self e acc j).widget_ancestors = acc.widget_ancestors := by
  unfold update_modality_body counted_window_enable
  split
  · rfl
  · split
    · split
      · simp
      · split <;> simp
    · rfl

theorem events_update_modality_loop (self : WinId) (e : Bool) (l : List WinId) :
    ∀ acc : World, (l.foldl (update_modality_body self e) acc).events = acc.events := by
  induction l with
  | nil => intro acc; rfl
  | cons a t ih =>
    intro acc
    rw [List.foldl_cons, ih, events_update_modality_body]

theorem registry_update_modality_loop (self : WinId) (e : Bool) (l : List WinId) :
    ∀ acc : World, (l.foldl (update_modality_body self e) acc).registry = acc.registry := by
  induction l with
  | nil => intro acc; rfl
  | cons a t ih =>
    intro acc
    rw [List.foldl_cons, ih, registry_update_modality_body]

theorem ancestors_update_modality_loop (self : WinId) (e : Bool) (l : List WinId) :
    ∀ acc : World,
      (l.foldl (update_modality_body self e) acc).widget_ancestors = acc.widget_ancestors := by
  induction l with
  | nil => intro acc; rfl
  | cons a t ih =>
    intro acc
    rw [List.foldl_cons, ih, ancestors_update_modality_body]

theorem events_show_window (w : World) (self : WinId) (b : Bool) :
    (show_window w self b).events = w.events ∨
    (show_window w self b).events = w.events ++ [Event.native_show self] ∨
    (show_window w self b).events = w.events ++ [Event.native_hide self] := by
  unfold show_window
  cases hf : w.find self with
  | none => exact Or.inl rfl
  | some x =>
    simp only []
    cases hc : ((x.widget_visible != b) && x.has_native_surface)
    · exact Or.inl (by simp)
    · cases b
      · exact Or.inr (Or.inr (by simp))
      · exact Or.inr (Or.inl (by simp))

theorem closed_count_show_window (w : World) (self : WinId) (b : Bool) (i : WinId) :
    closed_count (show_window w self b) i = closed_count w i := by
  unfold closed_count
  rcases events_show_window w self b with h | h | h <;> rw [h] <;> simp

theorem activation_count_show_window (w : World) (self : WinId) (b : Bool) (i : WinId) :
    activation_count (show_window w self b) i = activation_count w i := by
  unfold activation_count
  rcases events_show_window w self b with h | h | h <;> rw [h] <;> simp

theorem events_activate (w : World) (p : WinId) :
    ∃ l, (activate w p).events = w.events ++ Event.activate p :: l ∧
      l ⊆ [Event.native_show p, Event.native_hide p, Event.native_activate p] := by
  unfold activate
  simp only [find_emit]
  cases hf : w.find p with
  | none => exact ⟨[], by simp, by simp⟩
  | some x =>
    cases hv : x.widget_visible <;> cases hn : x.has_native_window
    · rcases events_show_window (w.emit (Event.activate p)) p true with h | h | h
      · exact ⟨[], by simp [hv, hn, h], by simp⟩
      · exact ⟨[Event.native_show p], by simp [hv, hn, h], by simp⟩
      · exact ⟨[Event.native_hide p], by simp [hv, hn, h], by simp⟩
    · rcases events_show_window (w.emit (Event.activate p)) p true with h | h | h
      · exact ⟨[Event.native_activate p], by simp [hv, hn, h], by simp⟩
      · exact ⟨[Event.native_show p, Event.native_activate p], by simp [hv, hn, h], by simp⟩
      · exact ⟨[Event.native_hide p, Event.native_activate p], by simp [hv, hn, h], by simp⟩
    · exact ⟨[], by simp [hv, hn], by simp⟩
    · exact ⟨[Event.native_activate p], by simp [hv, hn], by simp⟩

theorem count_eq_zero_of_subset_native (l : List Event) (p : WinId) (ev : Event)
    (hl : l ⊆ [Event.native_show p, Event.native_hide p, Event.native_activate p])
    (h1 : ev ≠ Event.native_show p) (h2 : ev ≠ Event.native_hide p)
    (h3 : ev ≠ Event.native_activate p) : l.count ev = 0 := by
  rw [List.count_eq_zero]
  intro hmem
  have := hl hmem
  simp at this
  rcases this with h | h | h
  · exact h1 h
  · exact h2 h
  · exact h3 h

theorem closed_count_activate (w : World) (p i : WinId) :
    closed_count (activate w p) i = closed_count w i := by
  obtain ⟨l, hl, hsub⟩ := events_activate w p
  have hz := count_eq_zero_of_subset_native l p (Event.Closed i) hsub
    (by simp) (by simp) (by simp)
  simp [closed_count, hl, List.count_append, List.count_cons, hz]

theorem frame_refl {α : Type} (π : window → α) (w : World) : frame π w w := fun _ => rfl

theorem frame_trans {α : Type} {π : window → α} {w v u : World}
    (h1 : frame π w v) (h2 : frame π v u) : frame π w u :=
  fun j => (h2 j).trans (h1 j)

theorem frame_modify {α : Type} (π : window → α) (w : World) (i : WinId)
    (f : window → window) (hf : ∀ x, π (f x) = π x) : frame π w (w.modify i f) := by
  intro j
  rw [find_modify]
  by_cases h : j = i
  · subst h
    cases hj : w.find j <;> simp [hf]
  · simp [h]

theorem frame_set {α : Type} (π : window → α) (w : World) (i : WinId) (x y : window)
    (h : w.find i = some x) (hy : π y = π x) : frame π w (w.set i y) := by
  intro j
  rw [find_set]
  by_cases hj : j = i
  · subst hj
    simp [h, hy]
  · simp [hj]

theorem frame_emit {α : Type} (π : window → α) (w : World) (e : Event) :
    frame π w (w.emit e) := fun _ => rfl

theorem frame_show_window {α : Type} {π : window → α} (hπ : Inert π) (w : World)
    (self : WinId) (b : Bool) : frame π w (show_window w self b) := by
  unfold show_window
  cases hf : w.find self with
  | none => exact frame_refl π w
  | some x =>
    simp only []
    have h1 := frame_set π w self x { x with widget_visible := b } hf (hπ.visible x b)
    cases ((x.widget_visible != b) && x.has_native_surface)
    · simpa using h1
    · exact frame_trans h1 (frame_emit π _ _)

theorem frame_activate {α : Type} {π : window → α} (hπ : Inert π) (w : World)
    (p : WinId) : frame π w (activate w p) := by
  unfold activate
  simp only [find_emit]
  have h0 : frame π w (w.emit (Event.activate p)) := frame_emit π w _
  have h1 := frame_trans h0 (frame_show_window hπ (w.emit (Event.activate p)) p true)
  cases hf : w.find p with
  | none => exact h0
  | some x =>
    cases hv : x.widget_visible <;> cases hn : x.has_native_window <;> simp only [] <;>
      simp [hv, hn]
    · exact h1
    · exact frame_trans h1 (frame_emit π _ _)
    · exact h0
    · exact frame_trans h0 (frame_emit π _ _)

theorem frame_surface_close {α : Type} {π : window → α} (hπ : Inert π) (w : World)
    (self : WinId) : frame π w (surface_close w self) := by
  unfold surface_close
  apply frame_modify
  intro x
  cases hs : x.iSurfaceWindow with
  | none => rfl
  | some s =>
    simp only []
    rw [hπ.surface_close x s]
    have : ({ x with iSurfaceWindow := some s } : window) = x := by
      cases x; simp_all
    rw [this]

theorem frame_counted_window_enable {α : Type} {π : window → α}
    (hE : ∀ (x : window) (e : Bool), π (x.counted_window_enable e) = π x) (w : World)
    (target : WinId) (e : Bool) : frame π w (counted_window_enable w target e) :=
  frame_modify π w target _ (fun x => hE x e)

theorem frame_update_modality_body {α : Type} {π : window → α}
    (hE : ∀ (x : window) (e : Bool), π (x.counted_window_enable e) = π x) (self : WinId)
    (e : Bool) (acc : World) (j : WinId) : frame π acc (update_modality_body self e acc j) := by
  unfold update_modality_body
  cases acc.find self with
  | none => exact frame_refl π acc
  | some me =>
    simp only []
    by_cases hj : j ≠ self
    · rw [if_pos hj]
      cases has_style me.iStyle window_style.ApplicationModal
      · cases (has_style me.iStyle window_style.Modal && acc.is_ancestor_of j self)
        · exact frame_refl π acc
        · exact frame_counted_window_enable hE acc j e
      · exact frame_counted_window_enable hE acc j e
    · rw [if_neg hj]
      exact frame_refl π acc

theorem frame_update_modality_loop {α : Type} {π : window → α}
    (hE : ∀ (x : window) (e : Bool), π (x.counted_window_enable e) = π x) (self : WinId)
    (e : Bool) (l : List WinId) :
    ∀ acc : World, frame π acc (l.foldl (update_modality_body self e) acc) := by
  induction l with
  | nil => intro acc; exact frame_refl π acc
  | cons a t ih =>
    intro acc
    rw [List.foldl_cons]
    exact frame_trans (frame_update_modality_body hE self e acc a) (ih _)

theorem frame_update_modality_after_loop {α : Type} {π : window → α} (hπ : Inert π)
    (w : World) (self : WinId) (e : Bool) :
    frame π (w.registry.foldl (update_modality_body self e) w) (update_modality w self e) := by
  unfold update_modality
  simp only []
  generalize w.registry.foldl (update_modality_body self e) w = w1
  cases hf : w1.find self with
  | none => exact frame_refl π w1
  | some me =>
    simp only []
    cases hc : (e && has_parent_window w1 me false && !has_style me.style window_style.NoActivate)
    · exact frame_refl π w1
    · cases hp : me.iParentWindow with
      | none => exact frame_refl π w1
      | some p => exact frame_activate hπ w1 p

theorem frame_update_modality {α : Type} {π : window → α} (hπ : Inert π)
    (hE : ∀ (x : window) (e : Bool), π (x.counted_window_enable e) = π x) (w : World)
    (self : WinId) (e : Bool) : frame π w (update_modality w self e) :=
  frame_trans (frame_update_modality_loop hE self e w.registry w)
    (frame_update_modality_after_loop hπ w self e)

theorem update_modality_of_not_found (w : World) (self : WinId) (e : Bool)
    (h : w.find self = none) : update_modality w self e = w := by
  have hloop : ∀ (l : List WinId) (acc : World), acc.find self = none →
      l.foldl (update_modality_body self e) acc = acc := by
    intro l
    induction l with
    | nil => intro acc _; rfl
    | cons a t ih =>
      intro acc hacc
      have hb : update_modality_body self e acc a = acc := by
        unfold update_modality_body
        rw [hacc]
      rw [List.foldl_cons, hb]
      exact ih acc hacc
  unfold update_modality
  simp only []
  rw [hloop w.registry w h, h]

theorem frame_close_with_simple {α : Type} {π : window → α} (hπ : Inert π) (w : World)
    (self : WinId) :
    frame π w (close_with (fun v s => (surface_close v s, false)) w self) := by
  unfold close_with
  cases hf : w.find self with
  | none => exact frame_refl π w
  | some x =>
    simp only []
    cases hc : x.iClosed
    · cases hs : x.is_surface
      · simp only [Bool.false_eq_true, if_false]
        exact frame_trans (frame_modify π w self _ (fun y => hπ.closed y true))
          (frame_emit π _ _)
      · simp only [if_true, Bool.false_eq_true, if_false]
        exact frame_trans (frame_surface_close hπ w self)
          (frame_trans (frame_modify π _ self _ (fun y => hπ.closed y true))
            (frame_emit π _ _))
    · simp only [if_true]
      exact frame_refl π w

theorem frame_nested_details_destroy {α : Type} {π : window → α} (hπ : Inert π)
    (w : World) (self : WinId) : frame π w (nested_details_destroy w self) := by
  unfold nested_details_destroy
  cases hf : w.find self with
  | none => exact frame_refl π w
  | some x =>
    simp only []
    cases x.iNestedWindowDetails
    · exact frame_refl π w
    · simp only [if_true]
      cases nest w self with
      | error e => exact frame_refl π w
      | ok r => exact frame_modify π w r _ (fun y => hπ.nest y _)

theorem frame_remove_window_if {α : Type} (π : window → α) (w : World) (self : WinId) :
    frame π w (if w.has_window self then w.remove_window self else w) := by
  cases w.has_window self
  · exact frame_refl π w
  · exact fun _ => rfl

theorem destroy_find_self (w : World) (self : WinId) : (destroy w self).find self = none := by
  unfold destroy
  cases hf : w.find self with
  | none => exact hf
  | some x => simp

theorem destroy_find_other {α : Type} {π : window → α} (hπ : Inert π) (w : World)
    (self j : WinId) (hj : j ≠ self) :
    ((destroy w self).find j).map π = ((update_modality w self true).find j).map π := by
  unfold destroy
  cases hf : w.find self with
  | none => rw [update_modality_of_not_found w self true hf]
  | some x =>
    simp only [find_erase, hj, if_false]
    have h := frame_trans
      (frame_trans (frame_remove_window_if π (update_modality w self true) self)
        (frame_close_with_simple hπ _ self))
      (frame_nested_details_destroy hπ _ self)
    exact h j

/-! ## The `Closed` notification -/

theorem closed_count_update_modality (w : World) (self : WinId) (e : Bool) (i : WinId) :
    closed_count (update_modality w self e) i = closed_count w i := by
  have hloop : closed_count (w.registry.foldl (update_modality_body self e) w) i
      = closed_count w i := by
    unfold closed_count
    rw [events_update_modality_loop]
  rw [← hloop]
  unfold update_modality
  simp only []
  generalize w.registry.foldl (update_modality_body self e) w = w1
  cases hf : w1.find self with
  | none => rfl
  | some me =>
    simp only []
    cases hc : (e && has_parent_window w1 me false && !has_style me.style window_style.NoActivate)
    · rfl
    · cases hp : me.iParentWindow with
      | none => rfl
      | some p => exact closed_count_activate w1 p i

theorem closed_count_close_with_simple (w : World) (self : WinId) :
    closed_count (close_with (fun v s => (surface_close v s, false)) w self) self
      ≤ closed_count w self + 1 := by
  unfold close_with
  cases hf : w.find self with
  | none => simp
  | some x =>
    simp only []
    cases hc : x.iClosed
    · cases hs : x.is_surface <;> simp [closed_count, surface_close]
    · simp

theorem events_nested_details_destroy (w : World) (self : WinId) :
    (nested_details_destroy w self).events = w.events := by
  unfold nested_details_destroy
  cases hf : w.find self with
  | none => rfl
  | some x =>
    simp only []
    cases x.iNestedWindowDetails
    · rfl
    · simp only [if_true]
      cases nest w self with
      | error e => rfl
      | ok r => simp

theorem closed_count_destroy (w : World) (self : WinId) :
    closed_count (destroy w self) self ≤ closed_count w self + 1 := by
  unfold destroy
  cases hf : w.find self with
  | none => simp
  | some x =>
    simp only []
    have h1 := closed_count_update_modality w self true self
    have h2 : closed_count
        (if (update_modality w self true).has_window self then
          (update_modality w self true).remove_window self
         else update_modality w self true) self = closed_count w self := by
      rw [← h1]
      cases (update_modality w self true).has_window self <;> rfl
    have h3 := closed_count_close_with_simple
      (if (update_modality w self true).has_window self then
          (update_modality w self true).remove_window self
         else update_modality w self true) self
    rw [h2] at h3
    simpa [closed_count, events_nested_details_destroy] using h3

theorem close_of_closed (w : World) (self : WinId)
    (h : ∀ x, w.find self = some x → x.iClosed = true) : close w self = w := by
  unfold close close_with
  cases hf : w.find self with
  | none => rfl
  | some x => simp [h x hf]

theorem close_find_self_closed (w : World) (self : WinId) (x : window)
    (h : (close w self).find self = some x) : x.iClosed = true := by
  unfold close close_with at h
  cases hf : w.find self with
  | none => rw [hf] at h; simp [hf] at h
  | some x0 =>
    rw [hf] at h
    simp only [] at h
    cases hc : x0.iClosed
    · simp only [hc, Bool.false_eq_true, if_false] at h
      cases hs : x0.is_surface
      · simp [hs, find_modify, hf] at h
        rw [← h]
      · by_cases hd : self ∈ w.surface_close_destroys
        · simp only [hs, if_true, hd] at h
          rw [destroy_find_self] at h
          simp at h
        · simp only [hs, if_true, hd, if_false, Bool.false_eq_true] at h
          simp only [find_emit, find_modify, if_true] at h
          cases hq : (surface_close w self).find self with
          | none => rw [hq] at h; simp at h
          | some q =>
            rw [hq] at h
            simp at h
            rw [← h]
    · simp only [hc, if_true] at h
      rw [hf] at h
      cases h
      exact hc

theorem closed_count_close (w : World) (self : WinId) :
    closed_count (close w self) self ≤ closed_count w self + 1 := by
  unfold close close_with
  cases hf : w.find self with
  | none => simp
  | some x0 =>
    simp only []
    cases hc : x0.iClosed
    · simp only [Bool.false_eq_true, if_false]
      cases hs : x0.is_surface
      · simp [closed_count]
      · by_cases hd : self ∈ w.surface_close_destroys
        · simp only [if_true, hd]
          have h := closed_count_destroy (surface_close w self) self
          simpa [closed_count, surface_close] using h
        · simp [hd, closed_count, surface_close]
    · simp

/-! ## C1: `close()` twice -/

/-- C1: a second `close()` changes nothing: the world after two calls is the
world after one call (no state change, no further `Closed` notification), the
`Closed` notification of the window fires at most once over both calls, and a
window that is still alive after the first call has its closed flag set. -/
theorem close_twice (w : World) (self : WinId) :
    close (close w self) self = close w self ∧
    closed_count (close (close w self) self) self ≤ closed_count w self + 1 ∧
    (∀ x, (close w self).find self = some x → x.iClosed = true) := by
  have h1 : close (close w self) self = close w self :=
    close_of_closed (close w self) self (fun x hx => close_find_self_closed w self x hx)
  refine ⟨h1, ?_, fun x hx => close_find_self_closed w self x hx⟩
  rw [h1]
  exact closed_count_close w self

/-! ## The loop of `update_modality` -/

@[simp] theorem registry_show_window (w : World) (self : WinId) (b : Bool) :
    (show_window w self b).registry = w.registry := by
  unfold show_window
  cases w.find self with
  | none => rfl
  | some x =>
    simp only []
    cases ((x.widget_visible != b) && x.has_native_surface) <;> rfl

@[simp] theorem ancestors_show_window (w : World) (self : WinId) (b : Bool) :
    (show_window w self b).widget_ancestors = w.widget_ancestors := by
  unfold show_window
  cases w.find self with
  | none => rfl
  | some x =>
    simp only []
    cases ((x.widget_visible != b) && x.has_native_surface) <;> rfl

theorem registry_activate (w : World) (p : WinId) : (activate w p).registry = w.registry := by
  unfold activate
  simp only [find_emit]
  cases w.find p with
  | none => rfl
  | some x =>
    cases hv : x.widget_visible <;> cases hn : x.has_native_window <;> simp [hv, hn]

theorem ancestors_activate (w : World) (p : WinId) :
    (activate w p).widget_ancestors = w.widget_ancestors := by
  unfold activate
  simp only [find_emit]
  cases w.find p with
  | none => rfl
  | some x =>
    cases hv : x.widget_visible <;> cases hn : x.has_native_window <;> simp [hv, hn]

theorem registry_update_modality (w : World) (self : WinId) (e : Bool) :
    (update_modality w self e).registry = w.registry := by
  have hloop := registry_update_modality_loop self e w.registry w
  rw [← hloop]
  unfold update_modality
  simp only []
  generalize w.registry.foldl (update_modality_body self e) w = w1
  cases hf : w1.find self with
  | none => rfl
  | some me =>
    simp only []
    cases hc : (e && has_parent_window w1 me false && !has_style me.style window_style.NoActivate)
    · rfl
    · cases hp : me.iParentWindow with
      | none => rfl
      | some p => exact registry_activate w1 p

theorem ancestors_update_modality (w : World) (self : WinId) (e : Bool) :
    (update_modality w self e).widget_ancestors = w.widget_ancestors := by
  have hloop := ancestors_update_modality_loop self e w.registry w
  rw [← hloop]
  unfold update_modality
  simp only []
  generalize w.registry.foldl (update_modality_body self e) w = w1
  cases hf : w1.find self with
  | none => rfl
  | some me =>
    simp only []
    cases hc : (e && has_parent_window w1 me false && !has_style me.style window_style.NoActivate)
    · rfl
    · cases hp : me.iParentWindow with
      | none => rfl
      | some p => exact ancestors_activate w1 p

theorem nested_details_create_ok {α : Type} {π : window → α} (hπ : Inert π) (w v : World)
    (self : WinId) (h : nested_details_create w self = .ok v) :
    frame π w v ∧ v.registry = w.registry ∧ v.widget_ancestors = w.widget_ancestors := by
  unfold nested_details_create at h
  cases hn : nest w self with
  | error e => rw [hn] at h; cases h
  | ok r =>
    rw [hn] at h
    simp only [Except.ok.injEq] at h
    subst h
    refine ⟨?_, by simp, by simp⟩
    exact frame_trans (frame_modify π w r _ (fun y => hπ.nest y _))
      (frame_modify π _ self _ (fun y => hπ.details y true))

theorem construct_throw_find (w : World) (self : WinId) (e : window_error) (j : WinId) :
    (construct_throw w self e).world.find j = if j = self then none else w.find j := by
  simp [construct_throw]

/-- What `init_tail` does, seen through an inert view that
`counted_window_enable` leaves alone. -/
theorem init_tail_step {α : Type} {π : window → α} (hπ : Inert π)
    (hE : ∀ (x : window) (e : Bool), π (x.counted_window_enable e) = π x) (w : World)
    (self : WinId) : construction_step π w self (init_tail w self) := by
  unfold construction_step
  have hum := frame_update_modality hπ hE w self false
  have hr := registry_update_modality w self false
  have ha := ancestors_update_modality w self false
  unfold init_tail
  simp only []
  generalize update_modality w self false = w1 at hum hr ha
  cases hf : w1.find self with
  | none => exact ⟨hr, ha, fun j _ => hum j, fun _ => hum self, fun h => absurd rfl h⟩
  | some x =>
    simp only []
    have hw2 : frame π w1
        (if has_style x.style window_style.TitleBar = true then
          w1.set self { x with title_bar_title := some x.iTitleText }
         else w1) := by
      cases has_style x.style window_style.TitleBar
      · exact frame_refl π w1
      · exact frame_set π w1 self x _ hf (hπ.title x _)
    have hr2 : (if has_style x.style window_style.TitleBar = true then
          w1.set self { x with title_bar_title := some x.iTitleText }
         else w1).registry = w.registry := by
      cases has_style x.style window_style.TitleBar <;> simpa using hr
    have ha2 : (if has_style x.style window_style.TitleBar = true then
          w1.set self { x with title_bar_title := some x.iTitleText }
         else w1).widget_ancestors = w.widget_ancestors := by
      cases has_style x.style window_style.TitleBar <;> simpa using ha
    generalize (if has_style x.style window_style.TitleBar = true then
          w1.set self { x with title_bar_title := some x.iTitleText }
         else w1) = w2 at hw2 hr2 ha2
    have h12 := frame_trans hum hw2
    cases hc : (!x.is_nested && !x.has_native_surface)
    · simp only [Bool.false_eq_true, if_false]
      exact ⟨hr2, ha2, fun j _ => h12 j, fun _ => h12 self, fun h => absurd rfl h⟩
    · simp only [if_true]
      refine ⟨by simpa [construct_throw] using hr2, by simpa [construct_throw] using ha2,
        ?_, ?_, ?_⟩
      · intro j hj
        rw [construct_throw_find, if_neg hj]
        exact h12 j
      · intro h
        simp [construct_throw] at h
      · intro _
        rw [construct_throw_find, if_pos rfl]

theorem construction_step_throw {α : Type} (π : window → α) (w : World) (self : WinId)
    (e : window_error) : construction_step π w self (construct_throw w self e) := by
  refine ⟨rfl, rfl, ?_, ?_, ?_⟩
  · intro j hj
    rw [construct_throw_find, if_neg hj]
  · intro h
    simp [construct_throw] at h
  · intro _
    rw [construct_throw_find, if_pos rfl]

theorem construction_step_of_frame {α : Type} {π : window → α} {w v : World} {self : WinId}
    {r : construct_result} (hf : frame π w v) (hr : v.registry = w.registry)
    (ha : v.widget_ancestors = w.widget_ancestors) (h : construction_step π v self r) :
    construction_step π w self r := by
  obtain ⟨h1, h2, h3, h4, h5⟩ := h
  exact ⟨h1.trans hr, h2.trans ha, fun j hj => (h3 j hj).trans (hf j),
    fun hs => (h4 hs).trans (hf self), h5⟩

theorem init_step {α : Type} {π : window → α} (hπ : Inert π)
    (hE : ∀ (x : window) (e : Bool), π (x.counted_window_enable e) = π x) (w : World)
    (self : WinId) : construction_step π w self (init w self) := by
  unfold init
  cases hf : w.find self with
  | none => exact ⟨rfl, rfl, fun _ _ => rfl, fun _ => rfl, fun h => absurd rfl h⟩
  | some x =>
    simp only []
    cases hs : x.surface with
    | error e => exact construction_step_throw π w self e
    | ok hdl =>
      simp only []
      cases hm : init_makes_nest w self { x with iSurfaceDestroyed := some false } with
      | error e => exact construction_step_throw π w self e
      | ok makesNest =>
        simp only []
        have hx2 : π (if makesNest = true then
            ({ ({ x with iSurfaceDestroyed := some false } : window) with iNest := some [] }
              : window)
            else { x with iSurfaceDestroyed := some false }) = π x := by
          cases makesNest
          · exact hπ.destroyed x _
          · exact (hπ.nest _ _).trans (hπ.destroyed x _)
        generalize (if makesNest = true then
            ({ ({ x with iSurfaceDestroyed := some false } : window) with iNest := some [] }
              : window)
            else { x with iSurfaceDestroyed := some false }) = x2 at hx2
        have h1 : frame π w (w.set self x2) := frame_set π w self x x2 hf hx2
        have h2 : frame π w
            (if has_style x2.style window_style.InitiallyHidden = true then
              show_window (w.set self x2) self false
             else w.set self x2) := by
          cases has_style x2.style window_style.InitiallyHidden
          · exact h1
          · exact frame_trans h1 (frame_show_window hπ _ self false)
        have hr2 : (if has_style x2.style window_style.InitiallyHidden = true then
              show_window (w.set self x2) self false
             else w.set self x2).registry = w.registry := by
          cases has_style x2.style window_style.InitiallyHidden <;> simp
        have ha2 : (if has_style x2.style window_style.InitiallyHidden = true then
              show_window (w.set self x2) self false
             else w.set self x2).widget_ancestors = w.widget_ancestors := by
          cases has_style x2.style window_style.InitiallyHidden <;> simp
        generalize (if has_style x2.style window_style.InitiallyHidden = true then
              show_window (w.set self x2) self false
             else w.set self x2) = w2 at h2 hr2 ha2
        cases hn : x2.is_nested
        · simp only [Bool.false_eq_true, if_false]
          exact construction_step_of_frame h2 hr2 ha2 (init_tail_step hπ hE w2 self)
        · simp only [if_true]
          cases hc : nested_details_create w2 self with
          | error e =>
            exact construction_step_of_frame h2 hr2 ha2 (construction_step_throw π w2 self e)
          | ok w3 =>
            obtain ⟨f3, r3, a3⟩ := nested_details_create_ok hπ w2 w3 self hc
            exact construction_step_of_frame (frame_trans h2 f3) (r3.trans hr2)
              (a3.trans ha2) (init_tail_step hπ hE w3 self)

theorem construct_base_set (w : World) (self : WinId) (v : World) (x : window)
    (h : construct_base w self v) : construct_base w self (v.set self x) := by
  obtain ⟨h1, h2, h3⟩ := h
  refine ⟨?_, by simpa using h2, by simpa using h3⟩
  intro j hj
  rw [find_set, if_neg hj]
  exact h1 j hj

theorem construct_base_start (w : World) (self : WinId) (x : window) :
    construct_base w self ((w.set self x).add_window self) := by
  refine ⟨?_, rfl, rfl⟩
  intro j hj
  simp [hj]

theorem make_fullscreen_is_nested (x : window) : x.make_fullscreen.is_nested = x.is_nested := by
  simp [window.make_fullscreen, window.is_nested, window.style, fullscreen_style_nested]

theorem attach_surface_is_nested (x : window) (s : surface_window) :
    (x.attach_surface s).is_nested = x.is_nested := rfl

theorem attach_surface_is_surface (x : window) (s : surface_window) :
    (x.attach_surface s).is_surface = true := rfl

theorem force_nested_surface (x : window) (forced : Bool) :
    (x.force_nested forced).iSurfaceWindow = x.iSurfaceWindow := by
  cases forced <;> rfl

theorem force_nested_is_nested (x : window) (forced : Bool) :
    (x.force_nested forced).is_nested = (x.is_nested || forced) := by
  cases forced
  · simp [window.force_nested]
  · simp [window.force_nested, window.is_nested, window.style, has_style_or_self]

theorem construct_begin_surface (rq : construct_request) :
    (construct_begin rq).iSurfaceWindow = none := by
  unfold construct_begin
  cases rq.aParent <;> rfl

theorem construct_video_mode_cases (w v : World) (self : WinId) (rq : construct_request)
    (x : window) (hb : construct_base w self v) :
    (∃ e W0, construct_video_mode v self rq x = construct_throw W0 self e ∧
      construct_base w self W0) ∨
    (∃ xs W0, construct_video_mode v self rq x = init W0 self ∧ construct_base w self W0 ∧
      W0.find self = some xs ∧ xs.is_surface = !xs.is_nested) := by
  unfold construct_video_mode
  cases hn : x.is_nested
  · refine Or.inr ⟨x.make_fullscreen.attach_surface rq.created_surface,
      v.set self (x.make_fullscreen.attach_surface rq.created_surface), by simp,
      construct_base_set w self v _ hb, by simp, ?_⟩
    rw [attach_surface_is_surface, attach_surface_is_nested, make_fullscreen_is_nested, hn]
    rfl
  · exact Or.inl ⟨window_error.fullscreen_window_cannot_nest, v, by simp, hb⟩

theorem construct_desktop_cases (w v : World) (self : WinId) (rq : construct_request)
    (x : window) (hb : construct_base w self v) (hn : x.is_nested = false) :
    (∃ e W0, construct_desktop v self rq x = construct_throw W0 self e ∧
      construct_base w self W0) ∨
    (∃ xs W0, construct_desktop v self rq x = init W0 self ∧ construct_base w self W0 ∧
      W0.find self = some xs ∧ xs.is_surface = !xs.is_nested) := by
  unfold construct_desktop
  simp only []
  have hx1 : (if (!has_parent_window v x false && v.display_is_fullscreen) = true then
      x.make_fullscreen else x).is_nested = false := by
    cases (!has_parent_window v x false && v.display_is_fullscreen)
    · simpa using hn
    · simpa [make_fullscreen_is_nested] using hn
  generalize (if (!has_parent_window v x false && v.display_is_fullscreen) = true then
      x.make_fullscreen else x) = x1 at hx1
  generalize (if (!has_parent_window v x false && v.display_is_fullscreen) = true then
      v.display_fullscreen_placement else rq.aPlacement) = correctedPlacement
  have hgood : ∃ xs W0,
      init (v.set self (x1.attach_surface rq.created_surface)) self
        = init W0 self ∧ construct_base w self W0 ∧
      W0.find self = some xs ∧ xs.is_surface = !xs.is_nested := by
    refine ⟨x1.attach_surface rq.created_surface,
      v.set self (x1.attach_surface rq.created_surface), rfl,
      construct_base_set w self v _ hb, by simp, ?_⟩
    rw [attach_surface_is_surface, attach_surface_is_nested, hx1]
    rfl
  cases correctedPlacement.state with
  | Normal =>
    simp only []
    cases (!has_parent_window v x1 false)
    · simp only [Bool.false_eq_true, if_false]
      cases x1.iParentWindow.bind v.find with
      | none => exact Or.inl ⟨window_error.no_surface, v, rfl, hb⟩
      | some px =>
        simp only []
        cases px.surface with
        | error e => exact Or.inl ⟨e, v, rfl, hb⟩
        | ok hdl => exact Or.inr hgood
    · simp only [if_true]
      exact Or.inr hgood
  | Iconized => exact Or.inl ⟨window_error.not_yet_implemented, v, rfl, hb⟩
  | Maximized => exact Or.inl ⟨window_error.not_yet_implemented, v, rfl, hb⟩

theorem construct_cases (w : World) (self : WinId) (rq : construct_request) :
    (∃ e W0, construct w self rq = construct_throw W0 self e ∧ construct_base w self W0) ∨
    (∃ xs W0, construct w self rq = init W0 self ∧ construct_base w self W0 ∧
      W0.find self = some xs ∧ xs.is_surface = !xs.is_nested) := by
  unfold construct
  simp only []
  have hb1 := construct_base_start w self (construct_begin rq)
  have hs0 := construct_begin_surface rq
  generalize construct_begin rq = x0 at hb1 hs0
  generalize (w.set self x0).add_window self = w1 at hb1
  cases (x0.is_nested && !x0.has_parent)
  · simp only [Bool.false_eq_true, if_false]
    cases construct_forces_nested w1 self x0 with
    | error e => exact Or.inl ⟨e, w1, rfl, hb1⟩
    | ok forced =>
      simp only []
      have hs1 : (x0.force_nested forced).iSurfaceWindow = none := by
        rw [force_nested_surface]; exact hs0
      generalize x0.force_nested forced = x1 at hs1
      have hb2 := construct_base_set w self w1 x1 hb1
      cases rq.aPlacement.video_mode.isSome
      · simp only [Bool.false_eq_true, if_false]
        cases hn : x1.is_nested
        · simp only [Bool.not_false, if_true]
          exact construct_desktop_cases w _ self rq x1 hb2 hn
        · simp only [Bool.not_true, Bool.false_eq_true, if_false]
          refine Or.inr ⟨x1, w1.set self x1, rfl, hb2, by simp, ?_⟩
          simp [window.is_surface, hs1, hn]
      · simp only [if_true]
        exact construct_video_mode_cases w _ self rq x1 hb2
  · simp only [if_true]
    exact Or.inl ⟨window_error.parentless_window_cannot_nest, w1, rfl, hb1⟩

/-! ## Views that the operations leave alone -/

theorem counted_window_enable_style (x : window) (e : Bool) :
    (x.counted_window_enable e).iStyle = x.iStyle := by
  rw [counted_window_enable_eq]
  simp only [window.native_enable]
  split
  · cases h : x.iSurfaceWindow <;> simp
  · split <;> rfl

theorem counted_window_enable_core (x : window) (e : Bool) :
    (x.counted_window_enable e).core = x.core := by
  simp [window.core, counted_window_enable_style, counted_window_enable_is_surface]

theorem inert_style : Inert (fun x : window => x.iStyle) :=
  ⟨fun _ _ => rfl, fun _ _ => rfl, fun _ _ => rfl, fun _ _ => rfl, fun _ _ => rfl,
    fun _ _ => rfl, fun _ _ => rfl⟩

theorem inert_core : Inert window.core :=
  ⟨fun _ _ => rfl, fun _ _ => rfl, fun _ _ => rfl, fun _ _ => rfl, fun _ _ => rfl,
    fun _ _ => rfl, fun _ _ => rfl⟩

theorem stable_of_frame {α : Type} {π : window → α} {w v : World} (h : frame π w v) :
    stable π w v := by
  intro j y hy
  have hj := h j
  rw [hy] at hj
  cases hx : w.find j with
  | none => rw [hx] at hj; simp at hj
  | some x =>
    rw [hx] at hj
    simp only [Option.map_some', Option.some.injEq] at hj
    exact ⟨x, rfl, hj⟩

theorem stable_trans {α : Type} {π : window → α} {w v u : World}
    (h1 : stable π w v) (h2 : stable π v u) : stable π w u := by
  intro j z hz
  obtain ⟨y, hy, hyz⟩ := h2 j z hz
  obtain ⟨x, hx, hxy⟩ := h1 j y hy
  exact ⟨x, hx, hyz.trans hxy⟩

theorem stable_destroy {α : Type} {π : window → α} (hπ : Inert π)
    (hE : ∀ (x : window) (e : Bool), π (x.counted_window_enable e) = π x) (w : World)
    (self : WinId) : stable π w (destroy w self) := by
  intro j y hy
  by_cases hj : j = self
  · subst hj
    rw [destroy_find_self] at hy
    cases hy
  · have h1 := destroy_find_other hπ w self j hj
    have h2 := frame_update_modality hπ hE w self true j
    have h3 := h1.trans h2
    rw [hy] at h3
    cases hx : w.find j with
    | none => rw [hx] at h3; simp at h3
    | some x =>
      rw [hx] at h3
      simp only [Option.map_some', Option.some.injEq] at h3
      exact ⟨x, rfl, h3⟩

theorem stable_close {α : Type} {π : window → α} (hπ : Inert π)
    (hE : ∀ (x : window) (e : Bool), π (x.counted_window_enable e) = π x) (w : World)
    (self : WinId) : stable π w (close w self) := by
  unfold close close_with
  cases hf : w.find self with
  | none => exact stable_of_frame (frame_refl π w)
  | some x =>
    simp only []
    cases hc : x.iClosed
    · simp only [Bool.false_eq_true, if_false]
      cases hs : x.is_surface
      · simp only [Bool.false_eq_true, if_false]
        exact stable_of_frame (frame_trans (frame_modify π w self _
          (fun y => hπ.closed y true)) (frame_emit π _ _))
      · by_cases hd : self ∈ w.surface_close_destroys
        · simp only [if_true, hd]
          exact stable_trans (stable_of_frame (frame_surface_close hπ w self))
            (stable_destroy hπ hE _ self)
        · simp only [if_true, hd, if_false, Bool.false_eq_true]
          exact stable_of_frame (frame_trans (frame_surface_close hπ w self)
            (frame_trans (frame_modify π _ self _ (fun y => hπ.closed y true))
              (frame_emit π _ _)))
    · simp only [if_true]
      exact stable_of_frame (frame_refl π w)

theorem frame_modal_enable {α : Type} {π : window → α} (hπ : Inert π)
    (hE : ∀ (x : window) (e : Bool), π (x.counted_window_enable e) = π x) (w : World)
    (self : WinId) (e : Bool) : frame π w (modal_enable w self e) := by
  unfold modal_enable
  simp only []
  have h12 := frame_trans (frame_counted_window_enable hE w self e)
    (frame_update_modality hπ hE (counted_window_enable w self e) self e)
  generalize update_modality (counted_window_enable w self e) self e = w2 at h12
  cases w2.find self with
  | none => exact h12
  | some me =>
    simp only []
    cases (e && !has_style me.style window_style.NoActivate)
    · exact h12
    · exact frame_trans h12 (frame_activate hπ w2 self)

/-- The outcome of the constructor, seen through an inert view that
`counted_window_enable` leaves alone: the other objects look the same, and the
new object, when construction succeeds, looks like the object handed to `init`. -/
theorem construct_outcome {α : Type} {π : window → α} (hπ : Inert π)
    (hE : ∀ (x : window) (e : Bool), π (x.counted_window_enable e) = π x) (w : World)
    (self : WinId) (rq : construct_request) :
    (construct w self rq).world.registry = w.registry ++ [self] ∧
    (construct w self rq).world.widget_ancestors = w.widget_ancestors ∧
    (∀ j, j ≠ self → ((construct w self rq).world.find j).map π = (w.find j).map π) ∧
    ((construct w self rq).failure ≠ none → (construct w self rq).world.find self = none) ∧
    ((construct w self rq).failure = none →
      ∃ xs, xs.is_surface = (!xs.is_nested) ∧
        ((construct w self rq).world.find self).map π = some (π xs)) := by
  rcases construct_cases w self rq with ⟨e, W0, h, hb1, hb2, hb3⟩ | ⟨xs, W0, h, ⟨hb1, hb2, hb3⟩, hxs, hex⟩
  · rw [h]
    refine ⟨hb2, hb3, ?_, ?_, ?_⟩
    · intro j hj
      rw [construct_throw_find, if_neg hj, hb1 j hj]
    · intro _
      rw [construct_throw_find, if_pos rfl]
    · intro hn
      simp [construct_throw] at hn
  · rw [h]
    obtain ⟨h1, h2, h3, h4, h5⟩ := init_step hπ hE W0 self
    refine ⟨h1.trans hb2, h2.trans hb3, ?_, h5, ?_⟩
    · intro j hj
      rw [h3 j hj, hb1 j hj]
    · intro hn
      exact ⟨xs, hex, by rw [h4 hn, hxs]; rfl⟩

/-! ## C4: a failed construction and the registry -/

/-- C4 fails on the code (code defect): the constructor registers the window
with the window manager before it runs the checks that throw, and nothing
removes the entry when it throws. Construction of a Nested window without
parent fails with `parentless_window_cannot_nest`, of a Nested child with a
video mode with `fullscreen_window_cannot_nest`, of an Iconized window with
`not_yet_implemented`; each time the object is gone and its identity is still
in the registry, which did not hold it before. -/
theorem failed_construction_stays_registered :
    (construct empty_world 1 (plain_request window_style.Nested 10)).failure
      = some window_error.parentless_window_cannot_nest ∧
    empty_world.registry = [] ∧
    (construct empty_world 1 (plain_request window_style.Nested 10)).world.registry = [1] ∧
    (construct empty_world 1 (plain_request window_style.Nested 10)).world.find 1 = none ∧
    (construct one_window_world 2 (nested_fullscreen_request 1)).failure
      = some window_error.fullscreen_window_cannot_nest ∧
    one_window_world.registry = [1] ∧
    (construct one_window_world 2 (nested_fullscreen_request 1)).world.registry = [1, 2] ∧
    (construct one_window_world 2 (nested_fullscreen_request 1)).world.find 2 = none ∧
    (construct empty_world 1 iconized_request).failure
      = some window_error.not_yet_implemented ∧
    (construct empty_world 1 iconized_request).world.registry = [1] ∧
    (construct empty_world 1 iconized_request).world.find 1 = none := by
  decide

/-! ## C5: surface owner and nested at once -/

theorem exclusive_of_stable {w v : World} (h : stable window.core w v)
    (hinv : surface_nested_exclusive w) : surface_nested_exclusive v := by
  intro j y hy
  obtain ⟨x, hx, hc⟩ := h j y hy
  have hx2 := hinv j x hx
  simp only [window.core, Prod.mk.injEq] at hc
  simp only [window.is_nested, window.style] at hx2 ⊢
  rw [hc.1, hc.2]
  exact hx2

/-- C5, as stated, fails: the window of `one_window_world` is built by the
constructor as a surface owner; after `set_style(window_style::Nested)` it is
a surface owner and nested at once. -/
theorem surface_nested_exclusive_counterexample :
    (construct empty_world 1 (plain_request 0 10)).failure = none ∧
    (one_window_world.find 1).map (fun x => (x.is_surface, x.is_nested))
      = some (true, false) ∧
    ((set_style one_window_world 1 window_style.Nested).find 1).map
      (fun x => (x.is_surface, x.is_nested)) = some (true, true) := by
  decide

/-- C5, amended: that no window is both a surface owner and nested holds for
every window the constructor builds and is preserved by every operation other
than `set_style` (construction, destruction, `close`, `counted_window_enable`,
`update_modality`, `modal_enable`, `activate`, `show`); `set_style(s)`
preserves it when `s` does not include Nested or the window does not own a
surface. -/
theorem surface_nested_exclusive_step (w : World) (op : Op)
    (hinv : surface_nested_exclusive w)
    (hop : ∀ self aStyle, op = Op.set_style self aStyle →
      has_style aStyle window_style.Nested = true →
      ∀ x, w.find self = some x → x.is_surface = false) :
    surface_nested_exclusive (step w op) := by
  cases op with
  | construct self rq =>
    obtain ⟨_, _, h3, h4, h5⟩ :=
      construct_outcome inert_core counted_window_enable_core w self rq
    intro j y hy
    simp only [step] at hy
    by_cases hj : j = self
    · subst hj
      cases hfail : (construct w j rq).failure with
      | some e =>
        rw [h4 (by rw [hfail]; simp)] at hy
        cases hy
      | none =>
        obtain ⟨xs, hex, hmap⟩ := h5 hfail
        rw [hy] at hmap
        simp only [Option.map_some', Option.some.injEq, window.core, Prod.mk.injEq] at hmap
        simp only [window.is_nested, window.style] at hex ⊢
        rw [hmap.1, hmap.2, hex]
        cases has_style xs.iStyle window_style.Nested <;> simp
    · have hmap := h3 j hj
      rw [hy] at hmap
      cases hx : w.find j with
      | none => rw [hx] at hmap; simp at hmap
      | some x =>
        rw [hx] at hmap
        simp only [Option.map_some', Option.some.injEq, window.core, Prod.mk.injEq] at hmap
        have hx2 := hinv j x hx
        simp only [window.is_nested, window.style] at hx2 ⊢
        rw [hmap.1, hmap.2]
        exact hx2
  | destroy self =>
    exact exclusive_of_stable (stable_destroy inert_core counted_window_enable_core w self) hinv
  | close self =>
    exact exclusive_of_stable (stable_close inert_core counted_window_enable_core w self) hinv
  | set_style self aStyle =>
    intro j y hy
    simp only [step, set_style] at hy
    rw [find_modify] at hy
    by_cases hj : j = self
    · subst hj
      cases hx : w.find j with
      | none => rw [hx] at hy; simp at hy
      | some x =>
        rw [hx] at hy
        simp only [if_true, Option.map_some', Option.some.injEq] at hy
        subst hy
        intro hboth
        have hs := hop j aStyle rfl hboth.2 x hx
        have hs2 : x.is_surface = true := hboth.1
        rw [hs] at hs2
        cases hs2
    · rw [if_neg hj] at hy
      exact hinv j y hy
  | counted_window_enable self aEnable =>
    exact exclusive_of_stable (stable_of_frame
      (frame_counted_window_enable counted_window_enable_core w self aEnable)) hinv
  | update_modality self aEnableAncestors =>
    exact exclusive_of_stable (stable_of_frame
      (frame_update_modality inert_core counted_window_enable_core w self aEnableAncestors))
      hinv
  | modal_enable self aEnable =>
    exact exclusive_of_stable (stable_of_frame
      (frame_modal_enable inert_core counted_window_enable_core w self aEnable)) hinv
  | activate self =>
    exact exclusive_of_stable (stable_of_frame (frame_activate inert_core w self)) hinv
  | show_window self aVisible =>
    exact exclusive_of_stable (stable_of_frame
      (frame_show_window inert_core w self aVisible)) hinv

/-- Witness for C5: construction of a child window in `one_window_world`. -/
theorem surface_nested_exclusive_step_witness :
    surface_nested_exclusive one_window_world ∧
    surface_nested_exclusive (step one_window_world (Op.construct 2 (child_request 1 0 20))) :=
  ⟨fun j x hj => find_forall one_window_world
      (fun x => ¬ (x.is_surface = true ∧ x.is_nested = true)) (by decide) j x hj,
    surface_nested_exclusive_step one_window_world (Op.construct 2 (child_request 1 0 20))
      (fun j x hj => find_forall one_window_world
        (fun x => ¬ (x.is_surface = true ∧ x.is_nested = true)) (by decide) j x hj)
      (fun _ _ h => by cases h)⟩

/-! ## Which failures `init` and the constructor can raise -/

theorem surface_error (x : window) (e : window_error) (h : x.surface = .error e) :
    e = window_error.no_surface := by
  unfold window.surface at h
  cases hs : x.iSurfaceWindow with
  | some s => rw [hs] at h; cases h
  | none =>
    rw [hs] at h
    cases hf : x.found_surface with
    | some f => rw [hf] at h; cases h
    | none => rw [hf] at h; cases h; rfl

theorem init_makes_nest_error (w : World) (self : WinId) (x : window) (e : window_error)
    (h : init_makes_nest w self x = .error e) : e = window_error.endless_parent_chain := by
  unfold init_makes_nest at h
  cases hfs : x.is_fullscreen
  · rw [hfs] at h
    cases hn : w.program_options_nest
    · rw [hn] at h; cases h
    · rw [hn] at h
      cases hu : ultimate_ancestor w self with
      | some r => rw [hu] at h; cases h
      | none => rw [hu] at h; cases h; rfl
  · rw [hfs] at h; cases h

theorem construct_forces_nested_error (w : World) (self : WinId) (x : window)
    (e : window_error) (h : construct_forces_nested w self x = .error e) :
    e = window_error.endless_parent_chain := by
  unfold construct_forces_nested at h
  cases hp : x.has_parent
  · rw [hp] at h; cases h
  · rw [hp] at h
    cases hu : ultimate_ancestor w self with
    | some r => rw [hu] at h; cases h
    | none => rw [hu] at h; cases h; rfl

theorem nest_walk_error (w : World) (fuel : Nat) :
    ∀ (cur : WinId) (e : window_error), nest_walk w fuel cur = .error e →
      e = window_error.not_in_nest ∨ e = window_error.endless_parent_chain := by
  induction fuel with
  | zero =>
    intro cur e h
    cases h
    exact Or.inr rfl
  | succ n ih =>
    intro cur e h
    unfold nest_walk at h
    cases hf : w.find cur with
    | none => rw [hf] at h; cases h; exact Or.inl rfl
    | some x =>
      rw [hf] at h
      simp only [] at h
      cases hc : (!x.is_nest && has_parent_window w x true)
      · rw [hc] at h
        cases hn : x.is_nest
        · rw [hn] at h; cases h; exact Or.inl rfl
        · rw [hn] at h; cases h
      · rw [hc] at h
        cases hp : x.iParentWindow with
        | none => rw [hp] at h; cases h; exact Or.inl rfl
        | some p => rw [hp] at h; exact ih p e h

theorem nest_error (w : World) (self : WinId) (e : window_error)
    (h : nest w self = .error e) :
    e = window_error.not_in_nest ∨ e = window_error.endless_parent_chain := by
  unfold nest at h
  cases hf : w.find self with
  | none => rw [hf] at h; cases h; exact Or.inl rfl
  | some x =>
    rw [hf] at h
    simp only [] at h
    cases hn : x.is_nest
    · rw [hn] at h
      cases hc : (!has_parent_window w x true)
      · rw [hc] at h
        cases hp : x.iParentWindow with
        | none => rw [hp] at h; cases h; exact Or.inl rfl
        | some p => rw [hp] at h; exact nest_walk_error w _ p e h
      · rw [hc] at h; cases h; exact Or.inl rfl
    · rw [hn] at h; cases h

theorem nested_details_create_error (w : World) (self : WinId) (e : window_error)
    (h : nested_details_create w self = .error e) :
    e = window_error.not_in_nest ∨ e = window_error.endless_parent_chain := by
  unfold nested_details_create at h
  cases hn : nest w self with
  | error e2 => rw [hn] at h; cases h; exact nest_error w self e hn
  | ok r => rw [hn] at h; cases h

theorem init_tail_failure (w : World) (self : WinId) (e : window_error)
    (h : (init_tail w self).failure = some e) : e = window_error.no_native_surface := by
  unfold init_tail at h
  simp only [] at h
  cases hf : (update_modality w self false).find self with
  | none => rw [hf] at h; cases h
  | some x =>
    rw [hf] at h
    simp only [] at h
    cases hc : (!x.is_nested && !x.has_native_surface)
    · rw [hc] at h; cases h
    · rw [hc] at h
      simp only [if_true, construct_throw, Option.some.injEq] at h
      exact h.symm

/-- The failures that can leave `init`. -/
theorem init_failure (w : World) (self : WinId) (e : window_error)
    (h : (init w self).failure = some e) :
    e = window_error.no_surface ∨ e = window_error.endless_parent_chain ∨
    e = window_error.not_in_nest ∨ e = window_error.no_native_surface := by
  unfold init at h
  cases hf : w.find self with
  | none => rw [hf] at h; cases h
  | some x =>
    rw [hf] at h
    simp only [] at h
    cases hs : x.surface with
    | error e2 =>
      rw [hs] at h
      simp only [construct_throw, Option.some.injEq] at h
      subst h
      exact Or.inl (surface_error x e2 hs)
    | ok hdl =>
      rw [hs] at h
      simp only [] at h
      cases hm : init_makes_nest w self { x with iSurfaceDestroyed := some false } with
      | error e2 =>
        rw [hm] at h
        simp only [construct_throw, Option.some.injEq] at h
        subst h
        exact Or.inr (Or.inl (init_makes_nest_error w self _ e2 hm))
      | ok makesNest =>
        rw [hm] at h
        simp only [] at h
        generalize (if makesNest = true then
            ({ ({ x with iSurfaceDestroyed := some false } : window) with iNest := some [] }
              : window)
            else { x with iSurfaceDestroyed := some false }) = x2 at h
        generalize (if has_style x2.style window_style.InitiallyHidden = true then
              show_window (w.set self x2) self false
             else w.set self x2) = w2 at h
        cases hn : x2.is_nested
        · rw [hn] at h
          exact Or.inr (Or.inr (Or.inr (init_tail_failure _ self e h)))
        · rw [hn] at h
          simp only [if_true] at h
          cases hc : nested_details_create w2 self with
          | error e2 =>
            rw [hc] at h
            simp only [construct_throw, Option.some.injEq] at h
            subst h
            rcases nested_details_create_error _ self _ hc with h1 | h1
            · exact Or.inr (Or.inr (Or.inl h1))
            · exact Or.inr (Or.inl h1)
          | ok w3 =>
            rw [hc] at h
            exact Or.inr (Or.inr (Or.inr (init_tail_failure _ self e h)))

/-! ## C2: construction of a window with style Nested -/

/-- C2: for a construction request whose style includes Nested, construction
without a parent fails with `parentless_window_cannot_nest`; with a parent and
without a video mode it does not fail with that error, and the window it
builds reports `is_nested()` true. -/
theorem construct_nested (w : World) (self : WinId) (rq : construct_request)
    (hnested : has_style rq.aStyle window_style.Nested = true) :
    (rq.aParent = none →
      (construct w self rq).failure = some window_error.parentless_window_cannot_nest) ∧
    (∀ p, rq.aParent = some p → rq.aPlacement.video_mode = none →
      (construct w self rq).failure ≠ some window_error.parentless_window_cannot_nest ∧
      ((construct w self rq).failure = none →
        ∃ x, (construct w self rq).world.find self = some x ∧ x.is_nested = true)) := by
  constructor
  · intro hp
    simp [construct, construct_begin, hp, window.is_nested, window.style, initial_window,
      hnested, window.has_parent, construct_throw]
  · intro p hp hv
    have hx0n : (construct_begin rq).is_nested = true := by
      simp [construct_begin, hp, window.set_parent, window.is_nested, window.style,
        initial_window, hnested]
    have hx0p : (construct_begin rq).has_parent = true := by
      simp [construct_begin, hp, window.set_parent, window.has_parent]
    unfold construct
    simp only [hx0n, hx0p, Bool.not_true, Bool.and_false, Bool.false_eq_true, if_false, hv,
      Option.isSome_none]
    generalize construct_begin rq = x0 at hx0n hx0p
    generalize (w.set self x0).add_window self = w1
    cases hfn : construct_forces_nested w1 self x0 with
    | error e =>
      simp only [construct_throw]
      have he := construct_forces_nested_error w1 self x0 e hfn
      subst he
      exact ⟨by simp, by simp⟩
    | ok forced =>
      simp only []
      have hx1n : (x0.force_nested forced).is_nested = true := by
        rw [force_nested_is_nested, hx0n]; rfl
      generalize x0.force_nested forced = x1 at hx1n
      simp only [hx1n, Bool.not_true, Bool.false_eq_true, if_false]
      constructor
      · intro hfail
        rcases init_failure _ self _ hfail with h | h | h | h <;> cases h
      · intro hok
        obtain ⟨_, _, _, h4, _⟩ :=
          init_step inert_style counted_window_enable_style (w1.set self x1) self
        have h := h4 hok
        simp only [find_set, if_true, Option.map_some'] at h
        cases hx : (init (w1.set self x1) self).world.find self with
        | none => rw [hx] at h; simp at h
        | some x =>
          rw [hx] at h
          simp only [Option.map_some', Option.some.injEq] at h
          refine ⟨x, rfl, ?_⟩
          simp only [window.is_nested, window.style] at hx1n ⊢
          rw [h]
          exact hx1n

/-- Witness for C2: a nested child window of the fullscreen root window. -/
theorem construct_nested_witness :
    has_style (nested_request 1 10).aStyle window_style.Nested = true ∧
    (construct fullscreen_root_world 2 (nested_request 1 10)).failure = none ∧
    ∃ x, (construct fullscreen_root_world 2 (nested_request 1 10)).world.find 2 = some x ∧
      x.is_nested = true :=
  ⟨by decide, by decide,
    ((construct_nested fullscreen_root_world 2 (nested_request 1 10) (by decide)).2 1 rfl
      rfl).2 (by decide)⟩

/-! ## When `init` succeeds -/

theorem show_window_find (w : World) (self : WinId) (b : Bool) (j : WinId) :
    (show_window w self b).find j =
      if j = self then (w.find self).map (fun x => { x with widget_visible := b })
      else w.find j := by
  unfold show_window
  cases hf : w.find self with
  | none =>
    by_cases hj : j = self
    · subst hj; simp [hf]
    · simp [hj]
  | some x =>
    simp only []
    cases ((x.widget_visible != b) && x.has_native_surface) <;>
      by_cases hj : j = self <;> simp [hj]

theorem has_style_two_pow (s : window_style) (k : Nat) :
    has_style s (2 ^ k) = s.testBit k := by
  unfold has_style
  rw [Nat.and_two_pow]
  have h : (2 : Nat) ^ k ≠ 0 := by positivity
  cases s.testBit k
  · simp only [Bool.toNat_false, zero_mul, beq_eq_false_iff_ne, ne_eq]
    exact fun e => h e.symm
  · simp

theorem style_mask_two (s : window_style) (a b : Nat) :
    ((s &&& (2 ^ a ||| 2 ^ b)) != 0) = (has_style s (2 ^ a) || has_style s (2 ^ b)) := by
  rw [has_style_two_pow, has_style_two_pow, Nat.and_or_distrib_left, Nat.and_two_pow,
    Nat.and_two_pow]
  have ha : (2 : Nat) ^ a ≠ 0 := by positivity
  have hb : (2 : Nat) ^ b ≠ 0 := by positivity
  have hab : (2 : Nat) ^ a ||| 2 ^ b ≠ 0 := by
    intro h0
    have h1 := congrArg (fun n => n.testBit a) h0
    simp [Nat.testBit_two_pow_self] at h1
  cases s.testBit a <;> cases s.testBit b <;> simp [ha, hb, hab]

theorem dismiss_mask (s : window_style) :
    ((s &&& (window_style.DismissOnOwnerClick ||| window_style.DismissOnParentClick))
        != window_style.Invalid) =
      (has_style s window_style.DismissOnOwnerClick ||
        has_style s window_style.DismissOnParentClick) := by
  have h1 : window_style.DismissOnOwnerClick = 2 ^ 21 := by
    unfold window_style.DismissOnOwnerClick; norm_num
  have h2 : window_style.DismissOnParentClick = 2 ^ 22 := by
    unfold window_style.DismissOnParentClick; norm_num
  rw [h1, h2]
  exact style_mask_two s 21 22

theorem hide_mask (s : window_style) :
    ((s &&& (window_style.HideOnOwnerClick ||| window_style.HideOnParentClick))
        != window_style.Invalid) =
      (has_style s window_style.HideOnOwnerClick ||
        has_style s window_style.HideOnParentClick) := by
  have h1 : window_style.HideOnOwnerClick = 2 ^ 23 := by
    unfold window_style.HideOnOwnerClick; norm_num
  have h2 : window_style.HideOnParentClick = 2 ^ 24 := by
    unfold window_style.HideOnParentClick; norm_num
  rw [h1, h2]
  exact style_mask_two s 23 24

/-- C12: for every style value, `dismissal_type()` is CloseOnDismissal if the
style contains DismissOnOwnerClick or DismissOnParentClick; otherwise
HideOnDismissal if it contains HideOnOwnerClick or HideOnParentClick;
otherwise CannotDismiss. A Dismiss flag wins over a Hide flag. -/
theorem dismissal_type_of_style (aStyle : window_style) :
    dismissal_type_of aStyle =
      (if has_style aStyle window_style.DismissOnOwnerClick = true ∨
          has_style aStyle window_style.DismissOnParentClick = true then
        dismissal_type_e.CloseOnDismissal
      else if has_style aStyle window_style.HideOnOwnerClick = true ∨
          has_style aStyle window_style.HideOnParentClick = true then
        dismissal_type_e.HideOnDismissal
      else dismissal_type_e.CannotDismiss) := by
  unfold dismissal_type_of
  rw [dismiss_mask, hide_mask]
  cases has_style aStyle window_style.DismissOnOwnerClick <;>
    cases has_style aStyle window_style.DismissOnParentClick <;>
    cases has_style aStyle window_style.HideOnOwnerClick <;>
    cases has_style aStyle window_style.HideOnParentClick <;> simp

/-! ## C15, C16: the focused widget -/

/-- C15: `set_focused_widget(X, reason)` does nothing when X is the focused
widget already (no call, window unchanged); otherwise X is the focused widget
afterwards and nothing else of the window changes, and the calls made are
`focus_lost(reason)` on the widget Y that had the focus followed by
`focus_gained(reason)` on X, once each and in that order, or
`focus_gained(reason)` on X alone when no widget had the focus. -/
theorem set_focused_widget_spec (x : window) (X : Nat) (reason : focus_reason) :
    (x.iFocusedWidget = some X → x.set_focused_widget X reason = (x, [])) ∧
    (x.iFocusedWidget ≠ some X →
      (x.set_focused_widget X reason).1 = { x with iFocusedWidget := some X } ∧
      (x.set_focused_widget X reason).1.iFocusedWidget = some X ∧
      (∀ Y, x.iFocusedWidget = some Y →
        (x.set_focused_widget X reason).2
          = [Event.focus_lost Y reason, Event.focus_gained X reason]) ∧
      (x.iFocusedWidget = none →
        (x.set_focused_widget X reason).2 = [Event.focus_gained X reason])) := by
  constructor
  · intro h
    simp [window.set_focused_widget, h]
  · intro h
    refine ⟨by simp [window.set_focused_widget, h], by simp [window.set_focused_widget, h],
      ?_, ?_⟩
    · intro Y hY
      have hYX : ¬ Y = X := by
        intro e
        apply h
        rw [hY, e]
      simp [window.set_focused_widget, hY, hYX, focus_lost_calls]
    · intro hn
      simp [window.set_focused_widget, hn, focus_lost_calls]

/-- C16: `release_focused_widget(Z)` fails with `widget_not_focused` exactly
when Z is not the focused widget (also when no widget has the focus); the
failure precedes every write and every call, so the window is as it was. When
Z is the focused widget the call clears the focus, `has_focused_widget()` is
false afterwards, and Z gets one `focus_lost` with reason Other. -/
theorem release_focused_widget_spec (x : window) (Z : Nat) :
    (x.release_focused_widget Z = .error window_error.widget_not_focused ↔
      x.iFocusedWidget ≠ some Z) ∧
    (x.iFocusedWidget = none →
      x.release_focused_widget Z = .error window_error.widget_not_focused) ∧
    (x.iFocusedWidget = some Z →
      x.release_focused_widget Z
        = .ok ({ x with iFocusedWidget := none },
            [Event.focus_lost Z focus_reason.Other]) ∧
      ({ x with iFocusedWidget := none } : window).has_focused_widget = false) := by
  refine ⟨?_, ?_, ?_⟩
  · by_cases h : x.iFocusedWidget = some Z
    · simp [window.release_focused_widget, h]
    · simp [window.release_focused_widget, h]
  · intro h
    simp [window.release_focused_widget, h]
  · intro h
    exact ⟨by simp [window.release_focused_widget, h], rfl⟩

/-! ## C20: `mouse_entered` -/

theorem surface_of_has_surface (x : window) (h : x.has_surface = true) :
    ∃ hdl, x.surface = .ok hdl := by
  unfold window.has_surface window.is_surface at h
  unfold window.surface
  cases hs : x.iSurfaceWindow with
  | some sw => exact ⟨sw.handle, rfl⟩
  | none =>
    rw [hs] at h
    cases hf : x.found_surface with
    | some f => exact ⟨f, rfl⟩
    | none => rw [hf] at h; simp at h

/-- C20: for a window that has a surface, `mouse_entered(position)` resolves
N, the capturing widget of the surface if there is one and else the widget
hit-tested at the position. If N is the entered widget nothing is sent and the
window is unchanged. Otherwise the old entered widget (if any) gets
`mouse_left`, the entered widget becomes N, and N gets
`mouse_entered(position)`, in that order. -/
theorem mouse_entered_spec (x : window) (position : point) (capturing_widget : Option Nat)
    (widget_for_mouse_event : point → Nat) (hs : x.has_surface = true) :
    (∀ c, capturing_widget = some c →
      widget_under_mouse capturing_widget widget_for_mouse_event position = c) ∧
    (capturing_widget = none →
      widget_under_mouse capturing_widget widget_for_mouse_event position
        = widget_for_mouse_event position) ∧
    (x.iEnteredWidget
        = some (widget_under_mouse capturing_widget widget_for_mouse_event position) →
      x.mouse_entered position capturing_widget widget_for_mouse_event = .ok (x, [])) ∧
    (x.iEnteredWidget
        ≠ some (widget_under_mouse capturing_widget widget_for_mouse_event position) →
      (∀ o, x.iEnteredWidget = some o →
        x.mouse_entered position capturing_widget widget_for_mouse_event
          = .ok (x.enter
                (widget_under_mouse capturing_widget widget_for_mouse_event position),
              [Event.mouse_left o,
                Event.mouse_entered
                  (widget_under_mouse capturing_widget widget_for_mouse_event position)
                  position])) ∧
      (x.iEnteredWidget = none →
        x.mouse_entered position capturing_widget widget_for_mouse_event
          = .ok (x.enter
                (widget_under_mouse capturing_widget widget_for_mouse_event position),
              [Event.mouse_entered
                  (widget_under_mouse capturing_widget widget_for_mouse_event position)
                  position]))) := by
  obtain ⟨hdl, hsurf⟩ := surface_of_has_surface x hs
  generalize hN : widget_under_mouse capturing_widget widget_for_mouse_event position = N
  refine ⟨?_, ?_, ?_, ?_⟩
  · intro c hc
    subst hc
    exact hN.symm
  · intro hc
    subst hc
    exact hN.symm
  · intro h
    simp [window.mouse_entered, hsurf, hN, h]
  · intro h
    have h2 : ¬ some N = x.iEnteredWidget := fun e => h e.symm
    constructor
    · intro o ho
      rw [ho] at h2
      simp [window.mouse_entered, hsurf, hN, ho, h2, mouse_left_calls]
    · intro hn
      simp [window.mouse_entered, hsurf, hN, hn, mouse_left_calls]

/-- Witness for C20: the pointer moves from widget 6 to widget 9, which has
captured the input, in `focused_window`. -/
theorem mouse_entered_spec_witness :
    focused_window.has_surface = true ∧
    focused_window.mouse_entered (3, 4) (some 9) (fun _ => 6)
      = .ok (focused_window.enter 9,
          [Event.mouse_left 6, Event.mouse_entered 9 (3, 4)]) ∧
    (focused_window.enter 9).iEnteredWidget = some 9 :=
  ⟨by decide,
    ((mouse_entered_spec focused_window (3, 4) (some 9) (fun _ => 6) (by decide)).2.2.2
      (by decide)).1 6 rfl, rfl⟩

/-! ## C17, C18, C19: `update_click_focus` -/

/-- C17: when the focused widget `F` is a descendant of the candidate `P` and
the click position lies inside the client rect of `F`, `update_click_focus(P, p)`
returns at once: the invocation for `P` is the only call made, so `set_focus`
is called on no widget and the parent of `P` is not visited; the function
writes no member of the window, so the focus stays on `F`. -/
theorem click_focus_preserved (t : widget_tree) (x : window) (F P : Nat) (p : point)
    (fuel : Nat) (hF : x.iFocusedWidget = some F) (hd : t.is_descendent_of F P = true)
    (hc : t.client_rect_contains F p = true) :
    update_click_focus t x p (fuel + 1) P = some [Event.update_click_focus P] := by
  have hk : click_keeps_focus t x P p = true := by
    simp [click_keeps_focus, child_has_focus, window.has_focused_widget, hF, hd, hc]
  simp [update_click_focus, hk]

/-- Witness of C17: widget 5 is focused, is a descendant of the candidate 7 and
the click falls into its client rect. -/
theorem click_focus_preserved_witness :
    focused_window.iFocusedWidget = some 5 ∧
    focused_child_tree.is_descendent_of 5 7 = true ∧
    update_click_focus focused_child_tree focused_window (0, 0) 1 7
      = some [Event.update_click_focus 7] :=
  ⟨rfl, rfl, click_focus_preserved focused_child_tree focused_window 5 7 (0, 0) 0 rfl rfl rfl⟩

/-- C18: a click outside the client area of the enabled, focus accepting
candidate 7, while no widget has the focus. With a focus policy that lacks
`IgnoreNonClient` the candidate does not get the focus; with a focus policy
that includes `IgnoreNonClient` it does: the local `ignoreNonClientArea` is
computed with `!=` and is true exactly when the flag is absent. -/
theorem non_client_click_focus_inverted :
    update_click_focus (non_client_click_tree 0) disabled_nested_window (0, 0) 1 7
      = some [Event.update_click_focus 7] ∧
    update_click_focus (non_client_click_tree focus_policy.IgnoreNonClient)
        disabled_nested_window (0, 0) 1 7
      = some [Event.update_click_focus 7, Event.set_focus 7 focus_reason.ClickNonClient] ∧
    ∀ policy : focus_policy,
      update_click_focus (non_client_click_tree policy) disabled_nested_window (0, 0) 1 7
        = some (if (policy &&& focus_policy.IgnoreNonClient) = focus_policy.IgnoreNonClient
            then [Event.update_click_focus 7,
              Event.set_focus 7 focus_reason.ClickNonClient]
            else [Event.update_click_focus 7]) := by
  refine ⟨by decide, by decide, ?_⟩
  intro policy
  by_cases h : (policy &&& focus_policy.IgnoreNonClient) = focus_policy.IgnoreNonClient
  · simp [update_click_focus, click_keeps_focus, child_has_focus, non_client_click_tree,
      disabled_nested_window, window.has_focused_widget, ignoreNonClientArea,
      click_focus_reason, h]
  · simp [update_click_focus, click_keeps_focus, child_has_focus, non_client_click_tree,
      disabled_nested_window, window.has_focused_widget, ignoreNonClientArea,
      click_focus_reason, h]

/-- C19, counterexample: the candidate 7 is enabled and accepts the focus, the
click is outside its client area and does not qualify, the candidate has the
parent 8 and no widget has the focus; the early exit does not apply. The
focus is not assigned and the parent is not visited, whatever the bound. -/
theorem click_focus_recursion_counterexample :
    click_keeps_focus (non_client_click_tree 0) disabled_nested_window 7 (0, 0) = false ∧
    (non_client_click_tree 0).parent 7 = some 8 ∧
    child_has_focus (non_client_click_tree 0) disabled_nested_window 7 = false ∧
    ∀ fuel : Nat,
      update_click_focus (non_client_click_tree 0) disabled_nested_window (0, 0) (fuel + 1) 7
        = some [Event.update_click_focus 7] := by
  refine ⟨by decide, by decide, by decide, ?_⟩
  intro fuel
  simp [update_click_focus, click_keeps_focus, child_has_focus, non_client_click_tree,
    disabled_nested_window, window.has_focused_widget, ignoreNonClientArea,
    click_focus_reason, focus_policy.IgnoreNonClient]

/-- C19, amended: when the early exit does not apply, `update_click_focus`
passes the click to the parent of the candidate exactly when the candidate is
disabled or refuses the focus for the computed reason, has a parent and no
descendant of it holds the focus; the calls of the parent's invocation then
follow the one of the candidate. An enabled candidate that accepts the focus
never passes the click on, whether or not it takes the focus. -/
theorem click_focus_recursion (t : widget_tree) (x : window) (p : point) (fuel P : Nat)
    (hk : click_keeps_focus t x P p = false) :
    ((t.enabled P && t.can_set_focus P (click_focus_reason (t.hit_test_is_client P p))) = true →
      update_click_focus t x p (fuel + 1) P
        = some (Event.update_click_focus P ::
            (if t.hit_test_is_client P p || (!ignoreNonClientArea t P && !child_has_focus t x P)
             then [Event.set_focus P (click_focus_reason (t.hit_test_is_client P p))]
             else []))) ∧
    ((t.enabled P && t.can_set_focus P (click_focus_reason (t.hit_test_is_client P p))) = false →
      (∀ parent, t.parent P = some parent → child_has_focus t x P = false →
        update_click_focus t x p (fuel + 1) P
          = (update_click_focus t x p fuel parent).map
              (fun calls => Event.update_click_focus P :: calls)) ∧
      (t.parent P = none ∨ child_has_focus t x P = true →
        update_click_focus t x p (fuel + 1) P = some [Event.update_click_focus P])) := by
  refine ⟨?_, ?_⟩
  · intro he
    cases hc : (t.hit_test_is_client P p || (!ignoreNonClientArea t P && !child_has_focus t x P))
    · simp only [update_click_focus, hk, he, hc, Bool.false_eq_true, if_false, if_true]
    · simp only [update_click_focus, hk, he, hc, Bool.false_eq_true, if_false, if_true]
  · intro he
    refine ⟨?_, ?_⟩
    · intro parent hp hch
      simp [update_click_focus, hk, he, hp, hch]
    · intro h
      rcases h with h | h
      · simp [update_click_focus, hk, he, h]
      · simp [update_click_focus, hk, he, h]

/-- Witness of C19: the candidate 7 is disabled, has the parent 8 and no widget
has the focus; the click goes on to widget 8, which takes the focus. -/
theorem click_focus_recursion_witness :
    click_keeps_focus focused_child_tree disabled_nested_window 7 (0, 0) = false ∧
    update_click_focus focused_child_tree disabled_nested_window (0, 0) 2 7
      = some [Event.update_click_focus 7, Event.update_click_focus 8,
          Event.set_focus 8 focus_reason.ClickClient] :=
  ⟨by decide,
    ((click_focus_recursion focused_child_tree disabled_nested_window (0, 0) 1 7
      (by decide)).2 (by decide)).1 8 rfl (by decide) |>.trans (by decide)⟩

/-! ## The parent walk of `is_owner_of` -/

theorem acyclic_of_ranked (w : World)
    (h : ∀ p ∈ w.windows, ∀ q ∈ p.2.iParentWindow, q < p.1) : acyclic w :=
  ⟨fun j => j, fun j x p hj hp => h (j, x) (store_find_mem w.windows j x hj) p hp⟩

theorem is_owner_of_walk_terminates (w : World) (self : WinId) (rank : WinId → Nat)
    (hr : ∀ (j : WinId) (x : window) (p : WinId),
      w.find j = some x → x.iParentWindow = some p → rank p < rank j) :
    ∀ (fuel : Nat) (cur : WinId),
      ((w.windows.map Prod.fst).toFinset.filter (fun j => rank j ≤ rank cur)).card < fuel →
      ∃ b, is_owner_of_walk w self fuel cur = some b := by
  intro fuel
  induction fuel with
  | zero => intro cur h; exact absurd h (Nat.not_lt_zero _)
  | succ n ih =>
    intro cur h
    unfold is_owner_of_walk
    cases hf : w.find cur with
    | none => exact ⟨false, rfl⟩
    | some x =>
      cases hp : x.iParentWindow with
      | none => exact ⟨false, by simp [hp]⟩
      | some p =>
        by_cases hps : p = self
        · exact ⟨true, by simp [hp, hps]⟩
        · simp only [hp, hps, if_false]
          apply ih
          have hlt := hr cur x p hf hp
          have hmem : cur ∈ (w.windows.map Prod.fst).toFinset := by
            rw [List.mem_toFinset, List.mem_map]
            exact ⟨(cur, x), store_find_mem w.windows cur x hf, rfl⟩
          have hss : (w.windows.map Prod.fst).toFinset.filter (fun j => rank j ≤ rank p)
              ⊂ (w.windows.map Prod.fst).toFinset.filter (fun j => rank j ≤ rank cur) := by
            rw [Finset.ssubset_iff_of_subset]
            · refine ⟨cur, ?_, ?_⟩
              · simp only [Finset.mem_filter]
                exact ⟨hmem, le_refl _⟩
              · simp only [Finset.mem_filter, not_and, not_le]
                intro _
                exact hlt
            · intro j hj
              simp only [Finset.mem_filter] at hj ⊢
              exact ⟨hj.1, by omega⟩
          have hcard := Finset.card_lt_card hss
          omega

theorem is_owner_of_some (w : World) (h : acyclic w) (self c : WinId) :
    ∃ b, is_owner_of w self c = some b := by
  obtain ⟨rank, hr⟩ := h
  unfold is_owner_of
  by_cases hc : c = self
  · exact ⟨false, by simp [hc]⟩
  · simp only [hc, if_false]
    apply is_owner_of_walk_terminates w self rank hr
    have h1 := Finset.card_filter_le (w.windows.map Prod.fst).toFinset
      (fun j => rank j ≤ rank c)
    have h2 := List.toFinset_card_le (w.windows.map Prod.fst)
    have h3 : (w.windows.map Prod.fst).length = w.windows.length := List.length_map _ _
    omega

/-! ## C13: `can_dismiss` -/

theorem can_dismiss_by_spec (w : World) (W : WinId) (x : window) (c : Option WinId)
    (ownerFlag parentFlag : window_style) (hx : w.find W = some x) (hac : acyclic w) :
    ∃ b, can_dismiss_by w W x c ownerFlag parentFlag = some b ∧
      (b = true ↔ c = none ∨ ∃ r, c = some r ∧
        ((has_style x.style ownerFlag = true ∧ is_owner_of w r W = some true) ∨
         (has_style x.style parentFlag = true ∧ is_parent_of w r W = true))) := by
  cases c with
  | none => exact ⟨true, rfl, by simp⟩
  | some r =>
    obtain ⟨o, ho⟩ := is_owner_of_some w hac r W
    have hpar : is_parent_of w r W = x.is_child_of r := by simp [is_parent_of, hx]
    cases hof : has_style x.style ownerFlag
    · refine ⟨has_style x.style parentFlag && x.is_child_of r, ?_, ?_⟩
      · simp [can_dismiss_by, hof]
      · simp [hpar]
    · cases o
      · refine ⟨has_style x.style parentFlag && x.is_child_of r, ?_, ?_⟩
        · simp [can_dismiss_by, hof, ho]
        · simp [hpar, ho]
      · refine ⟨true, ?_, ?_⟩
        · simp [can_dismiss_by, hof, ho]
        · simp [ho]

theorem kept_refl (x : window) : x.kept x := ⟨rfl, rfl, rfl, id⟩

theorem kept_trans {x y z : window} (h1 : x.kept y) (h2 : y.kept z) : x.kept z :=
  ⟨h2.1.trans h1.1, h2.2.1.trans h1.2.1, h2.2.2.1.trans h1.2.2.1,
    fun h => h2.2.2.2 (h1.2.2.2 h)⟩

theorem kept_opt_refl (o : Option window) : kept_opt o o := by
  cases o with
  | none => trivial
  | some x => exact kept_refl x

theorem kept_opt_trans {a b c : Option window} (h1 : kept_opt a b) (h2 : kept_opt b c) :
    kept_opt a c := by
  cases a with
  | none =>
    cases b with
    | none => exact h2
    | some y => exact h1.elim
  | some x =>
    cases b with
    | none => exact h1.elim
    | some y =>
      cases c with
      | none => exact h2.elim
      | some z => exact kept_trans h1 h2

theorem kept_opt_of_some {x : window} {o : Option window} (h : kept_opt (some x) o) :
    ∃ y, o = some y ∧ x.kept y := by
  cases o with
  | none => exact h.elim
  | some y => exact ⟨y, rfl, h⟩

theorem kept_opt_to_some {o : Option window} {y : window} (h : kept_opt o (some y)) :
    ∃ x, o = some x ∧ x.kept y := by
  cases o with
  | none => exact h.elim
  | some x => exact ⟨x, rfl, h⟩

theorem kept_opt_of_eq {a b : Option window} (h : b = a) : kept_opt a b := by
  rw [h]
  exact kept_opt_refl a

theorem calm_refl (w : World) : calm w w := ⟨rfl, rfl, fun _ => kept_opt_refl _⟩

theorem calm_trans {w v u : World} (h1 : calm w v) (h2 : calm v u) : calm w u :=
  ⟨h2.1.trans h1.1, h2.2.1.trans h1.2.1, fun j => kept_opt_trans (h1.2.2 j) (h2.2.2 j)⟩

theorem calm_emit (w : World) (e : Event) : calm w (w.emit e) :=
  ⟨rfl, rfl, fun _ => kept_opt_refl _⟩

theorem calm_set (w : World) (i : WinId) (x y : window) (h : w.find i = some x)
    (hy : x.kept y) : calm w (w.set i y) := by
  refine ⟨rfl, rfl, fun j => ?_⟩
  rw [find_set]
  by_cases hj : j = i
  · subst hj
    rw [if_pos rfl, h]
    exact hy
  · rw [if_neg hj]
    exact kept_opt_refl _

theorem calm_modify (w : World) (i : WinId) (f : window → window)
    (hf : ∀ x : window, x.kept (f x)) : calm w (w.modify i f) := by
  unfold World.modify
  cases h : w.find i with
  | none => exact calm_refl w
  | some x => exact calm_set w i x (f x) h (hf x)

theorem calm_show_true (w : World) (p : WinId) : calm w (show_window w p true) := by
  unfold show_window
  cases hf : w.find p with
  | none => exact calm_refl w
  | some x =>
    simp only []
    have h1 := calm_set w p x { x with widget_visible := true } hf
      ⟨rfl, rfl, rfl, fun _ => rfl⟩
    cases ((x.widget_visible != true) && x.has_native_surface)
    · simpa using h1
    · exact calm_trans h1 (calm_emit _ _)

theorem calm_activate (w : World) (p : WinId) : calm w (activate w p) := by
  unfold activate
  simp only [find_emit]
  have h0 : calm w (w.emit (Event.activate p)) := calm_emit w _
  have h1 := calm_trans h0 (calm_show_true (w.emit (Event.activate p)) p)
  cases hf : w.find p with
  | none => exact h0
  | some x =>
    cases hv : x.widget_visible <;> cases hn : x.has_native_window <;> simp only [] <;>
      simp [hv, hn]
    · exact h1
    · exact calm_trans h1 (calm_emit _ _)
    · exact h0
    · exact calm_trans h0 (calm_emit _ _)

theorem kept_counted (x : window) (e : Bool) : x.kept (x.counted_window_enable e) := by
  rw [counted_window_enable_eq]
  simp only [window.native_enable]
  split
  · cases h : x.iSurfaceWindow <;> exact ⟨rfl, rfl, rfl, id⟩
  · split <;> exact ⟨rfl, rfl, rfl, id⟩

theorem calm_update_modality_body (self : WinId) (e : Bool) (acc : World) (j : WinId) :
    calm acc (update_modality_body self e acc j) := by
  unfold update_modality_body
  cases acc.find self with
  | none => exact calm_refl acc
  | some me =>
    simp only []
    by_cases hj : j ≠ self
    · rw [if_pos hj]
      cases has_style me.iStyle window_style.ApplicationModal
      · cases (has_style me.iStyle window_style.Modal && acc.is_ancestor_of j self)
        · exact calm_refl acc
        · exact calm_modify acc j _ (fun x => kept_counted x e)
      · exact calm_modify acc j _ (fun x => kept_counted x e)
    · rw [if_neg hj]
      exact calm_refl acc

theorem calm_update_modality_loop (self : WinId) (e : Bool) (l : List WinId) :
    ∀ acc : World, calm acc (l.foldl (update_modality_body self e) acc) := by
  induction l with
  | nil => intro acc; exact calm_refl acc
  | cons a t ih =>
    intro acc
    rw [List.foldl_cons]
    exact calm_trans (calm_update_modality_body self e acc a) (ih _)

theorem calm_update_modality (w : World) (self : WinId) (e : Bool) :
    calm w (update_modality w self e) := by
  refine calm_trans (calm_update_modality_loop self e w.registry w) ?_
  unfold update_modality
  simp only []
  generalize w.registry.foldl (update_modality_body self e) w = w1
  cases hf : w1.find self with
  | none => exact calm_refl w1
  | some me =>
    simp only []
    cases hc : (e && has_parent_window w1 me false && !has_style me.style window_style.NoActivate)
    · exact calm_refl w1
    · cases hp : me.iParentWindow with
      | none => exact calm_refl w1
      | some p => exact calm_activate w1 p

theorem calm_surface_close (w : World) (self : WinId) : calm w (surface_close w self) := by
  unfold surface_close
  apply calm_modify
  intro x
  cases hs : x.iSurfaceWindow with
  | none => exact kept_refl x
  | some s => exact ⟨rfl, rfl, rfl, id⟩

theorem calm_nested_details_destroy (w : World) (self : WinId) :
    calm w (nested_details_destroy w self) := by
  unfold nested_details_destroy
  cases hf : w.find self with
  | none => exact calm_refl w
  | some x =>
    simp only []
    cases x.iNestedWindowDetails
    · exact calm_refl w
    · simp only [if_true]
      cases nest w self with
      | error e => exact calm_refl w
      | ok r => exact calm_modify w r _ (fun y => ⟨rfl, rfl, rfl, id⟩)

@[simp] theorem destroys_set (w : World) (i : WinId) (x : window) :
    (w.set i x).surface_close_destroys = w.surface_close_destroys := rfl

@[simp] theorem destroys_erase (w : World) (i : WinId) :
    (w.erase i).surface_close_destroys = w.surface_close_destroys := rfl

@[simp] theorem destroys_emit (w : World) (e : Event) :
    (w.emit e).surface_close_destroys = w.surface_close_destroys := rfl

@[simp] theorem destroys_remove_window (w : World) (i : WinId) :
    (w.remove_window i).surface_close_destroys = w.surface_close_destroys := rfl

@[simp] theorem destroys_modify (w : World) (i : WinId) (f : window → window) :
    (w.modify i f).surface_close_destroys = w.surface_close_destroys := by
  unfold World.modify
  cases w.find i <;> rfl

theorem length_set (w : World) (i : WinId) (x y : window) (h : w.find i = some x) :
    (w.set i y).windows.length = w.windows.length :=
  store_insert_length w.windows i y x h

theorem length_modify (w : World) (i : WinId) (f : window → window) :
    (w.modify i f).windows.length = w.windows.length := by
  unfold World.modify
  cases h : w.find i with
  | none => rfl
  | some x => exact length_set w i x (f x) h

theorem length_show_window (w : World) (self : WinId) (b : Bool) :
    (show_window w self b).windows.length = w.windows.length := by
  unfold show_window
  cases hf : w.find self with
  | none => rfl
  | some x =>
    simp only []
    have h := length_set w self x { x with widget_visible := b } hf
    cases ((x.widget_visible != b) && x.has_native_surface)
    · simpa using h
    · simpa [World.emit] using h

theorem destroys_show_window (w : World) (self : WinId) (b : Bool) :
    (show_window w self b).surface_close_destroys = w.surface_close_destroys := by
  unfold show_window
  cases hf : w.find self with
  | none => rfl
  | some x =>
    simp only []
    cases ((x.widget_visible != b) && x.has_native_surface) <;> rfl

theorem close_simple_step (w : World) (self : WinId) :
    (close_with (fun v s => (surface_close v s, false)) w self).surface_close_destroys
        = w.surface_close_destroys ∧
    (close_with (fun v s => (surface_close v s, false)) w self).registry = w.registry ∧
    ∀ j, j ≠ self →
      (close_with (fun v s => (surface_close v s, false)) w self).find j = w.find j := by
  unfold close_with
  cases hf : w.find self with
  | none => exact ⟨rfl, rfl, fun _ _ => rfl⟩
  | some x =>
    simp only []
    cases hc : x.iClosed
    · cases hs : x.is_surface
      · simp only [Bool.false_eq_true, if_false]
        refine ⟨by simp, by simp, fun j hj => ?_⟩
        simp [find_modify, hj]
      · simp only [if_true, Bool.false_eq_true, if_false]
        refine ⟨by simp [surface_close], by simp [surface_close], fun j hj => ?_⟩
        simp [find_modify, hj, surface_close]
    · simp

theorem destroy_step (w : World) (self : WinId) :
    (destroy w self).surface_close_destroys = w.surface_close_destroys ∧
    (∀ j, j ≠ self → kept_opt (w.find j) ((destroy w self).find j)) ∧
    ((destroy w self).registry = w.registry ∨
      (destroy w self).registry = w.registry.erase self) := by
  unfold destroy
  cases hf : w.find self with
  | none => exact ⟨rfl, fun _ _ => kept_opt_refl _, Or.inl rfl⟩
  | some x =>
    simp only []
    have h1 := calm_update_modality w self true
    generalize update_modality w self true = w1 at h1
    have h2 : (if w1.has_window self then w1.remove_window self else w1).surface_close_destroys
          = w1.surface_close_destroys ∧
        (∀ j, (if w1.has_window self then w1.remove_window self else w1).find j = w1.find j) ∧
        ((if w1.has_window self then w1.remove_window self else w1).registry = w1.registry ∨
          (if w1.has_window self then w1.remove_window self else w1).registry
            = w1.registry.erase self) := by
      cases w1.has_window self
      · exact ⟨rfl, fun _ => rfl, Or.inl rfl⟩
      · exact ⟨rfl, fun _ => rfl, Or.inr rfl⟩
    generalize (if w1.has_window self then w1.remove_window self else w1) = w2 at h2
    have h3 := close_simple_step w2 self
    generalize close_with (fun v s => (surface_close v s, false)) w2 self = w3 at h3
    have h4 := calm_nested_details_destroy w3 self
    generalize nested_details_destroy w3 self = w4 at h4
    refine ⟨?_, ?_, ?_⟩
    · simp only [destroys_erase]
      rw [h4.1, h3.1, h2.1, h1.1]
    · intro j hj
      simp only [find_erase, hj, if_false]
      have a1 := h1.2.2 j
      have a2 := h2.2.1 j
      have a3 := h3.2.2 j hj
      have a4 := h4.2.2 j
      rw [a3, a2] at a4
      exact kept_opt_trans a1 a4
    · simp only [registry_erase]
      rw [h4.2.1, h3.2.1]
      rcases h2.2.2 with h | h
      · left; rw [h, h1.2.1]
      · right; rw [h, h1.2.1]

theorem close_step (w : World) (j : WinId) (x : window) (hf : w.find j = some x)
    (hopen : x.iClosed = false) :
    (close w j).surface_close_destroys = w.surface_close_destroys ∧
    (∀ i, i ≠ j → kept_opt (w.find i) ((close w j).find i)) ∧
    (((close w j).find j = none ∧ j ∈ w.surface_close_destroys) ∨
      (∃ y, (close w j).find j = some y ∧ y.iClosed = true ∧ y.iStyle = x.iStyle ∧
        y.iParentWindow = x.iParentWindow ∧ (close w j).registry = w.registry)) ∧
    ((close w j).registry = w.registry ∨ (close w j).registry = w.registry.erase j) := by
  unfold close close_with
  rw [hf]
  simp only [hopen, Bool.false_eq_true, if_false]
  cases hs : x.is_surface
  · simp only [Bool.false_eq_true, if_false]
    refine ⟨by simp, fun i hi => ?_, Or.inr ⟨{ x with iClosed := true }, ?_, rfl, rfl, rfl, ?_⟩,
      Or.inl (by simp)⟩
    · apply kept_opt_of_eq
      simp [find_modify, hi]
    · simp [find_modify, hf]
    · simp
  · by_cases hmem : j ∈ w.surface_close_destroys
    · simp only [if_true, hmem]
      have hsc := calm_surface_close w j
      have hd := destroy_step (surface_close w j) j
      refine ⟨hd.1.trans hsc.1, fun i hi => kept_opt_trans (hsc.2.2 i) (hd.2.1 i hi),
        Or.inl ⟨destroy_find_self _ _, trivial⟩, ?_⟩
      rcases hd.2.2 with h | h
      · left; rw [h, hsc.2.1]
      · right; rw [h, hsc.2.1]
    · simp only [if_true, hmem, if_false, Bool.false_eq_true]
      have hsc : (surface_close w j).find j
          = some (match x.iSurfaceWindow with
            | some s => { x with iSurfaceWindow := some { s with close_called := true } }
            | none => x) := by
        simp [surface_close, find_modify, hf]
      refine ⟨by simp [surface_close], fun i hi => ?_, Or.inr ?_, Or.inl (by simp [surface_close])⟩
      · apply kept_opt_of_eq
        simp [find_modify, hi, surface_close]
      · obtain ⟨x1, hx1, hx1s, hx1p⟩ : ∃ x1, (surface_close w j).find j = some x1 ∧
            x1.iStyle = x.iStyle ∧ x1.iParentWindow = x.iParentWindow := by
          refine ⟨_, hsc, ?_, ?_⟩ <;> cases x.iSurfaceWindow <;> rfl
        refine ⟨{ x1 with iClosed := true }, ?_, rfl, hx1s, hx1p, ?_⟩
        · simp only [find_emit, find_modify, if_true, hx1, Option.map_some']
        · simp [surface_close]

theorem destroy_registry (w : World) (self : WinId) (x : window)
    (hf : w.find self = some x) : (destroy w self).registry = w.registry.erase self := by
  unfold destroy
  rw [hf]
  simp only []
  have h1 := calm_update_modality w self true
  generalize update_modality w self true = w1 at h1
  have h2 : (if w1.has_window self then w1.remove_window self else w1).registry
      = w1.registry.erase self := by
    cases hh : w1.has_window self
    · simp only [Bool.false_eq_true, if_false]
      have hn : self ∉ w1.registry := by
        simpa [World.has_window] using hh
      exact (List.erase_of_not_mem hn).symm
    · rfl
  generalize (if w1.has_window self then w1.remove_window self else w1) = w2 at h2
  have h3 := close_simple_step w2 self
  generalize close_with (fun v s => (surface_close v s, false)) w2 self = w3 at h3
  have h4 := calm_nested_details_destroy w3 self
  simp only [registry_erase]
  rw [h4.2.1, h3.2.1, h2, h1.2.1]

theorem close_registry (w : World) (j : WinId) (x : window) (hf : w.find j = some x)
    (hopen : x.iClosed = false) :
    ((close w j).find j = none ∧ (close w j).registry = w.registry.erase j) ∨
    ((∃ y, (close w j).find j = some y) ∧ (close w j).registry = w.registry) := by
  obtain ⟨_, _, hj, _⟩ := close_step w j x hf hopen
  rcases hj with ⟨hn, hmem⟩ | ⟨y, hy, _, _, _, hreg⟩
  · left
    refine ⟨hn, ?_⟩
    have hs : x.is_surface = true := by
      cases hs : x.is_surface
      · exfalso
        unfold close close_with at hn
        rw [hf] at hn
        simp [hopen, hs, find_modify, hf] at hn
      · rfl
    have hc : close w j = destroy (surface_close w j) j := by
      unfold close close_with
      rw [hf]
      simp [hopen, hs, hmem]
    have hsc := calm_surface_close w j
    have hk := hsc.2.2 j
    rw [hf] at hk
    obtain ⟨y, hy, _⟩ := kept_opt_of_some hk
    rw [hc, destroy_registry (surface_close w j) j y hy, hsc.2.1]
  · exact Or.inr ⟨⟨y, hy⟩, hreg⟩

theorem registry_sound_of_calm {w v : World} (h : calm w v) (hs : registry_sound w) :
    registry_sound v := by
  refine ⟨by rw [h.2.1]; exact hs.1, ?_⟩
  intro j hj
  rw [h.2.1] at hj
  obtain ⟨x, hx⟩ := hs.2 j hj
  have hk := h.2.2 j
  rw [hx] at hk
  obtain ⟨y, hy, _⟩ := kept_opt_of_some hk
  exact ⟨y, hy⟩

theorem registry_sound_close (w : World) (j : WinId) (x : window) (hf : w.find j = some x)
    (hopen : x.iClosed = false) (hs : registry_sound w) : registry_sound (close w j) := by
  obtain ⟨_, hk, _, _⟩ := close_step w j x hf hopen
  have hother : ∀ i, i ≠ j → i ∈ w.registry → ∃ y, (close w j).find i = some y := by
    intro i hi hmem
    obtain ⟨xi, hxi⟩ := hs.2 i hmem
    have h := hk i hi
    rw [hxi] at h
    obtain ⟨y, hy, _⟩ := kept_opt_of_some h
    exact ⟨y, hy⟩
  rcases close_registry w j x hf hopen with ⟨_, hreg⟩ | ⟨hy, hreg⟩
  · refine ⟨by rw [hreg]; exact hs.1.erase j, ?_⟩
    intro i hi
    rw [hreg] at hi
    have hij : i ≠ j := fun e => by
      rw [e] at hi
      exact (List.Nodup.not_mem_erase hs.1) hi
    exact hother i hij (List.mem_of_mem_erase hi)
  · refine ⟨by rw [hreg]; exact hs.1, ?_⟩
    intro i hi
    rw [hreg] at hi
    by_cases hij : i = j
    · rw [hij]
      exact hy
    · exact hother i hij hi

theorem registry_sound_show_window (w : World) (j : WinId) (b : Bool)
    (hs : registry_sound w) : registry_sound (show_window w j b) := by
  refine ⟨by rw [registry_show_window]; exact hs.1, ?_⟩
  intro i hi
  rw [registry_show_window] at hi
  obtain ⟨x, hx⟩ := hs.2 i hi
  rw [show_window_find]
  by_cases hij : i = j
  · subst hij
    simp [hx]
  · simp [hij, hx]

/-! ## The parent walk does not depend on its bound -/

theorem is_owner_of_walk_succ (w : World) (A : WinId) :
    ∀ (fuel : Nat) (cur : WinId) (b : Bool),
      is_owner_of_walk w A fuel cur = some b → is_owner_of_walk w A (fuel + 1) cur = some b := by
  intro fuel
  induction fuel with
  | zero => intro cur b h; simp [is_owner_of_walk] at h
  | succ n ih =>
    intro cur b h
    unfold is_owner_of_walk at h ⊢
    cases hf : w.find cur with
    | none => simpa [hf] using h
    | some x =>
      simp only [hf] at h ⊢
      cases hp : x.iParentWindow with
      | none => simpa [hp] using h
      | some p =>
        simp only [hp] at h ⊢
        by_cases hps : p = A
        · simpa [hps] using h
        · simp only [hps, if_false] at h ⊢
          exact ih p b h

theorem is_owner_of_walk_mono (w : World) (A : WinId) (fuel : Nat) (cur : WinId) (b : Bool)
    (h : is_owner_of_walk w A fuel cur = some b) :
    ∀ k : Nat, is_owner_of_walk w A (fuel + k) cur = some b := by
  intro k
  induction k with
  | zero => exact h
  | succ k ih => exact is_owner_of_walk_succ w A (fuel + k) cur b ih

theorem is_owner_of_walk_det (w : World) (A : WinId) (n m : Nat) (cur : WinId) (b c : Bool)
    (h1 : is_owner_of_walk w A n cur = some b) (h2 : is_owner_of_walk w A m cur = some c) :
    b = c := by
  have a1 := is_owner_of_walk_mono w A n cur b h1 m
  have a2 := is_owner_of_walk_mono w A m cur c h2 n
  rw [Nat.add_comm] at a2
  rw [a1] at a2
  exact Option.some.inj a2

theorem owns_of_is_owner_of (w : World) (A i : WinId) (h : is_owner_of w A i = some true) :
    owns w A i := by
  unfold is_owner_of at h
  by_cases hi : i = A
  · simp [hi] at h
  · simp only [hi, if_false] at h
    exact ⟨hi, _, h⟩

theorem is_owner_of_of_owns (w : World) (hac : acyclic w) (A i : WinId) (h : owns w A i) :
    is_owner_of w A i = some true := by
  obtain ⟨hi, fuel, hw⟩ := h
  obtain ⟨b, hb⟩ := is_owner_of_some w hac A i
  have hb2 := hb
  unfold is_owner_of at hb2
  simp only [hi, if_false] at hb2
  have := is_owner_of_walk_det w A _ _ i b true hb2 hw
  rw [hb, this]

theorem is_owner_of_self (w : World) (A : WinId) : is_owner_of w A A = some false := by
  simp [is_owner_of]

theorem not_owns_self (w : World) (A : WinId) : ¬ owns w A A := fun h => h.1 rfl

theorem is_owner_of_walk_survivors (w v : World) (A : WinId)
    (hs : ∀ (i : WinId) (y : window), v.find i = some y →
      ∃ x, w.find i = some x ∧ y.iParentWindow = x.iParentWindow) :
    ∀ (fuel : Nat) (cur : WinId), is_owner_of_walk v A fuel cur = some true →
      is_owner_of_walk w A fuel cur = some true := by
  intro fuel
  induction fuel with
  | zero => intro cur h; simp [is_owner_of_walk] at h
  | succ n ih =>
    intro cur h
    unfold is_owner_of_walk at h ⊢
    cases hv : v.find cur with
    | none => simp [hv] at h
    | some y =>
      obtain ⟨x, hx, hxy⟩ := hs cur y hv
      simp only [hv] at h
      simp only [hx]
      rw [← hxy]
      cases hp : y.iParentWindow with
      | none => simp [hp] at h
      | some p =>
        simp only [hp] at h ⊢
        by_cases hps : p = A
        · simp [hps]
        · simp only [hps, if_false] at h ⊢
          exact ih p h

theorem owns_survivors (w v : World) (A i : WinId)
    (hs : ∀ (i : WinId) (y : window), v.find i = some y →
      ∃ x, w.find i = some x ∧ y.iParentWindow = x.iParentWindow)
    (h : owns v A i) : owns w A i := by
  obtain ⟨hi, fuel, hw⟩ := h
  exact ⟨hi, fuel, is_owner_of_walk_survivors w v A hs fuel i hw⟩

theorem is_owner_of_walk_live (w : World) (A : WinId) (fuel : Nat) (cur : WinId)
    (h : is_owner_of_walk w A fuel cur = some true) : ∃ x, w.find cur = some x := by
  cases fuel with
  | zero => simp [is_owner_of_walk] at h
  | succ n =>
    unfold is_owner_of_walk at h
    cases hf : w.find cur with
    | none => simp [hf] at h
    | some x => exact ⟨x, rfl⟩

theorem is_owner_of_walk_forward (w v : World) (A : WinId)
    (hfwd : ∀ (i c : WinId) (x xc : window), w.find i = some x → w.find c = some xc →
      xc.iParentWindow = some i →
      ∃ y, v.find i = some y ∧ y.iParentWindow = x.iParentWindow) :
    ∀ (fuel : Nat) (cur : WinId) (x y : window), w.find cur = some x → v.find cur = some y →
      y.iParentWindow = x.iParentWindow →
      is_owner_of_walk w A fuel cur = some true → is_owner_of_walk v A fuel cur = some true := by
  intro fuel
  induction fuel with
  | zero => intro cur x y _ _ _ h; simp [is_owner_of_walk] at h
  | succ n ih =>
    intro cur x y hx hy hxy h
    unfold is_owner_of_walk at h ⊢
    simp only [hx] at h
    simp only [hy]
    rw [hxy]
    cases hp : x.iParentWindow with
    | none => simp [hp] at h
    | some p =>
      simp only [hp] at h ⊢
      by_cases hps : p = A
      · simp [hps]
      · simp only [hps, if_false] at h ⊢
        obtain ⟨xp, hxp⟩ := is_owner_of_walk_live w A n p h
        obtain ⟨yp, hyp, hpp⟩ := hfwd p cur xp x hxp hx hp
        exact ih p xp yp hxp hyp hpp h

/-! ## What a sequence of dismissals does to the world -/

theorem dismissal_type_of_style_eq (x y : window) (h : y.iStyle = x.iStyle) :
    y.dismissal_type = x.dismissal_type := by
  simp [window.dismissal_type, window.style, h]

theorem evolves_of_calm (A : WinId) {w v : World} (h : calm w v) : evolves A w v where
  destroys := h.1
  survivors := by
    intro i y hy
    have hk := h.2.2 i
    rw [hy] at hk
    obtain ⟨x, hx, hxy⟩ := kept_opt_to_some hk
    exact ⟨x, hx, hxy.2.1, hxy.2.2.1, fun hc => by rw [hxy.1]; exact hc⟩
  ended := by
    intro i x hx hv
    have hk := h.2.2 i
    rw [hx, hv] at hk
    exact hk.elim
  registered := by
    intro i hi _
    rw [h.2.1]
    exact hi
  untouched := by
    intro i x hx _
    have hk := h.2.2 i
    rw [hx] at hk
    exact kept_opt_of_some hk
  sound := registry_sound_of_calm h

theorem evolves_refl (A : WinId) (w : World) : evolves A w w :=
  evolves_of_calm A (calm_refl w)

theorem evolves_parents {A : WinId} {w v : World} (h : evolves A w v) :
    ∀ (i : WinId) (y : window), v.find i = some y →
      ∃ x, w.find i = some x ∧ y.iParentWindow = x.iParentWindow := by
  intro i y hy
  obtain ⟨x, hx, _, hp, _⟩ := h.survivors i y hy
  exact ⟨x, hx, hp⟩

theorem evolves_trans {A : WinId} {w u v : World} (h1 : evolves A w u) (h2 : evolves A u v) :
    evolves A w v where
  destroys := h2.destroys.trans h1.destroys
  survivors := by
    intro i z hz
    obtain ⟨y, hy, hs, hp, hc⟩ := h2.survivors i z hz
    obtain ⟨x, hx, hs1, hp1, hc1⟩ := h1.survivors i y hy
    exact ⟨x, hx, hs.trans hs1, hp.trans hp1, fun h => hc (hc1 h)⟩
  ended := by
    intro i x hx hv
    cases hu : u.find i with
    | none => exact h1.ended i x hx hu
    | some y =>
      obtain ⟨ht, hd, ho⟩ := h2.ended i y hu hv
      obtain ⟨x1, hx1, hs1, _, _⟩ := h1.survivors i y hu
      rw [hx] at hx1
      cases hx1
      refine ⟨?_, ?_, owns_survivors w u A i (evolves_parents h1) ho⟩
      · rw [← dismissal_type_of_style_eq x y hs1]
        exact ht
      · rw [← h1.destroys]
        exact hd
  registered := by
    intro i hi hv
    apply h2.registered i _ hv
    apply h1.registered i hi
    intro hu
    cases hz : v.find i with
    | none => exact hv hz
    | some z =>
      obtain ⟨y, hy, _⟩ := h2.survivors i z hz
      rw [hu] at hy
      cases hy
  untouched := by
    intro i x hx hno
    obtain ⟨y, hy, hxy⟩ := h1.untouched i x hx hno
    have hno2 : ¬ owns u A i := fun ho => hno (owns_survivors w u A i (evolves_parents h1) ho)
    obtain ⟨z, hz, hyz⟩ := h2.untouched i y hy hno2
    exact ⟨z, hz, kept_trans hxy hyz⟩
  sound := fun hs => h2.sound (h1.sound hs)

theorem evolves_close (A : WinId) (w : World) (j : WinId) (x : window)
    (hf : w.find j = some x) (hopen : x.iClosed = false)
    (htype : x.dismissal_type = .CloseOnDismissal) (hown : owns w A j) :
    evolves A w (close w j) := by
  obtain ⟨hd, hk, hj, hr⟩ := close_step w j x hf hopen
  refine ⟨hd, ?_, ?_, ?_, ?_, registry_sound_close w j x hf hopen⟩
  · intro i y hy
    by_cases hi : i = j
    · subst hi
      rcases hj with ⟨hn, _⟩ | ⟨y1, hy1, _, hs, hp, _⟩
      · rw [hn] at hy; cases hy
      · rw [hy1] at hy
        cases hy
        exact ⟨x, hf, hs, hp, fun h => by rw [hopen] at h; cases h⟩
    · have h := hk i hi
      rw [hy] at h
      obtain ⟨x1, hx1, hxy⟩ := kept_opt_to_some h
      exact ⟨x1, hx1, hxy.2.1, hxy.2.2.1, fun hc => by rw [hxy.1]; exact hc⟩
  · intro i x1 hx1 hv
    by_cases hi : i = j
    · subst hi
      rw [hf] at hx1
      cases hx1
      rcases hj with ⟨_, hm⟩ | ⟨y1, hy1, _⟩
      · exact ⟨htype, hm, hown⟩
      · rw [hy1] at hv; cases hv
    · have h := hk i hi
      rw [hx1, hv] at h
      exact h.elim
  · intro i hi hv
    by_cases hij : i = j
    · subst hij
      rcases hj with ⟨hn, _⟩ | ⟨y1, _, _, _, _, hreg⟩
      · exact absurd hn hv
      · rw [hreg]; exact hi
    · rcases hr with h | h
      · rw [h]; exact hi
      · rw [h]
        exact (List.mem_erase_of_ne hij).mpr hi
  · intro i x1 hx1 hno
    have hi : i ≠ j := fun e => hno (e ▸ hown)
    have h := hk i hi
    rw [hx1] at h
    exact kept_opt_of_some h

theorem evolves_hide (A : WinId) (w : World) (j : WinId) (hown : owns w A j) :
    evolves A w (show_window w j false) := by
  refine ⟨destroys_show_window w j false, ?_, ?_, ?_, ?_,
    registry_sound_show_window w j false⟩
  · intro i y hy
    rw [show_window_find] at hy
    by_cases hi : i = j
    · subst hi
      simp only [if_true] at hy
      cases hf : w.find i with
      | none => rw [hf] at hy; cases hy
      | some x =>
        rw [hf] at hy
        simp only [Option.map_some', Option.some.injEq] at hy
        subst hy
        exact ⟨x, rfl, rfl, rfl, id⟩
    · simp only [hi, if_false] at hy
      exact ⟨y, hy, rfl, rfl, id⟩
  · intro i x hx hv
    rw [show_window_find] at hv
    by_cases hi : i = j
    · subst hi
      simp [hx] at hv
    · simp only [hi, if_false] at hv
      rw [hx] at hv
      cases hv
  · intro i hi _
    rw [registry_show_window]
    exact hi
  · intro i x hx hno
    have hi : i ≠ j := fun e => hno (e ▸ hown)
    rw [show_window_find]
    simp only [hi, if_false]
    exact ⟨x, hx, kept_refl x⟩

theorem acyclic_of_evolves {A : WinId} {w v : World} (h : evolves A w v) (hac : acyclic w) :
    acyclic v := by
  obtain ⟨rank, hr⟩ := hac
  refine ⟨rank, ?_⟩
  intro j y p hy hp
  obtain ⟨x, hx, hxy⟩ := evolves_parents h j y hy
  exact hr j x p hx (hxy ▸ hp)

theorem owns_of_evolves {A : WinId} {w v : World} (h : evolves A w v) (hof : orphan_free w)
    (i : WinId) (y : window) (hy : v.find i = some y) (ho : owns w A i) : owns v A i := by
  obtain ⟨hi, fuel, hw⟩ := ho
  obtain ⟨x, hx, hxy⟩ := evolves_parents h i y hy
  refine ⟨hi, fuel, is_owner_of_walk_forward w v A ?_ fuel i x y hx hy hxy hw⟩
  intro p c xp xc hxp hxc hcp
  cases hv : v.find p with
  | none =>
    have hd := (h.ended p xp hxp hv).2.1
    exact absurd hcp (hof p hd c xc hxc)
  | some yp =>
    obtain ⟨xp1, hxp1, hpp⟩ := evolves_parents h p yp hv
    rw [hxp] at hxp1
    cases hxp1
    exact ⟨yp, rfl, hpp⟩

/-! ## The test of the loop of `dismiss_children` -/

theorem dismiss_children_test_true (w : World) (A j : WinId) (c : Option WinId)
    (h : dismiss_children_test w A j c = some true) :
    ∃ x, w.find j = some x ∧ x.dismissed = false ∧ is_owner_of w A j = some true ∧
      can_dismiss w j c = some true := by
  unfold dismiss_children_test at h
  cases hf : w.find j with
  | none => simp [hf] at h
  | some x =>
    simp only [hf] at h
    cases hd : x.dismissed
    · simp only [hd, Bool.false_eq_true, if_false] at h
      cases ho : is_owner_of w A j with
      | none => simp [ho] at h
      | some b =>
        cases b
        · simp [ho] at h
        · simp only [ho] at h
          exact ⟨x, rfl, hd, rfl, h⟩
    · simp [hd] at h

theorem dismissed_of_test_false (w : World) (A j : WinId) (c : Option WinId) (x : window)
    (h : dismiss_children_test w A j c = some false) (hf : w.find j = some x)
    (ho : is_owner_of w A j = some true) (hc : can_dismiss w j c = some true) :
    x.dismissed = true := by
  unfold dismiss_children_test at h
  simp only [hf, ho, hc] at h
  cases hd : x.dismissed
  · simp [hd] at h
  · rfl

theorem dismiss_children_test_of_dismissed (w : World) (A j : WinId) (c : Option WinId)
    (x : window) (hf : w.find j = some x) (hd : x.dismissed = true) :
    dismiss_children_test w A j c = some false := by
  unfold dismiss_children_test
  simp [hf, hd]

theorem can_dismiss_some (w : World) (hac : acyclic w) (j : WinId) (c : Option WinId) :
    ∃ b, can_dismiss w j c = some b := by
  unfold can_dismiss
  cases hf : w.find j with
  | none => exact ⟨false, rfl⟩
  | some x =>
    simp only []
    cases x.dismissal_type with
    | CannotDismiss => exact ⟨false, rfl⟩
    | CloseOnDismissal =>
      obtain ⟨b, hb, _⟩ := can_dismiss_by_spec w j x c window_style.DismissOnOwnerClick
        window_style.DismissOnParentClick hf hac
      exact ⟨b, hb⟩
    | HideOnDismissal =>
      obtain ⟨b, hb, _⟩ := can_dismiss_by_spec w j x c window_style.HideOnOwnerClick
        window_style.HideOnParentClick hf hac
      exact ⟨b, hb⟩

theorem can_dismiss_type (w : World) (j : WinId) (c : Option WinId) (x : window)
    (hf : w.find j = some x) (h : can_dismiss w j c = some true) :
    x.dismissal_type ≠ .CannotDismiss := by
  intro ht
  simp [can_dismiss, hf, ht] at h

theorem dismiss_children_test_some (w : World) (hac : acyclic w) (A j : WinId)
    (c : Option WinId) (x : window) (hf : w.find j = some x) :
    ∃ b, dismiss_children_test w A j c = some b := by
  unfold dismiss_children_test
  rw [hf]
  simp only []
  cases hd : x.dismissed
  · simp only [Bool.false_eq_true, if_false]
    obtain ⟨b, hb⟩ := is_owner_of_some w hac A j
    rw [hb]
    cases b
    · exact ⟨false, rfl⟩
    · exact can_dismiss_some w hac j c
  · exact ⟨false, by simp⟩

theorem inert_parent : Inert (fun x : window => x.iParentWindow) :=
  ⟨fun _ _ => rfl, fun _ _ => rfl, fun _ _ => rfl, fun _ _ => rfl, fun _ _ => rfl,
    fun _ _ => rfl, fun _ _ => rfl⟩

theorem is_owner_of_walk_congr (w v : World) (A : WinId)
    (h : frame (fun x => x.iParentWindow) w v) (fuel : Nat) :
    ∀ cur, is_owner_of_walk v A fuel cur = is_owner_of_walk w A fuel cur := by
  induction fuel with
  | zero => intro cur; rfl
  | succ n ih =>
    intro cur
    unfold is_owner_of_walk
    have hc := h cur
    cases hv : v.find cur with
    | none =>
      rw [hv] at hc
      cases hw : w.find cur with
      | none => rfl
      | some x => rw [hw] at hc; simp at hc
    | some y =>
      rw [hv] at hc
      cases hw : w.find cur with
      | none => rw [hw] at hc; simp at hc
      | some x =>
        rw [hw] at hc
        simp only [Option.map_some', Option.some.injEq] at hc
        simp only [hc]
        cases x.iParentWindow with
        | none => rfl
        | some p => simp only [ih p]

theorem is_owner_of_congr (w v : World) (hlen : v.windows.length = w.windows.length)
    (h : frame (fun x => x.iParentWindow) w v) (A i : WinId) :
    is_owner_of v A i = is_owner_of w A i := by
  unfold is_owner_of
  rw [hlen, is_owner_of_walk_congr w v A h]

theorem can_dismiss_congr (w v : World) (hlen : v.windows.length = w.windows.length)
    (hp : frame (fun x => x.iParentWindow) w v) (hs : frame (fun x => x.iStyle) w v)
    (j : WinId) (c : Option WinId) : can_dismiss v j c = can_dismiss w j c := by
  unfold can_dismiss
  have h1 := hp j
  have h2 := hs j
  cases hv : v.find j with
  | none =>
    rw [hv] at h1
    cases hw : w.find j with
    | none => rfl
    | some x => rw [hw] at h1; simp at h1
  | some y =>
    rw [hv] at h1 h2
    cases hw : w.find j with
    | none => rw [hw] at h1; simp at h1
    | some x =>
      rw [hw] at h1 h2
      simp only [Option.map_some', Option.some.injEq] at h1 h2
      have ht : y.dismissal_type = x.dismissal_type := dismissal_type_of_style_eq x y h2
      simp only [ht]
      have hby : ∀ o p, can_dismiss_by v j y c o p = can_dismiss_by w j x c o p := by
        intro o p
        unfold can_dismiss_by
        cases c with
        | none => rfl
        | some r =>
          simp only [window.style, h2, is_owner_of_congr w v hlen hp, window.is_child_of, h1]
      simp only [hby]

theorem dismiss_children_test_congr (w v : World)
    (hlen : v.windows.length = w.windows.length)
    (hp : frame (fun x => x.iParentWindow) w v) (hs : frame (fun x => x.iStyle) w v)
    (A j : WinId) (c : Option WinId)
    (hj : (v.find j).map (fun x => (x.iClosed, x.widget_visible))
      = (w.find j).map (fun x => (x.iClosed, x.widget_visible))) :
    dismiss_children_test v A j c = dismiss_children_test w A j c := by
  unfold dismiss_children_test
  have h2 := hs j
  cases hv : v.find j with
  | none =>
    rw [hv] at hj
    cases hw : w.find j with
    | none => rfl
    | some x => rw [hw] at hj; simp at hj
  | some y =>
    rw [hv] at hj h2
    cases hw : w.find j with
    | none => rw [hw] at hj; simp at hj
    | some x =>
      rw [hw] at hj h2
      simp only [Option.map_some', Option.some.injEq, Prod.mk.injEq] at hj h2
      have hd : y.dismissed = x.dismissed := by
        simp only [window.dismissed, dismissal_type_of_style_eq x y h2, window.is_closed,
          window.hidden, hj.1, hj.2]
      simp only [hd, is_owner_of_congr w v hlen hp, can_dismiss_congr w v hlen hp hs]

/-! ## The loop of `dismiss_children` -/

theorem dismiss_cases (w : World) (A j : WinId) (c : Option WinId)
    (ht : dismiss_children_test w A j c = some true) :
    ∃ x, w.find j = some x ∧ owns w A j ∧
      ((x.dismissal_type = .CloseOnDismissal ∧ x.iClosed = false ∧
          dismiss w j = close w j) ∨
       (x.dismissal_type = .HideOnDismissal ∧ x.widget_visible = true ∧
          dismiss w j = show_window w j false)) := by
  obtain ⟨x, hf, hd, ho, hc⟩ := dismiss_children_test_true w A j c ht
  refine ⟨x, hf, owns_of_is_owner_of w A j ho, ?_⟩
  have hn := can_dismiss_type w j c x hf hc
  cases hty : x.dismissal_type with
  | CannotDismiss => exact absurd hty hn
  | CloseOnDismissal =>
    left
    refine ⟨rfl, ?_, ?_⟩
    · simpa [window.dismissed, hty, window.is_closed] using hd
    · simp [dismiss, hf, hty]
  | HideOnDismissal =>
    right
    refine ⟨rfl, ?_, ?_⟩
    · simpa [window.dismissed, hty, window.hidden] using hd
    · simp [dismiss, hf, hty]

theorem dismiss_children_loop_exit (A : WinId) (c : Option WinId) (n : Nat) (w : World)
    (i : Nat) (hg : w.registry.get? i = none) :
    dismiss_children_loop A c (n + 1) w i = some w := by
  simp only [dismiss_children_loop, hg]

theorem dismiss_children_loop_stuck (A : WinId) (c : Option WinId) (n : Nat) (w : World)
    (i : Nat) (j : WinId) (hg : w.registry.get? i = some j)
    (ht : dismiss_children_test w A j c = none) :
    dismiss_children_loop A c (n + 1) w i = none := by
  simp only [dismiss_children_loop, hg, ht]

theorem dismiss_children_loop_skip (A : WinId) (c : Option WinId) (n : Nat) (w : World)
    (i : Nat) (j : WinId) (hg : w.registry.get? i = some j)
    (ht : dismiss_children_test w A j c = some false) :
    dismiss_children_loop A c (n + 1) w i = dismiss_children_loop A c n w (i + 1) := by
  simp only [dismiss_children_loop, hg, ht]

theorem dismiss_children_loop_close (A : WinId) (c : Option WinId) (n : Nat) (w : World)
    (i : Nat) (j : WinId) (x : window) (hg : w.registry.get? i = some j)
    (ht : dismiss_children_test w A j c = some true) (hf : w.find j = some x)
    (hty : x.dismissal_type = .CloseOnDismissal) :
    dismiss_children_loop A c (n + 1) w i = dismiss_children_loop A c n (dismiss w j) 0 := by
  simp only [dismiss_children_loop, hg, ht, hf, Option.map_some', hty]

theorem dismiss_children_loop_hide (A : WinId) (c : Option WinId) (n : Nat) (w : World)
    (i : Nat) (j : WinId) (x : window) (hg : w.registry.get? i = some j)
    (ht : dismiss_children_test w A j c = some true) (hf : w.find j = some x)
    (hty : x.dismissal_type = .HideOnDismissal) :
    dismiss_children_loop A c (n + 1) w i
      = dismiss_children_loop A c n (dismiss w j) (i + 1) := by
  simp only [dismiss_children_loop, hg, ht, hf, Option.map_some', hty]

theorem dismiss_children_loop_run (A : WinId) (c : Option WinId) :
    ∀ (fuel : Nat) (w : World) (i : Nat) (v : World),
      dismiss_children_loop A c fuel w i = some v → dismiss_run A c w v := by
  intro fuel
  induction fuel with
  | zero => intro w i v h; simp [dismiss_children_loop] at h
  | succ n ih =>
    intro w i v h
    cases hg : w.registry.get? i with
    | none =>
      rw [dismiss_children_loop_exit A c n w i hg] at h
      cases h
      exact dismiss_run.done w
    | some j =>
      obtain ⟨b, hb⟩ : ∃ b, dismiss_children_test w A j c = b := ⟨_, rfl⟩
      cases b with
      | none =>
        rw [dismiss_children_loop_stuck A c n w i j hg hb] at h
        cases h
      | some b =>
        cases b
        · rw [dismiss_children_loop_skip A c n w i j hg hb] at h
          exact ih w (i + 1) v h
        · obtain ⟨x, hf, _, hcase⟩ := dismiss_cases w A j c hb
          refine dismiss_run.step w v j (List.get?_mem hg) hb ?_
          rcases hcase with ⟨hty, _, _⟩ | ⟨hty, _, _⟩
          · rw [dismiss_children_loop_close A c n w i j x hg hb hf hty] at h
            exact ih _ 0 v h
          · rw [dismiss_children_loop_hide A c n w i j x hg hb hf hty] at h
            exact ih _ (i + 1) v h

theorem dismiss_run_evolves (A : WinId) (c : Option WinId) (w v : World)
    (h : dismiss_run A c w v) : evolves A w v := by
  induction h with
  | done w => exact evolves_refl A w
  | step w v j _ ht _ ih =>
    obtain ⟨x, hf, ho, hcase⟩ := dismiss_cases w A j c ht
    rcases hcase with ⟨hty, hopen, hd⟩ | ⟨_, _, hd⟩
    · rw [hd] at ih
      exact evolves_trans (evolves_close A w j x hf hopen hty ho) ih
    · rw [hd] at ih
      exact evolves_trans (evolves_hide A w j ho) ih

theorem dismiss_children_test_hide (w : World) (A j k : WinId) (c : Option WinId)
    (x : window) (hf : w.find j = some x) (hty : x.dismissal_type = .HideOnDismissal)
    (hk : k = j ∨ dismiss_children_test w A k c = some false) :
    dismiss_children_test (show_window w j false) A k c = some false := by
  by_cases hkj : k = j
  · subst hkj
    apply dismiss_children_test_of_dismissed _ A k c { x with widget_visible := false }
    · rw [show_window_find]
      simp [hf]
    · have : ({ x with widget_visible := false } : window).dismissal_type
          = .HideOnDismissal := hty
      simp [window.dismissed, this, window.hidden]
  · rcases hk with hk | hk
    · exact absurd hk hkj
    · rw [← hk]
      apply dismiss_children_test_congr w _ (length_show_window w j false)
        (frame_show_window inert_parent w j false) (frame_show_window inert_style w j false)
      rw [show_window_find]
      simp [hkj]

theorem dismiss_children_loop_final (A : WinId) (c : Option WinId) :
    ∀ (fuel : Nat) (w : World) (i : Nat) (v : World),
      dismiss_children_loop A c fuel w i = some v →
      (∀ (k : Nat) (j : WinId), k < i → w.registry.get? k = some j →
        dismiss_children_test w A j c = some false) →
      ∀ j ∈ v.registry, dismiss_children_test v A j c = some false := by
  intro fuel
  induction fuel with
  | zero => intro w i v h; simp [dismiss_children_loop] at h
  | succ n ih =>
    intro w i v h inv
    cases hg : w.registry.get? i with
    | none =>
      rw [dismiss_children_loop_exit A c n w i hg] at h
      cases h
      intro j hj
      obtain ⟨k, hk⟩ := List.mem_iff_get?.mp hj
      have h1 : w.registry.length ≤ i := List.get?_eq_none.mp hg
      have h2 : k < w.registry.length := by
        by_contra hlt
        rw [List.get?_eq_none.mpr (Nat.le_of_not_lt hlt)] at hk
        cases hk
      exact inv k j (by omega) hk
    | some j0 =>
      obtain ⟨b, hb⟩ : ∃ b, dismiss_children_test w A j0 c = b := ⟨_, rfl⟩
      cases b with
      | none =>
        rw [dismiss_children_loop_stuck A c n w i j0 hg hb] at h
        cases h
      | some b =>
        cases b
        · rw [dismiss_children_loop_skip A c n w i j0 hg hb] at h
          apply ih w (i + 1) v h
          intro k j hk hget
          by_cases hki : k < i
          · exact inv k j hki hget
          · have : k = i := by omega
            subst this
            rw [hg] at hget
            cases hget
            exact hb
        · obtain ⟨x, hf, _, hcase⟩ := dismiss_cases w A j0 c hb
          rcases hcase with ⟨hty, _, _⟩ | ⟨hty, _, hd⟩
          · rw [dismiss_children_loop_close A c n w i j0 x hg hb hf hty] at h
            exact ih _ 0 v h (fun k j hk _ => absurd hk (Nat.not_lt_zero k))
          · rw [dismiss_children_loop_hide A c n w i j0 x hg hb hf hty, hd] at h
            apply ih _ (i + 1) v h
            intro k j hk hget
            rw [registry_show_window] at hget
            apply dismiss_children_test_hide w A j0 j c x hf hty
            by_cases hki : k < i
            · exact Or.inr (inv k j hki hget)
            · have : k = i := by omega
              subst this
              rw [hg] at hget
              cases hget
              exact Or.inl rfl

/-! ## The loop of `dismiss_children` ends -/

theorem is_open_of_kept_opt (w v : World) (i : WinId)
    (h : kept_opt (w.find i) (v.find i)) : v.is_open i = w.is_open i := by
  unfold World.is_open
  cases hw : w.find i with
  | none =>
    cases hv : v.find i with
    | none => rfl
    | some y => rw [hw, hv] at h; exact h.elim
  | some x =>
    cases hv : v.find i with
    | none => rw [hw, hv] at h; exact h.elim
    | some y =>
      rw [hw, hv] at h
      simp only [h.1]

theorem is_open_show_window (w : World) (j : WinId) (b : Bool) (i : WinId) :
    (show_window w j b).is_open i = w.is_open i := by
  unfold World.is_open
  rw [show_window_find]
  by_cases hi : i = j
  · subst hi
    cases w.find i <;> simp
  · simp [hi]

theorem open_count_show_window (w : World) (j : WinId) (b : Bool) :
    (show_window w j b).open_count = w.open_count := by
  unfold World.open_count
  simp only [registry_show_window, is_open_show_window]

theorem registry_close (w : World) (j : WinId) (x : window) (hf : w.find j = some x)
    (hopen : x.iClosed = false) :
    (close w j).registry.length ≤ w.registry.length ∧
    ∀ a, a ∈ (close w j).registry → a ∈ w.registry := by
  obtain ⟨_, _, _, hr⟩ := close_step w j x hf hopen
  rcases hr with h | h
  · rw [h]
    exact ⟨le_refl _, fun _ ha => ha⟩
  · rw [h]
    exact ⟨(List.erase_sublist j w.registry).length_le, fun _ ha => List.mem_of_mem_erase ha⟩

theorem open_count_close (w : World) (j : WinId) (x : window) (hf : w.find j = some x)
    (hopen : x.iClosed = false) (hj : j ∈ w.registry) :
    (close w j).open_count < w.open_count := by
  obtain ⟨_, hk, hjc, _⟩ := close_step w j x hf hopen
  have hsub := (registry_close w j x hf hopen).2
  have hjclosed : (close w j).is_open j = false := by
    unfold World.is_open
    rcases hjc with ⟨hn, _⟩ | ⟨y, hy, hyc, _⟩
    · simp [hn]
    · simp [hy, hyc]
  unfold World.open_count
  apply Finset.card_lt_card
  rw [Finset.ssubset_iff_of_subset]
  · refine ⟨j, ?_, ?_⟩
    · simp only [Finset.mem_filter, List.mem_toFinset]
      exact ⟨hj, by simp [World.is_open, hf, hopen]⟩
    · simp only [Finset.mem_filter, List.mem_toFinset, not_and]
      intro _
      rw [hjclosed]
      simp
  · intro a ha
    simp only [Finset.mem_filter, List.mem_toFinset] at ha ⊢
    have haj : a ≠ j := by
      intro e
      rw [e, hjclosed] at ha
      exact absurd ha.2 (by simp)
    refine ⟨hsub a ha.1, ?_⟩
    rw [← is_open_of_kept_opt w _ a (hk a haj)]
    exact ha.2

theorem open_count_le (w : World) : w.open_count ≤ w.registry.length := by
  unfold World.open_count
  exact (Finset.card_filter_le _ _).trans (List.toFinset_card_le _)

theorem dismiss_children_loop_terminates (A : WinId) (c : Option WinId) :
    ∀ (fuel : Nat) (w : World) (i : Nat), acyclic w → registry_sound w →
      i ≤ w.registry.length →
      w.open_count * (w.registry.length + 1) + (w.registry.length + 1 - i) ≤ fuel →
      ∃ v, dismiss_children_loop A c fuel w i = some v := by
  intro fuel
  induction fuel with
  | zero =>
    intro w i _ _ hi h
    omega
  | succ n ih =>
    intro w i hac hrs hi h
    cases hg : w.registry.get? i with
    | none => exact ⟨w, dismiss_children_loop_exit A c n w i hg⟩
    | some j =>
      have hlt : i < w.registry.length := by
        by_contra hlt
        rw [List.get?_eq_none.mpr (Nat.le_of_not_lt hlt)] at hg
        cases hg
      obtain ⟨xj, hxj⟩ := hrs.2 j (List.get?_mem hg)
      obtain ⟨b, hb⟩ := dismiss_children_test_some w hac A j c xj hxj
      cases b
      · rw [dismiss_children_loop_skip A c n w i j hg hb]
        exact ih w (i + 1) hac hrs (by omega) (by omega)
      · obtain ⟨x, hf, ho, hcase⟩ := dismiss_cases w A j c hb
        rcases hcase with ⟨hty, hopen, hd⟩ | ⟨hty, _, hd⟩
        · rw [dismiss_children_loop_close A c n w i j x hg hb hf hty, hd]
          have hM := open_count_close w j x hf hopen (List.get?_mem hg)
          have hL := (registry_close w j x hf hopen).1
          apply ih (close w j) 0
            (acyclic_of_evolves (evolves_close A w j x hf hopen hty ho) hac)
            (registry_sound_close w j x hf hopen hrs) (Nat.zero_le _)
          have key : (close w j).open_count * ((close w j).registry.length + 1)
              + ((close w j).registry.length + 1)
              ≤ w.open_count * (w.registry.length + 1) := by
            calc (close w j).open_count * ((close w j).registry.length + 1)
                  + ((close w j).registry.length + 1)
                = ((close w j).open_count + 1) * ((close w j).registry.length + 1) := by ring
              _ ≤ w.open_count * (w.registry.length + 1) :=
                Nat.mul_le_mul hM (by omega)
          omega
        · rw [dismiss_children_loop_hide A c n w i j x hg hb hf hty, hd]
          apply ih (show_window w j false) (i + 1)
            (acyclic_of_evolves (evolves_hide A w j ho) hac)
            (registry_sound_show_window w j false hrs)
          · rw [registry_show_window]
            omega
          · rw [open_count_show_window, registry_show_window]
            omega

theorem calm_entry (w : World) (A : WinId) (c : Option WinId) (me : window)
    (hf : w.find A = some me) : calm w (dismiss_children_entry w A c me) :=
  calm_trans (calm_emit w _)
    (calm_set (w.emit (.DismissingChildren A c)) A me (me.scoped_flag true) hf
      ⟨rfl, rfl, rfl, id⟩)

theorem calm_exit (v : World) (A : WinId) (me : window) :
    calm v (dismiss_children_exit v A me) :=
  calm_modify v A _ (fun _ => ⟨rfl, rfl, rfl, id⟩)

theorem dismiss_children_terminates (w : World) (A : WinId) (c : Option WinId)
    (me : window) (hf : w.find A = some me) (hac : acyclic w) (hrs : registry_sound w) :
    ∃ v, dismiss_children w A c = some v := by
  unfold dismiss_children
  rw [hf]
  simp only []
  cases hs : has_style me.iStyle window_style.RequiresOwnerFocus
  · simp only [Bool.not_false, if_true]
    have hcalm := calm_entry w A c me hf
    have hac1 : acyclic (dismiss_children_entry w A c me) :=
      acyclic_of_evolves (evolves_of_calm A hcalm) hac
    obtain ⟨v, hv⟩ := dismiss_children_loop_terminates A c
      (dismiss_children_bound (dismiss_children_entry w A c me))
      (dismiss_children_entry w A c me) 0 hac1 (registry_sound_of_calm hcalm hrs)
      (Nat.zero_le _) (by
        have hle := open_count_le (dismiss_children_entry w A c me)
        unfold dismiss_children_bound
        have := Nat.mul_le_mul_right
          ((dismiss_children_entry w A c me).registry.length + 1) hle
        simp only [Nat.sub_zero]
        have e : ((dismiss_children_entry w A c me).registry.length + 1)
            * ((dismiss_children_entry w A c me).registry.length + 1)
            = (dismiss_children_entry w A c me).registry.length
                * ((dismiss_children_entry w A c me).registry.length + 1)
              + ((dismiss_children_entry w A c me).registry.length + 1) := by ring
        omega)
    rw [hv]
    exact ⟨_, rfl⟩
  · simp only [Bool.not_true, Bool.false_eq_true, if_false]
    exact ⟨_, rfl⟩

/-! ## C14: what `dismiss_children` dismisses -/

theorem orphan_free_of_list (w : World)
    (h : ∀ d ∈ w.surface_close_destroys, ∀ p ∈ w.windows, p.2.iParentWindow ≠ some d) :
    orphan_free w :=
  fun d hd i x hx => h d hd (i, x) (store_find_mem w.windows i x hx)


theorem dismissal_type_close (s : window_style)
    (h : has_style s window_style.DismissOnOwnerClick = true) :
    dismissal_type_of s = .CloseOnDismissal := by
  unfold dismissal_type_of
  rw [dismiss_mask, h]
  simp

theorem can_dismiss_null (w : World) (j : WinId) (x : window) (hf : w.find j = some x)
    (ht : x.dismissal_type ≠ .CannotDismiss) : can_dismiss w j none = some true := by
  unfold can_dismiss
  rw [hf]
  cases hty : x.dismissal_type with
  | CannotDismiss => exact absurd hty ht
  | CloseOnDismissal => simp [hty, can_dismiss_by]
  | HideOnDismissal => simp [hty, can_dismiss_by]

theorem scoped_flag_restore (me : window) (b : Bool) :
    (me.scoped_flag b).scoped_flag me.iDismissingChildren = me := rfl

theorem dismiss_children_unfold (w : World) (A : WinId) (c : Option WinId) (me : window)
    (hme : w.find A = some me)
    (hs : has_style me.iStyle window_style.RequiresOwnerFocus = false) (v : World)
    (h : dismiss_children w A c = some v) :
    ∃ u, dismiss_children_loop A c (dismiss_children_bound (dismiss_children_entry w A c me))
        (dismiss_children_entry w A c me) 0 = some u ∧
      v = dismiss_children_exit u A me := by
  unfold dismiss_children at h
  rw [hme] at h
  simp only [hs, Bool.not_false, if_true] at h
  cases hl : dismiss_children_loop A c (dismiss_children_bound (dismiss_children_entry w A c me))
      (dismiss_children_entry w A c me) 0 with
  | none => rw [hl] at h; cases h
  | some u =>
    rw [hl] at h
    simp only [Option.map_some', Option.some.injEq] at h
    exact ⟨u, rfl, h.symm⟩

theorem dismiss_children_test_exit (u : World) (A : WinId) (me : window) (j : WinId)
    (c : Option WinId) :
    dismiss_children_test (dismiss_children_exit u A me) A j c
      = dismiss_children_test u A j c := by
  unfold dismiss_children_exit
  exact dismiss_children_test_congr u
    (u.modify A (fun y => y.scoped_flag me.iDismissingChildren)) (length_modify u A _)
    (frame_modify _ u A _ (fun _ => rfl)) (frame_modify _ u A _ (fun _ => rfl)) A j c
    (frame_modify (fun x => (x.iClosed, x.widget_visible)) u A
      (fun y => y.scoped_flag me.iDismissingChildren) (fun _ => rfl) j)

theorem parents_alive_of_list (w : World)
    (h : ∀ p ∈ w.windows, ∀ q ∈ p.2.iParentWindow, (w.find q).isSome = true) :
    parents_alive w := by
  intro j x p hj hp
  have hq := h (j, x) (store_find_mem w.windows j x hj) p hp
  cases hf : w.find p with
  | none => rw [hf] at hq; cases hq
  | some y => exact ⟨y, rfl⟩

theorem registry_sound_of_list (w : World) (hn : w.registry.Nodup)
    (h : ∀ j ∈ w.registry, (w.find j).isSome = true) : registry_sound w := by
  refine ⟨hn, fun j hj => ?_⟩
  have hq := h j hj
  cases hf : w.find j with
  | none => rw [hf] at hq; cases hq
  | some y => exact ⟨y, rfl⟩

theorem well_formed_of_list (w : World)
    (h1 : ∀ p ∈ w.windows, ∀ q ∈ p.2.iParentWindow, q < p.1)
    (h2 : ∀ p ∈ w.windows, ∀ q ∈ p.2.iParentWindow, (w.find q).isSome = true)
    (h3 : ∀ d ∈ w.surface_close_destroys, ∀ p ∈ w.windows, p.2.iParentWindow ≠ some d)
    (h4 : w.registry.Nodup) (h5 : ∀ j ∈ w.registry, (w.find j).isSome = true) :
    well_formed w :=
  ⟨acyclic_of_ranked w h1, parents_alive_of_list w h2, orphan_free_of_list w h3,
    registry_sound_of_list w h4 h5⟩

theorem parents_alive_of_evolves {A : WinId} {w v : World} (h : evolves A w v)
    (hof : orphan_free w) (hpa : parents_alive w) : parents_alive v := by
  intro j y p hy hp
  obtain ⟨x, hx, hxy⟩ := evolves_parents h j y hy
  rw [hxy] at hp
  obtain ⟨xp, hxp⟩ := hpa j x p hx hp
  cases hv : v.find p with
  | none => exact absurd hp (hof p (h.ended p xp hxp hv).2.1 j x hx)
  | some yp => exact ⟨yp, rfl⟩

theorem orphan_free_of_evolves {A : WinId} {w v : World} (h : evolves A w v)
    (hof : orphan_free w) : orphan_free v := by
  intro d hd i y hy
  obtain ⟨x, hx, hxy⟩ := evolves_parents h i y hy
  rw [hxy]
  rw [h.destroys] at hd
  exact hof d hd i x hx

theorem well_formed_of_evolves {A : WinId} {w v : World} (h : evolves A w v)
    (hwf : well_formed w) : well_formed v :=
  ⟨acyclic_of_evolves h hwf.1, parents_alive_of_evolves h hwf.2.2.1 hwf.2.1,
    orphan_free_of_evolves h hwf.2.2.1, h.sound hwf.2.2.2⟩

theorem is_owner_of_walk_evolves {A : WinId} {w v : World} (h : evolves A w v)
    (hof : orphan_free w) (hpa : parents_alive w) (R : WinId) :
    ∀ (fuel : Nat) (cur : WinId) (y : window), v.find cur = some y →
      is_owner_of_walk v R fuel cur = is_owner_of_walk w R fuel cur := by
  intro fuel
  induction fuel with
  | zero => intro cur y _; rfl
  | succ n ih =>
    intro cur y hy
    obtain ⟨x, hx, hxy⟩ := evolves_parents h cur y hy
    unfold is_owner_of_walk
    simp only [hy, hx]
    rw [hxy]
    cases hp : x.iParentWindow with
    | none => rfl
    | some p =>
      simp only []
      by_cases hps : p = R
      · simp [hps]
      · simp only [hps, if_false]
        obtain ⟨yp, hyp⟩ := parents_alive_of_evolves h hof hpa cur y p hy
          (by rw [hxy]; exact hp)
        exact ih p yp hyp

theorem is_owner_of_evolves {A : WinId} {w v : World} (h : evolves A w v)
    (hwf : well_formed w) (R i : WinId) (y : window) (hy : v.find i = some y) :
    is_owner_of v R i = is_owner_of w R i := by
  obtain ⟨b, hb⟩ := is_owner_of_some w hwf.1 R i
  obtain ⟨b2, hb2⟩ := is_owner_of_some v (acyclic_of_evolves h hwf.1) R i
  rw [hb, hb2]
  unfold is_owner_of at hb hb2
  by_cases hi : i = R
  · simp only [hi, if_true] at hb hb2
    rw [← hb, ← hb2]
  · simp only [hi, if_false] at hb hb2
    rw [is_owner_of_walk_evolves h hwf.2.2.1 hwf.2.1 R _ i y hy] at hb2
    rw [is_owner_of_walk_det w R _ _ i b2 b hb2 hb]

theorem can_dismiss_evolves {A : WinId} {w v : World} (h : evolves A w v)
    (hwf : well_formed w) (j : WinId) (c : Option WinId) (y : window)
    (hy : v.find j = some y) : can_dismiss v j c = can_dismiss w j c := by
  obtain ⟨x, hx, hs, hp, _⟩ := h.survivors j y hy
  unfold can_dismiss
  rw [hy, hx]
  simp only []
  rw [dismissal_type_of_style_eq x y hs]
  have hby : ∀ o p, can_dismiss_by v j y c o p = can_dismiss_by w j x c o p := by
    intro o p
    unfold can_dismiss_by
    cases c with
    | none => rfl
    | some r =>
      simp only [window.style, hs, is_owner_of_evolves h hwf r j y hy, window.is_child_of, hp]
  simp only [hby]

theorem evolves_dismiss (A : WinId) (c : Option WinId) (w : World) (j : WinId)
    (ht : dismiss_children_test w A j c = some true) : evolves A w (dismiss w j) := by
  obtain ⟨x, hf, ho, hcase⟩ := dismiss_cases w A j c ht
  rcases hcase with ⟨hty, hopen, hd⟩ | ⟨_, _, hd⟩
  · rw [hd]
    exact evolves_close A w j x hf hopen hty ho
  · rw [hd]
    exact evolves_hide A w j ho

theorem evolves_dismiss_children (w : World) (A : WinId) (c : Option WinId) (me : window)
    (hme : w.find A = some me)
    (hs : has_style me.iStyle window_style.RequiresOwnerFocus = false) (v : World)
    (h : dismiss_children w A c = some v) :
    ∃ u, dismiss_children_loop A c (dismiss_children_bound (dismiss_children_entry w A c me))
        (dismiss_children_entry w A c me) 0 = some u ∧
      v = dismiss_children_exit u A me ∧ evolves A w u ∧ evolves A w v := by
  obtain ⟨u, hu, hvu⟩ := dismiss_children_unfold w A c me hme hs v h
  have hev : evolves A w u :=
    evolves_trans (evolves_of_calm A (calm_entry w A c me hme))
      (dismiss_run_evolves A c _ u (dismiss_children_loop_run A c _ _ 0 u hu))
  refine ⟨u, hu, hvu, hev, ?_⟩
  rw [hvu]
  exact evolves_trans hev (evolves_of_calm A (calm_exit u A me))

/-- C14: `S.dismiss_children(c)` for a live window `S`, in a world in which the
call reads live window objects only (`well_formed`: the registry names live
window objects only, each once, parent pointers point to live windows, parent
chains end, and no window that its surface destroys on `close()` has child
windows). The call returns, in a world that is well formed again. When `S` has
RequiresOwnerFocus no window is dismissed: registry and window objects are as
before and the only call made is the `DismissingChildren` notification. When
`S` lacks RequiresOwnerFocus, the world the call returns is reached from the
world at the entry of the loop by a sequence of `dismiss()` calls, each on a
registered window that at the time of the call was not dismissed, was owned by
`S` and answered `can_dismiss(c)` true, followed by the restoring of the flag;
and no owned dismissible window is skipped: every window still in the registry
that is owned by `S` and answers `can_dismiss(c)` true is dismissed, and every
registered window that was owned by `S` and answered `can_dismiss(c)` true when
the call was made is at the end either dismissed and still registered, or
gone because its surface destroyed it when it was closed. -/
theorem dismiss_children_spec (w : World) (S : WinId) (c : Option WinId) (me : window)
    (hme : w.find S = some me) (hwf : well_formed w) :
    (∃ v, dismiss_children w S c = some v ∧ well_formed v) ∧
    (has_style me.iStyle window_style.RequiresOwnerFocus = true →
      ∃ v, dismiss_children w S c = some v ∧ v.registry = w.registry ∧
        (∀ j, v.find j = w.find j) ∧
        v.events = w.events ++ [Event.DismissingChildren S c]) ∧
    (has_style me.iStyle window_style.RequiresOwnerFocus = false →
      ∀ v, dismiss_children w S c = some v →
        (∃ u, dismiss_run S c (dismiss_children_entry w S c me) u ∧
          v = dismiss_children_exit u S me) ∧
        (∀ j ∈ v.registry, ∀ x, v.find j = some x → is_owner_of v S j = some true →
          can_dismiss v j c = some true → x.dismissed = true) ∧
        (∀ j ∈ w.registry, ∀ x, w.find j = some x → is_owner_of w S j = some true →
          can_dismiss w j c = some true →
          (v.find j = none ∧ x.dismissal_type = .CloseOnDismissal ∧
            j ∈ w.surface_close_destroys) ∨
          (∃ y, v.find j = some y ∧ y.dismissed = true ∧ j ∈ v.registry))) := by
  have hreq : has_style me.iStyle window_style.RequiresOwnerFocus = true →
      dismiss_children w S c
        = some (dismiss_children_exit (dismiss_children_entry w S c me) S me) := by
    intro hs
    unfold dismiss_children
    rw [hme]
    simp [hs]
  have hlast : has_style me.iStyle window_style.RequiresOwnerFocus = false →
      ∀ v, dismiss_children w S c = some v →
        ∀ j ∈ v.registry, ∀ x, v.find j = some x → is_owner_of v S j = some true →
          can_dismiss v j c = some true → x.dismissed = true := by
    intro hs v hv
    obtain ⟨u, hu, hvu⟩ := dismiss_children_unfold w S c me hme hs v hv
    have hfin := dismiss_children_loop_final S c _ _ 0 u hu
      (fun k j hk _ => absurd hk (Nat.not_lt_zero k))
    intro j hj x hx ho hc
    subst hvu
    have hreg : j ∈ u.registry := by
      simpa [dismiss_children_exit] using hj
    have ht := hfin j hreg
    rw [← dismiss_children_test_exit u S me j c] at ht
    exact dismissed_of_test_false _ S j c x ht hx ho hc
  refine ⟨?_, ?_, ?_⟩
  · obtain ⟨v, hv⟩ := dismiss_children_terminates w S c me hme hwf.1 hwf.2.2.2
    refine ⟨v, hv, ?_⟩
    cases hs : has_style me.iStyle window_style.RequiresOwnerFocus
    · obtain ⟨_, _, _, _, hev⟩ := evolves_dismiss_children w S c me hme hs v hv
      exact well_formed_of_evolves hev hwf
    · rw [hreq hs] at hv
      cases hv
      exact well_formed_of_evolves
        (evolves_trans (evolves_of_calm S (calm_entry w S c me hme))
          (evolves_of_calm S (calm_exit _ S me))) hwf
  · intro hs
    refine ⟨dismiss_children_exit (dismiss_children_entry w S c me) S me, hreq hs, ?_, ?_, ?_⟩
    · simp [dismiss_children_exit, dismiss_children_entry]
    · intro j
      unfold dismiss_children_exit dismiss_children_entry
      rw [find_modify]
      by_cases hj : j = S
      · subst hj
        simp [hme, scoped_flag_restore]
      · simp [hj]
    · simp [dismiss_children_exit, dismiss_children_entry]
  · intro hs v hv
    obtain ⟨u, hu, hvu, _, hev⟩ := evolves_dismiss_children w S c me hme hs v hv
    refine ⟨⟨u, dismiss_children_loop_run S c _ _ 0 u hu, hvu⟩, hlast hs v hv, ?_⟩
    intro j hj x hx ho hc
    cases hy : v.find j with
    | none =>
      obtain ⟨hty, hd, _⟩ := hev.ended j x hx hy
      exact Or.inl ⟨rfl, hty, hd⟩
    | some y =>
      have hreg : j ∈ v.registry := hev.registered j hj (by rw [hy]; simp)
      refine Or.inr ⟨y, rfl, ?_, hreg⟩
      apply hlast hs v hv j hreg y hy
      · rw [is_owner_of_evolves hev hwf S j y hy]
        exact ho
      · rw [can_dismiss_evolves hev hwf j c y hy]
        exact hc

/-- Witness of C14: in the owner scenario with a surface that destroys window
2 on close, window 1 dismisses its children: window 2 is gone and window 3 is
hidden. -/
theorem dismiss_children_spec_witness :
    owner_world_destroying.find 1 = some owner_world_root ∧
    well_formed owner_world_destroying ∧
    (∃ v, dismiss_children owner_world_destroying 1 none = some v ∧ well_formed v) ∧
    (dismiss_children owner_world_destroying 1 none).map
      (fun v => (v.registry, (v.find 2).isSome, (v.find 3).map window.dismissed))
      = some ([1, 3], false, some true) :=
  ⟨by decide,
    well_formed_of_list owner_world_destroying (by decide) (by decide) (by decide)
      (by decide) (by decide),
    (dismiss_children_spec owner_world_destroying 1 none owner_world_root (by decide)
      (well_formed_of_list owner_world_destroying (by decide) (by decide) (by decide)
        (by decide) (by decide))).1,
    by decide⟩

/-! ## C11: an owner dismisses a closing and a hiding child -/

/-- C11: in a world in which `dismiss_children` reads live window objects
only (`well_formed`: the registry names live window objects only, each once,
parent pointers point to live windows, parent chains end, and no window that
its surface destroys on close has child windows), let `A` be a visible window
without RequiresOwnerFocus, `B` a registered window owned by `A` with style
DismissOnOwnerClick, and `C` a registered window owned by `A` with style
HideOnOwnerClick and dismissal type HideOnDismissal. Then
`A.dismiss_children(nullptr)` returns; afterwards `B` is closed (its closed
flag is set if the object is still alive, and its lifetime can only have been
ended by its surface on close), `C` is alive and hidden, and `A` is alive with
its closed flag, its visibility and its `iDismissingChildren` flag unchanged. -/
theorem dismiss_children_scenario (w : World) (A B C : WinId) (a b c : window)
    (hwf : well_formed w)
    (hA : w.find A = some a) (hB : w.find B = some b) (hC : w.find C = some c)
    (hBr : B ∈ w.registry) (hCr : C ∈ w.registry)
    (hAs : has_style a.iStyle window_style.RequiresOwnerFocus = false)
    (hAv : a.widget_visible = true)
    (hBo : is_owner_of w A B = some true) (hCo : is_owner_of w A C = some true)
    (hBs : has_style b.iStyle window_style.DismissOnOwnerClick = true)
    (hCs : has_style c.iStyle window_style.HideOnOwnerClick = true)
    (hCt : c.dismissal_type = .HideOnDismissal) :
    ∃ v, dismiss_children w A none = some v ∧
      (∀ y, v.find B = some y → y.iClosed = true) ∧
      (v.find B = none → B ∈ w.surface_close_destroys) ∧
      (∃ y, v.find C = some y ∧ y.widget_visible = false ∧
        has_style y.iStyle window_style.HideOnOwnerClick = true) ∧
      (∃ y, v.find A = some y ∧ y.iClosed = a.iClosed ∧
        y.widget_visible = a.widget_visible ∧
        y.iDismissingChildren = a.iDismissingChildren) := by
  have hac : acyclic w := hwf.1
  have hof : orphan_free w := hwf.2.2.1
  obtain ⟨v, hv⟩ := dismiss_children_terminates w A none a hA hac hwf.2.2.2
  obtain ⟨u, hu, hvu⟩ := dismiss_children_unfold w A none a hA hAs v hv
  have hev : evolves A w u :=
    evolves_trans (evolves_of_calm A (calm_entry w A none a hA))
      (dismiss_run_evolves A none _ u (dismiss_children_loop_run A none _ _ 0 u hu))
  have hacu : acyclic u := acyclic_of_evolves hev hac
  have hfin := dismiss_children_loop_final A none _ _ 0 u hu
    (fun k j hk _ => absurd hk (Nat.not_lt_zero k))
  have hBA : B ≠ A := (owns_of_is_owner_of w A B hBo).1
  have hCA : C ≠ A := (owns_of_is_owner_of w A C hCo).1
  have hfB : v.find B = u.find B := by
    rw [hvu]
    simp [dismiss_children_exit, find_modify, hBA]
  have hfC : v.find C = u.find C := by
    rw [hvu]
    simp [dismiss_children_exit, find_modify, hCA]
  have hdone : ∀ (j : WinId) (x y : window), w.find j = some x → u.find j = some y →
      j ∈ w.registry → is_owner_of w A j = some true →
      x.dismissal_type ≠ .CannotDismiss → y.dismissed = true ∧ y.iStyle = x.iStyle := by
    intro j x y hx hy hr ho ht
    obtain ⟨x1, hx1, hs, _, _⟩ := hev.survivors j y hy
    rw [hx] at hx1
    cases hx1
    have hreg : j ∈ u.registry := hev.registered j hr (by rw [hy]; simp)
    have hou : is_owner_of u A j = some true :=
      is_owner_of_of_owns u hacu A j
        (owns_of_evolves hev hof j y hy (owns_of_is_owner_of w A j ho))
    have hty : y.dismissal_type ≠ .CannotDismiss := by
      rw [dismissal_type_of_style_eq x y hs]
      exact ht
    exact ⟨dismissed_of_test_false u A j none y (hfin j hreg) hy hou
      (can_dismiss_null u j y hy hty), hs⟩
  have hBt : b.dismissal_type = .CloseOnDismissal := dismissal_type_close b.iStyle hBs
  refine ⟨v, hv, ?_, ?_, ?_, ?_⟩
  · intro y hy
    rw [hfB] at hy
    obtain ⟨hd, hs⟩ := hdone B b y hB hy hBr hBo (by rw [hBt]; simp)
    have hty : y.dismissal_type = .CloseOnDismissal := by
      rw [dismissal_type_of_style_eq b y hs]
      exact hBt
    simpa [window.dismissed, hty, window.is_closed] using hd
  · intro hn
    rw [hfB] at hn
    exact (hev.ended B b hB hn).2.1
  · cases hy : u.find C with
    | none =>
      have := (hev.ended C c hC hy).1
      rw [hCt] at this
      cases this
    | some y =>
      obtain ⟨hd, hs⟩ := hdone C c y hC hy hCr hCo (by rw [hCt]; simp)
      have hty : y.dismissal_type = .HideOnDismissal := by
        rw [dismissal_type_of_style_eq c y hs]
        exact hCt
      refine ⟨y, by rw [hfC, hy], ?_, by rw [hs]; exact hCs⟩
      simpa [window.dismissed, hty, window.hidden] using hd
  · obtain ⟨y, hy, hk⟩ := hev.untouched A a hA (not_owns_self w A)
    refine ⟨y.scoped_flag a.iDismissingChildren, ?_, hk.1, ?_, rfl⟩
    · rw [hvu]
      simp [dismiss_children_exit, find_modify, hy]
    · show y.widget_visible = a.widget_visible
      rw [hAv]
      exact hk.2.2.2 hAv

/-- Witness of C11: the owner scenario, with window 1 as `A`, window 2 as `B`
and window 3 as `C`. -/
theorem dismiss_children_scenario_witness :
    is_owner_of owner_world 1 2 = some true ∧ is_owner_of owner_world 1 3 = some true ∧
    ∃ v, dismiss_children owner_world 1 none = some v ∧
      (∀ y, v.find 2 = some y → y.iClosed = true) ∧
      (v.find 2 = none → 2 ∈ owner_world.surface_close_destroys) ∧
      (∃ y, v.find 3 = some y ∧ y.widget_visible = false ∧
        has_style y.iStyle window_style.HideOnOwnerClick = true) ∧
      (∃ y, v.find 1 = some y ∧ y.iClosed = owner_world_root.iClosed ∧
        y.widget_visible = owner_world_root.widget_visible ∧
        y.iDismissingChildren = owner_world_root.iDismissingChildren) :=
  ⟨by decide, by decide,
    dismiss_children_scenario owner_world 1 2 3 owner_world_root
      (owner_world_child window_style.DismissOnOwnerClick 20)
      (owner_world_child window_style.HideOnOwnerClick 30)
      (well_formed_of_list owner_world (by decide) (by decide) (by decide) (by decide)
        (by decide))
      (by decide) (by decide) (by decide) (by decide) (by decide) (by decide) (by decide)
      (by decide) (by decide) (by decide) (by decide) (by decide)⟩

/-! ## C25: the native surface of a window -/

/-- C25: `has_native_surface()` is true exactly when the window owns a surface
and the destroyed flag of its native surface is not set; `native_surface()` /
`native_window()` fail exactly when `has_native_surface()` is false, the failure
is `no_native_surface`, and otherwise they return the native surface of the
owned surface; so `native_window()` succeeds whenever `has_native_window()`. -/
theorem native_surface_spec (x : window) :
    (x.has_native_surface = true ↔
      x.is_surface = true ∧ x.iSurfaceDestroyed.getD false = false) ∧
    (x.native_window = .error window_error.no_native_surface ↔
      x.has_native_surface = false) ∧
    (∀ e, x.native_window = .error e → e = window_error.no_native_surface) ∧
    (x.has_native_surface = true →
      ∃ s, x.iSurfaceWindow = some s ∧ x.native_window = .ok s) ∧
    (x.has_native_window = true → ∃ s, x.native_window = .ok s) := by
  have hok : x.has_native_surface = true →
      ∃ s, x.iSurfaceWindow = some s ∧ x.native_window = .ok s := by
    intro h
    have hs : x.is_surface = true := by
      simp only [window.has_native_surface, Bool.and_eq_true] at h
      exact h.1
    cases hsw : x.iSurfaceWindow with
    | none => simp [window.is_surface, hsw] at hs
    | some s => exact ⟨s, rfl, by simp [window.native_window, h, hsw]⟩
  refine ⟨?_, ?_, ?_, hok, ?_⟩
  · simp [window.has_native_surface]
  · cases h : x.has_native_surface
    · simp [window.native_window, h]
    · obtain ⟨s, _, hs⟩ := hok h
      simp [hs]
  · intro e he
    cases h : x.has_native_surface
    · simp [window.native_window, h] at he
      exact he.symm
    · obtain ⟨s, _, hs⟩ := hok h
      rw [hs] at he
      cases he
  · intro h
    have hn : x.has_native_surface = true := by
      simp only [window.has_native_window, Bool.and_eq_true] at h
      exact h.1
    obtain ⟨s, _, hs⟩ := hok hn
    exact ⟨s, hs⟩

/-! ## C28: `fps` and `potential_fps` -/

/-- C28: for a window that has no live native surface of its own, `fps()` and
`potential_fps()` return 0 when `has_surface()` is false and fail with
`no_native_surface` when `has_surface()` is true (a window that borrows the
surface of an ancestor); so they return a value only when `has_surface()` is
false. -/
theorem fps_without_native_surface (x : window) (native_fps native_potential_fps :
    surface_window → ℚ) (h : x.has_native_surface = false) :
    (x.has_surface = false →
      x.fps native_fps = .ok 0 ∧ x.potential_fps native_potential_fps = .ok 0) ∧
    (x.has_surface = true →
      x.fps native_fps = .error window_error.no_native_surface ∧
      x.potential_fps native_potential_fps = .error window_error.no_native_surface) ∧
    ((∃ v, x.fps native_fps = .ok v) ↔ x.has_surface = false) ∧
    ((∃ v, x.potential_fps native_potential_fps = .ok v) ↔ x.has_surface = false) := by
  have hn : x.native_window = .error window_error.no_native_surface := by
    simp [window.native_window, h]
  cases hs : x.has_surface
  · simp [window.fps, window.potential_fps, hs]
  · simp [window.fps, window.potential_fps, hs, hn]

/-- Witness of C28: the nested window of the scenarios borrows the surface 10
and has none of its own. -/
theorem fps_without_native_surface_witness :
    disabled_nested_window.has_native_surface = false ∧
    disabled_nested_window.has_surface = true ∧
    disabled_nested_window.fps (fun _ => 60) = .error window_error.no_native_surface ∧
    disabled_nested_window.potential_fps (fun _ => 120)
      = .error window_error.no_native_surface :=
  ⟨by decide, by decide,
    (fps_without_native_surface disabled_nested_window (fun _ => 60) (fun _ => 120)
      (by decide)).2.1 (by decide)⟩

/-! ## C21: `widget_removed` -/

/-- C21: on a window that has run `init` (the member `iSurfaceDestroyed` is
engaged) `widget_removed(w)` clears the entered and the focused widget when
they are `w` and then runs the layout, but the test `!iSurfaceDestroyed` is
false, so `release_capture` is never called: a widget `w` that holds the
input capture of the surface still holds it afterwards. -/
theorem widget_removed_keeps_capture :
    (∀ (x : window) (w : Nat) (capturing_widget : Option Nat),
      x.iSurfaceDestroyed.isSome = true →
      x.widget_removed w capturing_widget
        = .ok ((x.clear_entered w).clear_focused w, capturing_widget,
            [Event.layout_items])) ∧
    focused_window.iSurfaceDestroyed = some false ∧
    focused_window.widget_removed 5 (some 5)
      = .ok ((focused_window.clear_entered 5).clear_focused 5, some 5,
          [Event.layout_items]) ∧
    ((focused_window.clear_entered 5).clear_focused 5).iFocusedWidget = none := by
  have hgen : ∀ (x : window) (w : Nat) (capturing_widget : Option Nat),
      x.iSurfaceDestroyed.isSome = true →
      x.widget_removed w capturing_widget
        = .ok ((x.clear_entered w).clear_focused w, capturing_widget,
            [Event.layout_items]) := by
    intro x w cap h
    have h1 : (x.clear_entered w).iSurfaceDestroyed.isNone = false := by
      unfold window.clear_entered
      split
      · cases hd : x.iSurfaceDestroyed
        · rw [hd] at h; simp at h
        · rfl
      · cases hd : x.iSurfaceDestroyed
        · rw [hd] at h; simp at h
        · rfl
    simp [window.widget_removed, h1]
  exact ⟨hgen, rfl, hgen focused_window 5 (some 5) rfl, by decide⟩

/-! ## C23: the title text -/

theorem init_tail_title_synced (w : World) (self : WinId) (y : window)
    (hok : (init_tail w self).failure = none)
    (hy : (init_tail w self).world.find self = some y) : title_bar_synced y := by
  unfold init_tail at hok hy
  simp only [] at hok hy
  generalize update_modality w self false = w1 at hok hy
  cases hf : w1.find self with
  | none =>
    rw [hf] at hy
    simp only [] at hy
    rw [hf] at hy
    cases hy
  | some x =>
    rw [hf] at hok hy
    simp only [] at hok hy
    cases hc : (!x.is_nested && !x.has_native_surface)
    · simp only [hc, Bool.false_eq_true, if_false] at hy
      cases ht : has_style x.style window_style.TitleBar
      · simp only [ht, Bool.false_eq_true, if_false] at hy
        rw [hf] at hy
        cases hy
        intro h
        rw [ht] at h
        cases h
      · simp only [ht, if_true, find_set] at hy
        cases hy
        intro _
        rfl
    · simp only [hc, if_true, construct_throw] at hok
      cases hok

theorem init_cases (w : World) (self : WinId) :
    (∃ W e, init w self = construct_throw W self e) ∨
    (∃ W, init w self = init_tail W self) ∨ w.find self = none := by
  unfold init
  cases hf : w.find self with
  | none => exact Or.inr (Or.inr rfl)
  | some x =>
    simp only []
    cases hs : x.surface with
    | error e => exact Or.inl ⟨w, e, rfl⟩
    | ok hdl =>
      simp only []
      cases hm : init_makes_nest w self { x with iSurfaceDestroyed := some false } with
      | error e => exact Or.inl ⟨w, e, rfl⟩
      | ok makesNest =>
        simp only []
        generalize (if makesNest = true then
            ({ ({ x with iSurfaceDestroyed := some false } : window) with iNest := some [] }
              : window)
            else { x with iSurfaceDestroyed := some false }) = x2
        generalize (if has_style x2.style window_style.InitiallyHidden = true then
              show_window (w.set self x2) self false
             else w.set self x2) = w2
        cases hn : x2.is_nested
        · simp only [Bool.false_eq_true, if_false]
          exact Or.inr (Or.inl ⟨w2, rfl⟩)
        · simp only [if_true]
          cases hc : nested_details_create w2 self with
          | error e => exact Or.inl ⟨w2, e, rfl⟩
          | ok w3 => exact Or.inr (Or.inl ⟨w3, rfl⟩)

theorem init_title_synced (w : World) (self : WinId) (y : window)
    (hok : (init w self).failure = none)
    (hy : (init w self).world.find self = some y) : title_bar_synced y := by
  rcases init_cases w self with ⟨W, e, h⟩ | ⟨W, h⟩ | h
  · rw [h] at hok
    simp [construct_throw] at hok
  · rw [h] at hok hy
    exact init_tail_title_synced W self y hok hy
  · unfold init at hy
    rw [h] at hy
    simp only [] at hy
    rw [h] at hy
    cases hy

theorem construct_title_synced (w : World) (self : WinId) (rq : construct_request)
    (y : window) (hok : (construct w self rq).failure = none)
    (hy : (construct w self rq).world.find self = some y) : title_bar_synced y := by
  rcases construct_cases w self rq with ⟨e, W0, hc, _⟩ | ⟨xs, W0, hc, _, hx, _⟩
  · rw [hc] at hok
    simp [construct_throw] at hok
  · rw [hc] at hok hy
    exact init_title_synced W0 self y hok hy

/-- C23, as stated, fails. First run: window 1 is built without the style
TitleBar, so `init` creates no title bar; `set_style(TitleBar)` then gives it
the style, and `set_title_text("editor")` calls `title_bar()` on a window that
has none: the call does not complete. Second run: a window is built with the
style TitleBar and the title "app"; the style is taken away, the title is set
to "editor" (the native window is told, the title bar is not), the style
TitleBar is given back, and the title is set to "editor" again: nothing is
done, the window has the style TitleBar, `title_text()` is "editor", and its
title bar shows "app". -/
theorem set_title_text_counterexample :
    (construct empty_world 1 (plain_request 0 10)).world.find 1 = some owner_world_root ∧
    has_style (owner_world_root.set_style window_style.TitleBar).style
      window_style.TitleBar = true ∧
    (owner_world_root.set_style window_style.TitleBar).set_title_text "editor" = none ∧
    (construct empty_world 1 (plain_request window_style.TitleBar 10)).world.find 1
      = some titled_window ∧
    (titled_window.set_style window_style.Invalid).set_title_text "editor"
      = some (untold_title_window, [Event.native_set_title_text "editor"]) ∧
    (untold_title_window.set_style window_style.TitleBar).set_title_text "editor"
      = some (untold_title_window.set_style window_style.TitleBar, []) ∧
    has_style (untold_title_window.set_style window_style.TitleBar).style
      window_style.TitleBar = true ∧
    (untold_title_window.set_style window_style.TitleBar).title_text = "editor" ∧
    (untold_title_window.set_style window_style.TitleBar).title_bar_title = some "app" := by
  decide

/-- C23, amended: for every window whose title bar, if its style asks for
one, exists and shows the current title text (the state in which the
constructor leaves every window, and which `set_title_text` keeps), and every
string `t`, `set_title_text(t)` returns; afterwards `title_text()` is `t`, the
title bar of a window of style TitleBar shows `t`, and the style is unchanged.
When `t` is the current title the window is unchanged and no call is made;
otherwise the calls are `title_bar().set_title(t)` for a window of style
TitleBar and `native_window().set_title_text(t)` for a window with a native
window. -/
theorem set_title_text_spec (x : window) (t : String) (hs : title_bar_synced x) :
    ∃ y calls, x.set_title_text t = some (y, calls) ∧ y.title_text = t ∧
      (has_style y.style window_style.TitleBar = true → y.title_bar_title = some t) ∧
      y.iStyle = x.iStyle ∧
      (x.iTitleText = t → y = x ∧ calls = []) ∧
      (x.iTitleText ≠ t →
        calls = (if has_style x.style window_style.TitleBar
                 then [Event.title_bar_set_title t] else [])
          ++ (if x.has_native_window then [Event.native_set_title_text t] else [])) ∧
      title_bar_synced y := by
  by_cases h : x.iTitleText = t
  · refine ⟨x, [], ?_, h, ?_, rfl, fun _ => ⟨rfl, rfl⟩, fun hn => absurd h hn, hs⟩
    · simp [window.set_title_text, h]
    · intro hb
      rw [hs hb, h]
  · cases hb : has_style x.style window_style.TitleBar
    · refine ⟨x.assign_title t, native_title_calls (x.assign_title t) t, ?_, rfl, ?_, rfl,
        fun e => absurd e h, fun _ => ?_, ?_⟩
      · have hb1 : has_style (x.assign_title t).style window_style.TitleBar = false := hb
        simp only [window.set_title_text, ne_eq, h, not_false_eq_true, if_true, hb1,
          Bool.false_eq_true, if_false]
        rfl
      · intro hb2
        have hb1 : has_style (x.assign_title t).style window_style.TitleBar = false := hb
        rw [hb1] at hb2
        cases hb2
      · simp [native_title_calls, window.assign_title, window.has_native_window,
          window.has_native_surface, window.is_surface]
      · intro hb2
        have hb1 : has_style (x.assign_title t).style window_style.TitleBar = false := hb
        rw [hb1] at hb2
        cases hb2
    · have hbar := hs hb
      refine ⟨{ x.assign_title t with title_bar_title := some t },
        Event.title_bar_set_title t
          :: native_title_calls { x.assign_title t with title_bar_title := some t } t,
        ?_, rfl, fun _ => rfl, rfl, fun e => absurd e h, fun _ => ?_, fun _ => rfl⟩
      · have hb1 : has_style (x.assign_title t).style window_style.TitleBar = true := hb
        have hbar1 : (x.assign_title t).title_bar_set_title (x.assign_title t).title_text
            = some { x.assign_title t with title_bar_title := some t } := by
          have hb2 : (x.assign_title t).title_bar_title = some x.iTitleText := hbar
          simp only [window.title_bar_set_title, hb2]
          rfl
        simp only [window.set_title_text, ne_eq, h, not_false_eq_true, if_true, hb1, hbar1]
        rfl
      · simp [native_title_calls, window.assign_title, window.has_native_window,
          window.has_native_surface, window.is_surface]

/-- Witness of C23: the window of style TitleBar that the constructor builds
gets the title "editor". -/
theorem set_title_text_spec_witness :
    (construct empty_world 1 (plain_request window_style.TitleBar 10)).world.find 1
      = some titled_window ∧
    title_bar_synced titled_window ∧
    ∃ y calls, titled_window.set_title_text "editor" = some (y, calls) ∧
      y.title_text = "editor" ∧
      (has_style y.style window_style.TitleBar = true →
        y.title_bar_title = some "editor") ∧
      y.iStyle = titled_window.iStyle ∧
      (titled_window.iTitleText = "editor" → y = titled_window ∧ calls = []) ∧
      (titled_window.iTitleText ≠ "editor" →
        calls = (if has_style titled_window.style window_style.TitleBar
                 then [Event.title_bar_set_title "editor"] else [])
          ++ (if titled_window.has_native_window
              then [Event.native_set_title_text "editor"] else [])) ∧
      title_bar_synced y :=
  ⟨by decide, fun _ => rfl, set_title_text_spec titled_window "editor" (fun _ => rfl)⟩

/-! ## C27: `corrected_popup_rect` -/

theorem double.bit_length_aux_zero (f : Nat) : double.bit_length_aux f 0 = 0 := by
  cases f <;> simp [double.bit_length_aux]

theorem double.bit_length_aux_spec : ∀ (f n : Nat), n ≤ f →
    n < 2 ^ double.bit_length_aux f n ∧
      (n ≠ 0 → 2 ^ (double.bit_length_aux f n - 1) ≤ n) := by
  intro f
  induction f with
  | zero =>
    intro n hn
    have : n = 0 := by omega
    subst this
    simp [double.bit_length_aux]
  | succ f ih =>
    intro n hn
    by_cases h0 : n = 0
    · subst h0
      simp [double.bit_length_aux]
    · have hstep : double.bit_length_aux (f + 1) n = double.bit_length_aux f (n / 2) + 1 := by
        simp [double.bit_length_aux, h0]
      rw [hstep]
      obtain ⟨h1, h2⟩ := ih (n / 2) (by omega)
      constructor
      · rw [pow_succ]
        omega
      · intro _
        simp only [Nat.add_sub_cancel]
        by_cases hh : n / 2 = 0
        · rw [hh, double.bit_length_aux_zero]
          simp only [pow_zero]
          omega
        · have h3 := h2 hh
          have hpos : double.bit_length_aux f (n / 2) ≠ 0 := by
            intro e
            rw [e] at h1
            simp only [pow_zero, Nat.lt_one_iff] at h1
            exact hh h1
          obtain ⟨a, ha⟩ := Nat.exists_eq_succ_of_ne_zero hpos
          rw [ha] at h3 ⊢
          simp only [Nat.succ_sub_one] at h3
          rw [pow_succ]
          omega

theorem double.lt_pow_bit_length (n : Nat) : n < 2 ^ double.bit_length n :=
  (double.bit_length_aux_spec n n le_rfl).1

theorem double.pow_bit_length_le (n : Nat) (h : n ≠ 0) : 2 ^ (double.bit_length n - 1) ≤ n :=
  (double.bit_length_aux_spec n n le_rfl).2 h

theorem double.bit_length_le_iff (n k : Nat) : double.bit_length n ≤ k ↔ n < 2 ^ k := by
  constructor
  · intro h
    exact lt_of_lt_of_le (double.lt_pow_bit_length n) (Nat.pow_le_pow_right (by norm_num) h)
  · intro h
    by_contra hc
    have hk : k ≤ double.bit_length n - 1 := by omega
    have hn : n ≠ 0 := by
      intro e
      subst e
      simp [double.bit_length, double.bit_length_aux_zero] at hc
    have h1 := double.pow_bit_length_le n hn
    have h2 := Nat.pow_le_pow_right (show 0 < 2 by norm_num) hk
    omega

theorem double.bit_length_mono {n m : Nat} (h : n ≤ m) :
    double.bit_length n ≤ double.bit_length m :=
  (double.bit_length_le_iff n _).mpr (lt_of_le_of_lt h (double.lt_pow_bit_length m))

theorem double.dropped_bits_mono {n m : Nat} (h : n ≤ m) :
    double.dropped_bits n ≤ double.dropped_bits m := by
  have := double.bit_length_mono h
  unfold double.dropped_bits
  omega

theorem double.round_magnitude_eq (n : Nat) :
    double.round_magnitude n =
      if 2 * (n % 2 ^ double.dropped_bits n) < 2 ^ double.dropped_bits n then
        n / 2 ^ double.dropped_bits n * 2 ^ double.dropped_bits n
      else if 2 ^ double.dropped_bits n < 2 * (n % 2 ^ double.dropped_bits n) then
        (n / 2 ^ double.dropped_bits n + 1) * 2 ^ double.dropped_bits n
      else if n / 2 ^ double.dropped_bits n % 2 = 0 then
        n / 2 ^ double.dropped_bits n * 2 ^ double.dropped_bits n
      else (n / 2 ^ double.dropped_bits n + 1) * 2 ^ double.dropped_bits n := by
  simp only [double.round_magnitude, Nat.shiftLeft_eq, Nat.shiftRight_eq_div_pow, Nat.one_mul]

theorem double.round_magnitude_cases (n : Nat) :
    (double.round_magnitude n = n / 2 ^ double.dropped_bits n * 2 ^ double.dropped_bits n ∨
      double.round_magnitude n
        = (n / 2 ^ double.dropped_bits n + 1) * 2 ^ double.dropped_bits n) ∧
    (n % 2 ^ double.dropped_bits n = 0 → double.round_magnitude n = n) := by
  rw [double.round_magnitude_eq]
  have hg : 0 < 2 ^ double.dropped_bits n := by positivity
  constructor
  · split_ifs
    · exact Or.inl rfl
    · exact Or.inr rfl
    · exact Or.inl rfl
    · exact Or.inr rfl
  · intro h0
    rw [h0]
    simp only [Nat.mul_zero, hg, if_true]
    exact Nat.div_mul_cancel (Nat.dvd_of_mod_eq_zero h0)

theorem double.round_magnitude_dvd (n : Nat) :
    2 ^ double.dropped_bits n ∣ double.round_magnitude n := by
  rcases (double.round_magnitude_cases n).1 with h | h <;> rw [h] <;> exact Dvd.intro_left _ rfl

theorem double.round_magnitude_exact (n k : Nat) (hk : 2 ^ k ∣ n) (hlt : n < 2 ^ (k + 53)) :
    double.round_magnitude n = n := by
  apply (double.round_magnitude_cases n).2
  have hs : double.dropped_bits n ≤ k := by
    have := (double.bit_length_le_iff n (k + 53)).mpr hlt
    unfold double.dropped_bits
    omega
  exact Nat.mod_eq_zero_of_dvd ((Nat.pow_dvd_pow 2 hs).trans hk)

theorem double.round_magnitude_le (n b : Nat) (hb : double.round_magnitude b = b)
    (h : n ≤ b) : double.round_magnitude n ≤ b := by
  have hgb : 2 ^ double.dropped_bits n ∣ b := by
    have h1 := double.round_magnitude_dvd b
    rw [hb] at h1
    exact (Nat.pow_dvd_pow 2 (double.dropped_bits_mono h)).trans h1
  have hg : 0 < 2 ^ double.dropped_bits n := by positivity
  by_cases h0 : n % 2 ^ double.dropped_bits n = 0
  · rw [(double.round_magnitude_cases n).2 h0]
    exact h
  · have hnb : n < b := by
      rcases Nat.lt_or_ge n b with hlt | hge
      · exact hlt
      · have hnb : b = n := le_antisymm hge h
        rw [hnb] at hgb
        exact absurd (Nat.mod_eq_zero_of_dvd hgb) h0
    obtain ⟨t, ht⟩ := hgb
    have hq : n / 2 ^ double.dropped_bits n < t := by
      rw [Nat.div_lt_iff_lt_mul hg, Nat.mul_comm]
      rw [← ht]
      exact hnb
    have hle : (n / 2 ^ double.dropped_bits n + 1) * 2 ^ double.dropped_bits n ≤ b := by
      rw [ht, Nat.mul_comm (2 ^ double.dropped_bits n) t]
      exact Nat.mul_le_mul_right _ hq
    rcases (double.round_magnitude_cases n).1 with h1 | h1
    · rw [h1]
      exact le_trans (Nat.mul_le_mul_right _ (Nat.le_succ _)) hle
    · rw [h1]
      exact hle

theorem double.le_round_magnitude (n b : Nat) (hb : double.round_magnitude b = b)
    (h : b ≤ n) : b ≤ double.round_magnitude n := by
  have hg : 0 < 2 ^ double.dropped_bits n := by positivity
  have hfloor : n / 2 ^ double.dropped_bits n * 2 ^ double.dropped_bits n
      ≤ double.round_magnitude n := by
    rcases (double.round_magnitude_cases n).1 with h1 | h1
    · rw [h1]
    · rw [h1]
      exact Nat.mul_le_mul_right _ (Nat.le_succ _)
  refine le_trans ?_ hfloor
  have hsb := double.dropped_bits_mono h
  rcases Nat.lt_or_ge (double.dropped_bits b) (double.dropped_bits n) with hlt | hge
  · have hbl : double.bit_length b ≤ double.bit_length n - 1 := by
      unfold double.dropped_bits at hlt
      omega
    have hb2 : b < 2 ^ (double.bit_length n - 1) := (double.bit_length_le_iff b _).mp hbl
    have hn0 : n ≠ 0 := by
      intro e
      subst e
      simp [double.dropped_bits, double.bit_length, double.bit_length_aux_zero] at hlt
    have hn2 := double.pow_bit_length_le n hn0
    have hsplit : double.bit_length n - 1 = double.dropped_bits n + 52 := by
      unfold double.dropped_bits at hlt ⊢
      omega
    rw [hsplit] at hb2 hn2
    have hq : 2 ^ 52 ≤ n / 2 ^ double.dropped_bits n := by
      rw [Nat.le_div_iff_mul_le hg, ← pow_add, Nat.add_comm]
      exact hn2
    calc b ≤ 2 ^ (double.dropped_bits n + 52) := le_of_lt hb2
      _ = 2 ^ 52 * 2 ^ double.dropped_bits n := by rw [pow_add, Nat.mul_comm]
      _ ≤ n / 2 ^ double.dropped_bits n * 2 ^ double.dropped_bits n :=
        Nat.mul_le_mul_right _ hq
  · have heq : double.dropped_bits b = double.dropped_bits n := le_antisymm hsb hge
    have hgb : 2 ^ double.dropped_bits n ∣ b := by
      have h1 := double.round_magnitude_dvd b
      rw [hb, heq] at h1
      exact h1
    obtain ⟨t, ht⟩ := hgb
    have hq : t ≤ n / 2 ^ double.dropped_bits n := by
      rw [Nat.le_div_iff_mul_le hg, Nat.mul_comm, ← ht]
      exact h
    rw [ht, Nat.mul_comm (2 ^ double.dropped_bits n) t]
    exact Nat.mul_le_mul_right _ hq

theorem double.round_magnitude_zero : double.round_magnitude 0 = 0 :=
  double.round_magnitude_exact 0 0 (dvd_zero _) (by positivity)

theorem double.round_neg (z : Int) : double.round (-z) = -double.round z := by
  simp [double.round, Int.sign_neg]

theorem double.round_of_nonneg (z : Int) (h : 0 ≤ z) :
    double.round z = (double.round_magnitude z.natAbs : Int) := by
  rcases h.eq_or_lt with h0 | hpos
  · subst h0
    simp [double.round, double.round_magnitude_zero]
  · unfold double.round
    rw [Int.sign_eq_one_of_pos hpos, one_mul]

theorem double.round_nonneg (z : Int) (h : 0 ≤ z) : 0 ≤ double.round z := by
  rw [double.round_of_nonneg z h]
  exact Int.natCast_nonneg _

theorem double.round_nonpos (z : Int) (h : z ≤ 0) : double.round z ≤ 0 := by
  have h1 := double.round_nonneg (-z) (by omega)
  rw [double.round_neg] at h1
  omega

theorem double.round_le_of_nonneg (a z : Int) (ha : double.round a = a) (hz : 0 ≤ z)
    (h : z ≤ a) : double.round z ≤ a := by
  have ha0 : 0 ≤ a := le_trans hz h
  rw [double.round_of_nonneg a ha0] at ha
  rw [double.round_of_nonneg z hz]
  have hmag : double.round_magnitude a.natAbs = a.natAbs := by
    have h1 : ((double.round_magnitude a.natAbs : Nat) : Int) = ((a.natAbs : Nat) : Int) := by
      rw [ha, Int.natAbs_of_nonneg ha0]
    exact_mod_cast h1
  have hle : z.natAbs ≤ a.natAbs := by omega
  have h2 := double.round_magnitude_le z.natAbs a.natAbs hmag hle
  have h3 : ((double.round_magnitude z.natAbs : Nat) : Int) ≤ ((a.natAbs : Nat) : Int) := by
    exact_mod_cast h2
  rw [Int.natAbs_of_nonneg ha0] at h3
  exact h3

theorem double.le_round_of_nonneg (a z : Int) (ha : double.round a = a) (ha0 : 0 ≤ a)
    (h : a ≤ z) : a ≤ double.round z := by
  have hz : 0 ≤ z := le_trans ha0 h
  rw [double.round_of_nonneg a ha0] at ha
  rw [double.round_of_nonneg z hz]
  have hmag : double.round_magnitude a.natAbs = a.natAbs := by
    have h1 : ((double.round_magnitude a.natAbs : Nat) : Int) = ((a.natAbs : Nat) : Int) := by
      rw [ha, Int.natAbs_of_nonneg ha0]
    exact_mod_cast h1
  have hle : a.natAbs ≤ z.natAbs := by omega
  have h2 := double.le_round_magnitude z.natAbs a.natAbs hmag hle
  have h3 : ((a.natAbs : Nat) : Int) ≤ ((double.round_magnitude z.natAbs : Nat) : Int) := by
    exact_mod_cast h2
  rw [Int.natAbs_of_nonneg ha0] at h3
  exact h3

theorem double.round_le (a z : Int) (ha : double.round a = a) (h : z ≤ a) :
    double.round z ≤ a := by
  rcases le_or_lt 0 z with hz | hz
  · exact double.round_le_of_nonneg a z ha hz h
  · rcases le_or_lt 0 a with ha0 | ha0
    · exact le_trans (double.round_nonpos z (le_of_lt hz)) ha0
    · have h1 := double.le_round_of_nonneg (-a) (-z) (by rw [double.round_neg, ha])
        (by omega) (by omega)
      rw [double.round_neg] at h1
      omega

theorem double.le_round (a z : Int) (ha : double.round a = a) (h : a ≤ z) :
    a ≤ double.round z := by
  have h1 := double.round_le (-a) (-z) (by rw [double.round_neg, ha]) (by omega)
  rw [double.round_neg] at h1
  omega

theorem double.round_exact (z : Int) (k : Nat) (hk : ((2 ^ k : Nat) : Int) ∣ z)
    (hlt : z.natAbs < 2 ^ (k + 53)) : double.round z = z := by
  unfold double.round
  rw [double.round_magnitude_exact z.natAbs k (Int.natCast_dvd.mp hk) hlt]
  exact Int.sign_mul_natAbs z

theorem double.finite_of_lt (z : Int) (h : z.natAbs < 2 ^ 2098) : double.finite z = some z := by
  unfold double.finite
  rw [Nat.one_shiftLeft]
  exact if_pos h

theorem double.bound_eq : double.bound = ((2 ^ 2094 : Nat) : Int) :=
  congrArg Nat.cast (Nat.one_shiftLeft 2094)

theorem double.bound_pos : 0 < double.bound := by
  rw [double.bound_eq]
  exact_mod_cast (show 0 < 2 ^ 2094 by positivity)

theorem double.round_bound_multiple (c : Int) (hc : c.natAbs ≤ 15) :
    double.round (c * double.bound) = c * double.bound ∧
      (c * double.bound).natAbs < 2 ^ 2098 := by
  have habs : (c * double.bound).natAbs = c.natAbs * 2 ^ 2094 := by
    rw [Int.natAbs_mul, double.bound_eq, Int.natAbs_ofNat]
  constructor
  · apply double.round_exact _ 2094
    · rw [double.bound_eq]
      exact Dvd.intro_left _ rfl
    · rw [habs, pow_add, Nat.mul_comm]
      apply Nat.mul_lt_mul_of_pos_left _ (by positivity)
      calc c.natAbs ≤ 15 := hc
        _ < 2 ^ 53 := by norm_num
  · rw [habs, show 2098 = 4 + 2094 from rfl, pow_add]
    apply Nat.mul_lt_mul_of_pos_right _ (by positivity)
    calc c.natAbs ≤ 15 := hc
      _ < 2 ^ 4 := by norm_num

theorem popup_rect_left_eq (D P : rect) :
    popup_rect_left D P = (double.raised D.x P.x).map (fun v => { P with x := v }) := by
  unfold popup_rect_left double.raised
  split_ifs <;> rfl

theorem popup_rect_top_eq (D P : rect) :
    popup_rect_top D P = (double.raised D.y P.y).map (fun v => { P with y := v }) := by
  unfold popup_rect_top double.raised
  split_ifs <;> rfl

theorem popup_rect_right_eq (D P : rect) :
    popup_rect_right D P
      = (double.pulled D.x D.cx P.x P.cx).map (fun v => { P with x := v }) := by
  unfold popup_rect_right double.pulled rect.right
  cases double.add P.x P.cx with
  | none => rfl
  | some r =>
    cases double.add D.x D.cx with
    | none => rfl
    | some dr =>
      simp only [Option.some_bind]
      split_ifs <;> rfl

theorem popup_rect_bottom_eq (D P : rect) :
    popup_rect_bottom D P
      = (double.pulled D.y D.cy P.y P.cy).map (fun v => { P with y := v }) := by
  unfold popup_rect_bottom double.pulled rect.bottom
  cases double.add P.y P.cy with
  | none => rfl
  | some r =>
    cases double.add D.y D.cy with
    | none => rfl
    | some dr =>
      simp only [Option.some_bind]
      split_ifs <;> rfl

theorem popup_rect_width_eq (D P : rect) :
    popup_rect_width D P
      = (double.shrunk D.x D.cx P.x P.cx).map (fun v => { P with cx := v }) := by
  unfold popup_rect_width double.shrunk rect.right
  cases double.add P.x P.cx with
  | none => rfl
  | some r =>
    cases double.add D.x D.cx with
    | none => rfl
    | some dr =>
      simp only [Option.some_bind]
      split_ifs <;> rfl

theorem popup_rect_height_eq (D P : rect) :
    popup_rect_height D P
      = (double.shrunk D.y D.cy P.y P.cy).map (fun v => { P with cy := v }) := by
  unfold popup_rect_height double.shrunk rect.bottom
  cases double.add P.y P.cy with
  | none => rfl
  | some r =>
    cases double.add D.y D.cy with
    | none => rfl
    | some dr =>
      simp only [Option.some_bind]
      split_ifs <;> rfl

/-- The eight statements of `corrected_popup_rect` act on the two axes
independently: the result is made of the results of the two axes. -/
theorem corrected_popup_rect_axes (D P : rect) (x cx y cy : Int)
    (hx : double.axis D.x D.cx P.x P.cx = some (x, cx))
    (hy : double.axis D.y D.cy P.y P.cy = some (y, cy)) :
    corrected_popup_rect D P = some { x := x, y := y, cx := cx, cy := cy } := by
  unfold double.axis at hx hy
  cases h1 : double.raised D.x P.x with
  | none => rw [h1] at hx; cases hx
  | some x1 =>
    rw [h1] at hx
    simp only [Option.some_bind] at hx
    cases h3 : double.pulled D.x D.cx x1 P.cx with
    | none => rw [h3] at hx; cases hx
    | some x3 =>
      rw [h3] at hx
      simp only [Option.some_bind] at hx
      cases h7 : double.shrunk D.x D.cx (max x3 D.x) P.cx with
      | none => rw [h7] at hx; cases hx
      | some cx7 =>
        rw [h7] at hx
        simp only [Option.map_some', Option.some.injEq, Prod.mk.injEq] at hx
        cases g1 : double.raised D.y P.y with
        | none => rw [g1] at hy; cases hy
        | some y1 =>
          rw [g1] at hy
          simp only [Option.some_bind] at hy
          cases g3 : double.pulled D.y D.cy y1 P.cy with
          | none => rw [g3] at hy; cases hy
          | some y3 =>
            rw [g3] at hy
            simp only [Option.some_bind] at hy
            cases g7 : double.shrunk D.y D.cy (max y3 D.y) P.cy with
            | none => rw [g7] at hy; cases hy
            | some cy7 =>
              rw [g7] at hy
              simp only [Option.map_some', Option.some.injEq, Prod.mk.injEq] at hy
              obtain ⟨hx5, hcx⟩ := hx
              obtain ⟨hy5, hcy⟩ := hy
              unfold corrected_popup_rect
              rw [popup_rect_left_eq, h1]
              simp only [Option.map_some', Option.some_bind]
              rw [popup_rect_top_eq, g1]
              simp only [Option.map_some', Option.some_bind]
              rw [popup_rect_right_eq, h3]
              simp only [Option.map_some', Option.some_bind]
              rw [popup_rect_bottom_eq, g3]
              simp only [Option.map_some', Option.some_bind]
              rw [popup_rect_width_eq]
              simp only [popup_rect_max_x, popup_rect_max_y]
              rw [h7]
              simp only [Option.map_some', Option.some_bind]
              rw [popup_rect_height_eq]
              simp only []
              rw [g7]
              simp only [Option.map_some', Option.some.injEq, rect.mk.injEq]
              exact ⟨hx5, hy5, hcx, hcy⟩

theorem double.add_some (a b c : Int) (hc0 : 0 ≤ c) (hc : c ≤ 15)
    (h1 : -(c * double.bound) ≤ a + b) (h2 : a + b ≤ c * double.bound) :
    double.add a b = some (double.round (a + b)) ∧
      -(c * double.bound) ≤ double.round (a + b) ∧ double.round (a + b) ≤ c * double.bound := by
  have hT := double.round_bound_multiple c (by omega)
  have hup := double.round_le _ (a + b) hT.1 h2
  have hlo := double.le_round (-(c * double.bound)) (a + b)
    (by rw [double.round_neg, hT.1]) h1
  refine ⟨double.finite_of_lt _ ?_, hlo, hup⟩
  have hT2 := hT.2
  have hTn : 0 ≤ c * double.bound := mul_nonneg hc0 (le_of_lt double.bound_pos)
  omega

theorem double.sub_some (a b c : Int) (hc0 : 0 ≤ c) (hc : c ≤ 15)
    (h1 : -(c * double.bound) ≤ a - b) (h2 : a - b ≤ c * double.bound) :
    double.sub a b = some (double.round (a - b)) ∧
      -(c * double.bound) ≤ double.round (a - b) ∧ double.round (a - b) ≤ c * double.bound := by
  have h := double.add_some a (-b) c hc0 hc (by omega) (by omega)
  have e : a + -b = a - b := by ring
  rw [e] at h
  exact h

theorem double.axis_inside (dpos dext pos ext r dr : Int)
    (h1 : double.add pos ext = some r) (h2 : double.add dpos dext = some dr)
    (hlo : dpos ≤ pos) (hle : r ≤ dr) :
    double.axis dpos dext pos ext = some (pos, ext) := by
  have hr : double.raised dpos pos = some pos := by
    unfold double.raised
    rw [if_neg (by omega)]
  have hp : double.pulled dpos dext pos ext = some pos := by
    unfold double.pulled
    rw [h1, h2]
    simp only [Option.some_bind]
    rw [if_neg (by omega)]
  have hm : max pos dpos = pos := max_eq_left hlo
  have hs : double.shrunk dpos dext pos ext = some ext := by
    unfold double.shrunk
    rw [h1, h2]
    simp only [Option.some_bind]
    rw [if_neg (by omega)]
  unfold double.axis
  rw [hr]
  simp only [Option.some_bind]
  rw [hp]
  simp only [Option.some_bind]
  rw [hm, hs]
  rfl

theorem double.add_difference_some (v a b c1 c2 : Int) (h0 : 0 ≤ c1) (h0b : 0 ≤ c2)
    (hc : c1 + c2 ≤ 15)
    (hv1 : -(c1 * double.bound) ≤ v) (hv2 : v ≤ c1 * double.bound)
    (hd1 : -(c2 * double.bound) ≤ a - b) (hd2 : a - b ≤ c2 * double.bound) :
    double.add_difference v a b = some (double.round (v + double.round (a - b))) ∧
      -((c1 + c2) * double.bound) ≤ double.round (v + double.round (a - b)) ∧
      double.round (v + double.round (a - b)) ≤ (c1 + c2) * double.bound := by
  obtain ⟨e1, e2, e3⟩ := double.sub_some a b c2 h0b (by omega) hd1 hd2
  have hsum : (c1 + c2) * double.bound = c1 * double.bound + c2 * double.bound := by ring
  obtain ⟨f1, f2, f3⟩ := double.add_some v (double.round (a - b)) (c1 + c2) (by omega) hc
    (by rw [hsum]; omega) (by rw [hsum]; omega)
  unfold double.add_difference
  rw [e1]
  simp only [Option.some_bind]
  exact ⟨f1, f2, f3⟩

theorem double.axis_general (dpos dext pos ext : Int)
    (hdp : double.is_value dpos) (hde : double.is_value dext)
    (hp : double.is_value pos) (he : double.is_value ext) :
    ∃ p e, double.axis dpos dext pos ext = some (p, e) ∧ dpos ≤ p ∧ e ≤ ext := by
  have hB := double.bound_pos
  obtain ⟨_, hdp1, hdp2⟩ := hdp
  obtain ⟨_, hde1, hde2⟩ := hde
  obtain ⟨_, hp1, hp2⟩ := hp
  obtain ⟨hrep, he1, he2⟩ := he
  -- statement 1
  obtain ⟨p1, h1, b1lo, b1hi⟩ : ∃ p1, double.raised dpos pos = some p1 ∧
      -(3 * double.bound) ≤ p1 ∧ p1 ≤ 3 * double.bound := by
    unfold double.raised
    by_cases hlt : pos < dpos
    · rw [if_pos hlt]
      obtain ⟨e1, e2, e3⟩ := double.add_difference_some pos dpos pos 1 2 (by omega) (by omega)
        (by omega) (by omega) (by omega) (by omega) (by omega)
      exact ⟨_, e1, by omega, by omega⟩
    · rw [if_neg hlt]
      exact ⟨pos, rfl, by omega, by omega⟩
  -- the two sums of statement 3
  obtain ⟨hr, r1, r2⟩ := double.add_some p1 ext 4 (by omega) (by omega) (by omega) (by omega)
  obtain ⟨hdr, d1, d2⟩ := double.add_some dpos dext 2 (by omega) (by omega) (by omega)
    (by omega)
  obtain ⟨p3, h3, b3lo, b3hi⟩ : ∃ p3, double.pulled dpos dext p1 ext = some p3 ∧
      -(9 * double.bound) ≤ p3 ∧ p3 ≤ 9 * double.bound := by
    unfold double.pulled
    rw [hr, hdr]
    simp only [Option.some_bind]
    by_cases hgt : double.round (p1 + ext) > double.round (dpos + dext)
    · rw [if_pos hgt]
      obtain ⟨e1, e2, e3⟩ := double.add_difference_some p1 (double.round (dpos + dext))
        (double.round (p1 + ext)) 3 6 (by omega) (by omega) (by omega) (by omega) (by omega)
        (by omega) (by omega)
      exact ⟨_, e1, by omega, by omega⟩
    · rw [if_neg hgt]
      exact ⟨p1, rfl, by omega, by omega⟩
  have hm1 : dpos ≤ max p3 dpos := le_max_right _ _
  have hm2 : max p3 dpos ≤ 9 * double.bound := max_le b3hi (by omega)
  have hm3 : -(9 * double.bound) ≤ max p3 dpos := le_trans b3lo (le_max_left _ _)
  obtain ⟨hr7, s1, s2⟩ := double.add_some (max p3 dpos) ext 10 (by omega) (by omega)
    (by omega) (by omega)
  obtain ⟨e, h7, hle⟩ : ∃ e, double.shrunk dpos dext (max p3 dpos) ext = some e ∧ e ≤ ext := by
    unfold double.shrunk
    rw [hr7, hdr]
    simp only [Option.some_bind]
    by_cases hgt : double.round (max p3 dpos + ext) > double.round (dpos + dext)
    · rw [if_pos hgt]
      obtain ⟨e1, e2, e3⟩ := double.add_difference_some ext (double.round (dpos + dext))
        (double.round (max p3 dpos + ext)) 1 12 (by omega) (by omega) (by omega) (by omega)
        (by omega) (by omega) (by omega)
      refine ⟨_, e1, ?_⟩
      apply double.round_le ext _ hrep
      have hneg := double.round_nonpos (double.round (dpos + dext)
        - double.round (max p3 dpos + ext)) (by omega)
      omega
    · rw [if_neg hgt]
      exact ⟨ext, rfl, le_refl _⟩
  refine ⟨max p3 dpos, e, ?_, hm1, hle⟩
  unfold double.axis
  rw [h1]
  simp only [Option.some_bind]
  rw [h3]
  simp only [Option.some_bind]
  rw [h7]
  rfl

theorem double.grid_pos (k : Nat) : (0 : Int) < ((1 <<< k : Nat) : Int) := by
  rw [Nat.one_shiftLeft]
  exact_mod_cast (show 0 < 2 ^ k by positivity)

theorem double.add_exact (k : Nat) (hk : k ≤ 2000) (a b : Int)
    (ha : ((1 <<< k : Nat) : Int) ∣ a) (hb : ((1 <<< k : Nat) : Int) ∣ b)
    (h1 : -(4503599627370496 * ((1 <<< k : Nat) : Int)) ≤ a + b)
    (h2 : a + b ≤ 4503599627370496 * ((1 <<< k : Nat) : Int)) :
    double.add a b = some (a + b) := by
  have hU := double.grid_pos k
  have hdvd := dvd_add ha hb
  rw [Nat.one_shiftLeft] at hU h1 h2 hdvd
  have hcast : ((2 ^ (k + 53) : Nat) : Int) = 9007199254740992 * ((2 ^ k : Nat) : Int) := by
    rw [pow_add]
    push_cast
    ring
  have hlt : (a + b).natAbs < 2 ^ (k + 53) := by
    have h3 : (((a + b).natAbs : Nat) : Int) < ((2 ^ (k + 53) : Nat) : Int) := by
      rw [hcast]
      omega
    exact_mod_cast h3
  have hround : double.round (a + b) = a + b := double.round_exact _ k hdvd hlt
  unfold double.add
  rw [hround]
  apply double.finite_of_lt
  exact lt_of_lt_of_le hlt (Nat.pow_le_pow_right (by norm_num) (by omega))

theorem double.sub_exact (k : Nat) (hk : k ≤ 2000) (a b : Int)
    (ha : ((1 <<< k : Nat) : Int) ∣ a) (hb : ((1 <<< k : Nat) : Int) ∣ b)
    (h1 : -(4503599627370496 * ((1 <<< k : Nat) : Int)) ≤ a - b)
    (h2 : a - b ≤ 4503599627370496 * ((1 <<< k : Nat) : Int)) :
    double.sub a b = some (a - b) := by
  have h := double.add_exact k hk a (-b) ha ((dvd_neg).mpr hb) (by omega) (by omega)
  have e : a + -b = a - b := by ring
  unfold double.add at h
  unfold double.sub
  rw [e] at h
  exact h

theorem double.add_difference_exact (k : Nat) (hk : k ≤ 2000) (v a b : Int)
    (hv : ((1 <<< k : Nat) : Int) ∣ v) (ha : ((1 <<< k : Nat) : Int) ∣ a)
    (hb : ((1 <<< k : Nat) : Int) ∣ b)
    (h1 : -(4503599627370496 * ((1 <<< k : Nat) : Int)) ≤ a - b)
    (h2 : a - b ≤ 4503599627370496 * ((1 <<< k : Nat) : Int))
    (h3 : -(4503599627370496 * ((1 <<< k : Nat) : Int)) ≤ v + (a - b))
    (h4 : v + (a - b) ≤ 4503599627370496 * ((1 <<< k : Nat) : Int)) :
    double.add_difference v a b = some (v + (a - b)) := by
  unfold double.add_difference
  rw [double.sub_exact k hk a b ha hb h1 h2]
  simp only [Option.some_bind]
  exact double.add_exact k hk v (a - b) hv (dvd_sub ha hb) h3 h4

theorem double.axis_exact (k : Nat) (hk : k ≤ 2000) (dpos dext pos ext : Int)
    (hdp : double.on_grid k dpos) (hde : double.on_grid k dext)
    (hp : double.on_grid k pos) (he : double.on_grid k ext)
    (h0d : 0 ≤ dext) (h0e : 0 ≤ ext) :
    ∃ p e, double.axis dpos dext pos ext = some (p, e) ∧ dpos ≤ p ∧ 0 ≤ e ∧ e ≤ ext ∧
      (ext ≤ dext → e = ext) ∧ double.add p e = some (p + e) ∧
      double.add dpos dext = some (dpos + dext) ∧ p + e ≤ dpos + dext := by
  have hU := double.grid_pos k
  obtain ⟨gdp, hdp1, hdp2⟩ := hdp
  obtain ⟨gde, hde1, hde2⟩ := hde
  obtain ⟨gp, hp1, hp2⟩ := hp
  obtain ⟨ge, he1, he2⟩ := he
  obtain ⟨p1, h1, g1, hp1a, hp1b, hp1c⟩ : ∃ p1, double.raised dpos pos = some p1 ∧
      ((1 <<< k : Nat) : Int) ∣ p1 ∧ dpos ≤ p1 ∧ pos ≤ p1 ∧ (p1 = pos ∨ p1 = dpos) := by
    unfold double.raised
    by_cases hlt : pos < dpos
    · rw [if_pos hlt, double.add_difference_exact k hk pos dpos pos gp gdp gp (by omega)
        (by omega) (by omega) (by omega)]
      exact ⟨_, rfl, by
        have e : pos + (dpos - pos) = dpos := by ring
        rw [e]
        exact gdp, by omega, by omega, by omega⟩
    · rw [if_neg hlt]
      exact ⟨pos, rfl, gp, by omega, le_refl _, Or.inl rfl⟩
  have hr := double.add_exact k hk p1 ext g1 ge (by omega) (by omega)
  have hdr := double.add_exact k hk dpos dext gdp gde (by omega) (by omega)
  obtain ⟨p3, h3, g3, hp3⟩ : ∃ p3, double.pulled dpos dext p1 ext = some p3 ∧
      ((1 <<< k : Nat) : Int) ∣ p3 ∧
      ((p1 + ext ≤ dpos + dext ∧ p3 = p1) ∨
        (p1 + ext > dpos + dext ∧ p3 = dpos + dext - ext)) := by
    unfold double.pulled
    rw [hr, hdr]
    simp only [Option.some_bind]
    by_cases hgt : p1 + ext > dpos + dext
    · rw [if_pos hgt, double.add_difference_exact k hk p1 (dpos + dext) (p1 + ext) g1
        (dvd_add gdp gde) (dvd_add g1 ge) (by omega) (by omega) (by omega) (by omega)]
      have e : p1 + (dpos + dext - (p1 + ext)) = dpos + dext - ext := by ring
      rw [e]
      exact ⟨_, rfl, dvd_sub (dvd_add gdp gde) ge, Or.inr ⟨hgt, rfl⟩⟩
    · rw [if_neg hgt]
      exact ⟨p1, rfl, g1, Or.inl ⟨by omega, rfl⟩⟩
  obtain ⟨p5, hp5, g5, hp5a⟩ : ∃ p5, max p3 dpos = p5 ∧ ((1 <<< k : Nat) : Int) ∣ p5 ∧
      ((p5 = p3 ∧ dpos ≤ p3) ∨ (p5 = dpos ∧ p3 ≤ dpos)) := by
    rcases le_total dpos p3 with hle | hle
    · exact ⟨p3, max_eq_left hle, g3, Or.inl ⟨rfl, hle⟩⟩
    · exact ⟨dpos, max_eq_right hle, gdp, Or.inr ⟨rfl, hle⟩⟩
  have hr7 := double.add_exact k hk p5 ext g5 ge (by omega) (by omega)
  obtain ⟨e, h7, g7, he7⟩ : ∃ e, double.shrunk dpos dext p5 ext = some e ∧
      ((1 <<< k : Nat) : Int) ∣ e ∧
      ((p5 + ext ≤ dpos + dext ∧ e = ext) ∨
        (p5 + ext > dpos + dext ∧ e = dpos + dext - p5)) := by
    unfold double.shrunk
    rw [hr7, hdr]
    simp only [Option.some_bind]
    by_cases hgt : p5 + ext > dpos + dext
    · rw [if_pos hgt, double.add_difference_exact k hk ext (dpos + dext) (p5 + ext) ge
        (dvd_add gdp gde) (dvd_add g5 ge) (by omega) (by omega) (by omega) (by omega)]
      have e : ext + (dpos + dext - (p5 + ext)) = dpos + dext - p5 := by ring
      rw [e]
      exact ⟨_, rfl, dvd_sub (dvd_add gdp gde) g5, Or.inr ⟨hgt, rfl⟩⟩
    · rw [if_neg hgt]
      exact ⟨ext, rfl, ge, Or.inl ⟨by omega, rfl⟩⟩
  refine ⟨p5, e, ?_, by omega, by omega, by omega, by omega,
    double.add_exact k hk p5 e g5 g7 (by omega) (by omega), hdr, by omega⟩
  unfold double.axis
  rw [h1]
  simp only [Option.some_bind]
  rw [h3]
  simp only [Option.some_bind]
  rw [hp5, h7]
  rfl

set_option maxRecDepth 100000 in
/-- C27, as stated, fails in the `double` arithmetic of the program. First
run: the desktop is `{ 10.0, 0.0, 5.4, 10.0 }` and the popup
`{ 0.0, 0.0, 5.7, 1.0 }`, both with non-negative extents. The result is
`{ 10.0, 0.0, 5.4000000000000012, 1.0 }`: its `right()` is 15.400000000000002,
larger than the 15.4 of the desktop, so it does not lie inside the desktop;
and correcting the result again gives the width 5.3999999999999995, so the
correction is not idempotent. Second run: the desktop is
`{ 0.0, 0.0, 5.4, 10.0 }` and the popup `{ 3.0, 0.0, 5.2, 1.0 }`, which is not
wider than the desktop; the width of the result is 5.1999999999999993, smaller
than 5.2. -/
theorem corrected_popup_rect_counterexample :
    desktop_5_4.is_value ∧ popup_5_7.is_value ∧
    0 ≤ desktop_5_4.cx ∧ 0 ≤ desktop_5_4.cy ∧ 0 ≤ popup_5_7.cx ∧ 0 ≤ popup_5_7.cy ∧
    corrected_popup_rect desktop_5_4 popup_5_7 = some popup_5_4_above ∧
    desktop_5_4.right = some (double.of_scaled 8669429282688205 49) ∧
    popup_5_4_above.right = some (double.of_scaled 8669429282688206 49) ∧
    double.of_scaled 8669429282688205 49 < double.of_scaled 8669429282688206 49 ∧
    corrected_popup_rect desktop_5_4 popup_5_4_above = some popup_5_4_below ∧
    popup_5_4_below ≠ popup_5_4_above ∧
    desktop_origin_5_4.is_value ∧ popup_5_2.is_value ∧
    0 ≤ desktop_origin_5_4.cx ∧ 0 ≤ desktop_origin_5_4.cy ∧ 0 ≤ popup_5_2.cx ∧
    0 ≤ popup_5_2.cy ∧
    popup_5_2.cx ≤ desktop_origin_5_4.cx ∧
    corrected_popup_rect desktop_origin_5_4 popup_5_2 = some popup_5_2_corrected ∧
    popup_5_2_corrected.cx < popup_5_2.cx := by
  refine ⟨by decide, by decide, by decide, by decide, by decide, by decide, ?_⟩
  have first : corrected_popup_rect desktop_5_4 popup_5_7 = some popup_5_4_above := by decide
  have again : corrected_popup_rect desktop_5_4 popup_5_4_above = some popup_5_4_below := by
    decide
  refine ⟨first, by decide, by decide, by decide, again, by decide, ?_⟩
  have second : corrected_popup_rect desktop_origin_5_4 popup_5_2
      = some popup_5_2_corrected := by decide
  exact ⟨by decide, by decide, by decide, by decide, by decide, by decide, by decide, second,
    by decide⟩

/-- C27, amended: for every desktop rect `D` and every popup rect `P` whose
coordinates are `double` values of magnitude at most 2^1020,
`corrected_popup_rect` returns a rect `R` of finite values with
`D.x <= R.x`, `D.y <= R.y`, `R.cx <= P.cx` and `R.cy <= P.cy`; when `P`
already lies inside `D` (by the values of `right()` and `bottom()`) then
`R = P`. When moreover no operation has to round, which is the case when all
coordinates are whole multiples of one power of two, at most 2^48 of them in
magnitude (whole numbers up to 2^48, say), and the extents of `D` and `P` are
non-negative, then `R` lies inside `D`, its extents are non-negative and are
reduced only when `P` is wider or taller than `D`, and correcting `R` again
gives `R`. -/
theorem corrected_popup_rect_spec (D P : rect) (hD : D.is_value) (hP : P.is_value) :
    ∃ R, corrected_popup_rect D P = some R ∧ D.x ≤ R.x ∧ D.y ≤ R.y ∧ R.cx ≤ P.cx ∧
      R.cy ≤ P.cy ∧ (P.inside D → R = P) ∧
      (∀ k, k ≤ 2000 → D.on_grid k → P.on_grid k → 0 ≤ D.cx → 0 ≤ D.cy → 0 ≤ P.cx →
        0 ≤ P.cy →
        R.inside D ∧ 0 ≤ R.cx ∧ 0 ≤ R.cy ∧ (P.cx ≤ D.cx → R.cx = P.cx) ∧
          (P.cy ≤ D.cy → R.cy = P.cy) ∧ corrected_popup_rect D R = some R) := by
  obtain ⟨x, cx, hx, hx1, hx2⟩ := double.axis_general D.x D.cx P.x P.cx hD.1 hD.2.2.1 hP.1
    hP.2.2.1
  obtain ⟨y, cy, hy, hy1, hy2⟩ := double.axis_general D.y D.cy P.y P.cy hD.2.1 hD.2.2.2 hP.2.1
    hP.2.2.2
  refine ⟨{ x := x, y := y, cx := cx, cy := cy }, corrected_popup_rect_axes D P x cx y cy hx hy,
    hx1, hy1, hx2, hy2, ?_, ?_⟩
  · rintro ⟨i1, i2, ⟨a, b, ha, hb, hab⟩, ⟨a2, b2, ha2, hb2, hab2⟩⟩
    have ex := double.axis_inside D.x D.cx P.x P.cx a b ha hb i1 hab
    have ey := double.axis_inside D.y D.cy P.y P.cy a2 b2 ha2 hb2 i2 hab2
    rw [hx] at ex
    rw [hy] at ey
    simp only [Option.some.injEq, Prod.mk.injEq] at ex ey
    cases P
    simp only [rect.mk.injEq]
    exact ⟨ex.1, ey.1, ex.2, ey.2⟩
  · intro k hk gD gP h0 h1 h2 h3
    obtain ⟨p, e, hax, a1, a2, a3, a4, a5, a6, a7⟩ :=
      double.axis_exact k hk D.x D.cx P.x P.cx gD.1 gD.2.2.1 gP.1 gP.2.2.1 h0 h2
    obtain ⟨q, f, hay, b1, b2, b3, b4, b5, b6, b7⟩ :=
      double.axis_exact k hk D.y D.cy P.y P.cy gD.2.1 gD.2.2.2 gP.2.1 gP.2.2.2 h1 h3
    rw [hx] at hax
    rw [hy] at hay
    simp only [Option.some.injEq, Prod.mk.injEq] at hax hay
    obtain ⟨rfl, rfl⟩ := hax
    obtain ⟨rfl, rfl⟩ := hay
    refine ⟨⟨a1, b1, ⟨_, _, a5, a6, a7⟩, ⟨_, _, b5, b6, b7⟩⟩, a2, b2, a4, b4, ?_⟩
    exact corrected_popup_rect_axes D _ x cx y cy
      (double.axis_inside D.x D.cx x cx _ _ a5 a6 a1 a7)
      (double.axis_inside D.y D.cy y cy _ _ b5 b6 b1 b7)

set_option maxRecDepth 100000 in
/-- Witness of C27: a popup of 300 by 700 at (700, 100) on a desktop of 800 by
600 at the origin, all in whole numbers: the result is the rect
`{ 500, 0, 300, 600 }`, which lies inside the desktop and is left as it is by
a second correction. -/
theorem corrected_popup_rect_spec_witness :
    desktop_800_600.is_value ∧ overhanging_popup.is_value ∧
    desktop_800_600.on_grid 1074 ∧ overhanging_popup.on_grid 1074 ∧
    ∃ R, corrected_popup_rect desktop_800_600 overhanging_popup = some R ∧
      R = popup_500_0 ∧ R.inside desktop_800_600 ∧
      corrected_popup_rect desktop_800_600 R = some R :=
  ⟨by decide, by decide, by decide, by decide,
    (corrected_popup_rect_spec desktop_800_600 overhanging_popup (by decide) (by decide)).elim
      (fun R h => ⟨R, h.1, by
        have h1 := h.1
        have h2 : corrected_popup_rect desktop_800_600 overhanging_popup
            = some popup_500_0 := by decide
        rw [h2] at h1
        exact (Option.some.inj h1).symm,
        (h.2.2.2.2.2.2 1074 (by decide) (by decide) (by decide) (by decide) (by decide)
          (by decide) (by decide)).1,
        (h.2.2.2.2.2.2 1074 (by decide) (by decide) (by decide) (by decide) (by decide)
          (by decide) (by decide)).2.2.2.2.2⟩)⟩

/-! ## C22: `ultimate_ancestor` -/

theorem ultimate_ancestor_walk_terminates (w : World) (rank : WinId → Nat)
    (hr : ∀ (j : WinId) (x : window) (p : WinId),
      w.find j = some x → x.iParentWindow = some p → rank p < rank j) :
    ∀ (fuel : Nat) (cur : WinId),
      ((w.windows.map Prod.fst).toFinset.filter (fun j => rank j ≤ rank cur)).card < fuel →
      ∃ R, ultimate_ancestor_walk w fuel cur = some R := by
  intro fuel
  induction fuel with
  | zero => intro cur h; exact absurd h (Nat.not_lt_zero _)
  | succ n ih =>
    intro cur h
    unfold ultimate_ancestor_walk
    cases hf : w.find cur with
    | none => exact ⟨cur, rfl⟩
    | some x =>
      cases hp : x.iParentWindow with
      | none => exact ⟨cur, by simp [hp]⟩
      | some p =>
        simp only [hp]
        apply ih
        have hlt := hr cur x p hf hp
        have hmem : cur ∈ (w.windows.map Prod.fst).toFinset := by
          rw [List.mem_toFinset, List.mem_map]
          exact ⟨(cur, x), store_find_mem w.windows cur x hf, rfl⟩
        have hss : (w.windows.map Prod.fst).toFinset.filter (fun j => rank j ≤ rank p)
            ⊂ (w.windows.map Prod.fst).toFinset.filter (fun j => rank j ≤ rank cur) := by
          rw [Finset.ssubset_iff_of_subset]
          · refine ⟨cur, ?_, ?_⟩
            · simp only [Finset.mem_filter]
              exact ⟨hmem, le_refl _⟩
            · simp only [Finset.mem_filter, not_and, not_le]
              intro _
              exact hlt
          · intro j hj
            simp only [Finset.mem_filter] at hj ⊢
            exact ⟨hj.1, by omega⟩
        have hcard := Finset.card_lt_card hss
        omega

theorem ultimate_ancestor_some (w : World) (hac : acyclic w) (self : WinId) :
    ∃ R, ultimate_ancestor w self = some R := by
  obtain ⟨rank, hr⟩ := hac
  unfold ultimate_ancestor
  apply ultimate_ancestor_walk_terminates w rank hr
  have h1 := Finset.card_filter_le (w.windows.map Prod.fst).toFinset
    (fun j => rank j ≤ rank self)
  have h2 := List.toFinset_card_le (w.windows.map Prod.fst)
  have h3 : (w.windows.map Prod.fst).length = w.windows.length := List.length_map _ _
  omega

theorem ultimate_ancestor_walk_spec (w : World) (hpa : parents_alive w) :
    ∀ (fuel : Nat) (cur : WinId) (x : window) (R : WinId), w.find cur = some x →
      ultimate_ancestor_walk w fuel cur = some R →
      ∃ r, w.find R = some r ∧ r.iParentWindow = none ∧
        ((x.iParentWindow = none ∧ R = cur) ∨
         (x.iParentWindow ≠ none ∧ ∃ n, is_owner_of_walk w R n cur = some true)) := by
  intro fuel
  induction fuel with
  | zero => intro cur x R _ h; simp [ultimate_ancestor_walk] at h
  | succ n ih =>
    intro cur x R hf h
    unfold ultimate_ancestor_walk at h
    simp only [hf] at h
    cases hp : x.iParentWindow with
    | none =>
      simp only [hp, Option.some.injEq] at h
      subst h
      exact ⟨x, hf, hp, Or.inl ⟨rfl, rfl⟩⟩
    | some p =>
      simp only [hp] at h
      obtain ⟨y, hy⟩ := hpa cur x p hf hp
      obtain ⟨r, hr, hrp, hcase⟩ := ih p y R hy h
      refine ⟨r, hr, hrp, Or.inr ⟨by simp, ?_⟩⟩
      rcases hcase with ⟨_, hRp⟩ | ⟨_, m, hm⟩
      · refine ⟨1, ?_⟩
        simp [is_owner_of_walk, hf, hp, hRp]
      · refine ⟨m + 1, ?_⟩
        by_cases hpr : p = R
        · simp [is_owner_of_walk, hf, hp, hpr]
        · simp [is_owner_of_walk, hf, hp, hpr, hm]

/-- C22: in a world whose parent chains end and whose parent pointers point to
live windows, `ultimate_ancestor()` of a live window returns; the window `R` it
returns is alive and has no parent window (on the same surface or on another);
`R` is the window itself when the window has no parent window, and otherwise
`R` is an owner of the window. -/
theorem ultimate_ancestor_spec (w : World) (self : WinId) (x : window)
    (hf : w.find self = some x) (hac : acyclic w) (hpa : parents_alive w) :
    ∃ R r, ultimate_ancestor w self = some R ∧ w.find R = some r ∧
      r.iParentWindow = none ∧ has_parent_window w r true = false ∧
      has_parent_window w r false = false ∧
      (x.iParentWindow = none → R = self) ∧
      (x.iParentWindow ≠ none → is_owner_of w R self = some true) := by
  obtain ⟨R, hR⟩ := ultimate_ancestor_some w hac self
  obtain ⟨r, hr, hrp, hcase⟩ := ultimate_ancestor_walk_spec w hpa _ self x R hf hR
  refine ⟨R, r, hR, hr, hrp, by simp [has_parent_window, hrp],
    by simp [has_parent_window, hrp], ?_, ?_⟩
  · intro hn
    rcases hcase with ⟨_, h⟩ | ⟨h, _⟩
    · exact h
    · exact absurd hn h
  · intro hn
    rcases hcase with ⟨h, _⟩ | ⟨_, m, hm⟩
    · exact absurd h hn
    · apply is_owner_of_of_owns w hac R self
      refine ⟨?_, m, hm⟩
      intro e
      subst e
      rw [hf] at hr
      cases hr
      exact hn hrp

/-- Witness of C22: the ultimate ancestor of the child window 2 of the owner
scenario is the top level window 1, which owns it. -/
theorem ultimate_ancestor_spec_witness :
    ultimate_ancestor owner_world 2 = some 1 ∧
    ∃ R r, ultimate_ancestor owner_world 2 = some R ∧ owner_world.find R = some r ∧
      r.iParentWindow = none ∧ has_parent_window owner_world r true = false ∧
      has_parent_window owner_world r false = false ∧
      ((owner_world_child window_style.DismissOnOwnerClick 20).iParentWindow = none →
        R = 2) ∧
      ((owner_world_child window_style.DismissOnOwnerClick 20).iParentWindow ≠ none →
        is_owner_of owner_world R 2 = some true) :=
  ⟨by decide,
    ultimate_ancestor_spec owner_world 2
      (owner_world_child window_style.DismissOnOwnerClick 20) (by decide)
      (acyclic_of_ranked owner_world (by decide))
      (parents_alive_of_list owner_world (by decide))⟩

/-! ## C24: `nested_parent` -/

/-- C26, as stated, fails. First run: in the owner scenario the construction
of a window 4 fails; the registry keeps the entry 4, which names no live
window object. When window 1 dismisses its children the loop reaches that
entry and calls `dismissed()` through it: the call has no result. Second run:
window 1 dismisses its children; window 2 (hiding type) is the parent of
window 3 (closing type), whose surface destroys the window object on close.
The loop first hides window 2. The close-triggering dismissal of window 3 that
follows runs the destructor of window 3, which activates and shows its parent
window 2 again: before and after that dismissal two registered windows are not
dismissed (1 and 3 before, 1 and 2 after). -/
theorem dismissal_measure_counterexample :
    (construct owner_world 4 iconized_request).failure
      = some window_error.not_yet_implemented ∧
    owner_world_failed_fourth = (construct owner_world 4 iconized_request).world ∧
    owner_world_failed_fourth.registry = [1, 2, 3, 4] ∧
    owner_world_failed_fourth.find 4 = none ∧
    dismiss_children owner_world_failed_fourth 1 none = none ∧
    dismiss_children_test owner_chain_world 1 2 none = some true ∧
    (owner_chain_world.find 2).map window.dismissal_type
      = some dismissal_type_e.HideOnDismissal ∧
    dismiss_children_test (dismiss owner_chain_world 2) 1 3 none = some true ∧
    ((dismiss owner_chain_world 2).find 3).map window.dismissal_type
      = some dismissal_type_e.CloseOnDismissal ∧
    (dismiss owner_chain_world 2).undismissed_count = 2 ∧
    (dismiss (dismiss owner_chain_world 2) 3).undismissed_count = 2 ∧
    ((dismiss owner_chain_world 2).find 2).map window.dismissed = some true ∧
    ((dismiss (dismiss owner_chain_world 2) 3).find 2).map window.dismissed = some false := by
  refine ⟨by decide, rfl, by decide, by decide, by decide, by decide, by decide, by decide,
    by decide, by decide, by decide, by decide, by decide⟩

/-- C26, amended: for a live window `S` in a world in which the call reads
live window objects only (`well_formed`: the registry names live window
objects only, each once, parent pointers point to live windows, parent chains
end, and no window that its surface destroys on `close()` has child windows)
`dismiss_children` returns. In every such world an iteration of its loop reads
the registry entry `i` only when `i < window_count()`, and otherwise leaves the
loop; the entry read is a live window and its test has an answer; after a
skipped window the index advances by one; after a hide-triggering dismissal
the index advances by one, the registry is the same and as many registered
windows are alive and not closed as before; after a close-triggering dismissal
the index is 0, the registry is not longer, and the number of registered
windows that are alive and not closed is strictly smaller, so the reset cannot
repeat forever; after either dismissal the world is well formed again. -/
theorem dismiss_children_loop_measure (w : World) (S : WinId) (c : Option WinId)
    (me : window) (hme : w.find S = some me) (hwf : well_formed w) :
    (∃ v, dismiss_children w S c = some v) ∧
    (∀ (n : Nat) (u : World) (i : Nat), well_formed u →
      (u.registry.get? i = none ↔ u.registry.length ≤ i) ∧
      (u.registry.get? i = none → dismiss_children_loop S c (n + 1) u i = some u) ∧
      (∀ j, u.registry.get? i = some j →
        i < u.registry.length ∧
        (∃ x, u.find j = some x) ∧
        (∃ b, dismiss_children_test u S j c = some b) ∧
        (dismiss_children_test u S j c = some false →
          dismiss_children_loop S c (n + 1) u i = dismiss_children_loop S c n u (i + 1)) ∧
        (dismiss_children_test u S j c = some true → ∀ x, u.find j = some x →
          well_formed (dismiss u j) ∧
          (x.dismissal_type = .CloseOnDismissal →
            dismiss_children_loop S c (n + 1) u i
              = dismiss_children_loop S c n (dismiss u j) 0 ∧
            (dismiss u j).open_count < u.open_count ∧
            (dismiss u j).registry.length ≤ u.registry.length) ∧
          (x.dismissal_type = .HideOnDismissal →
            dismiss_children_loop S c (n + 1) u i
              = dismiss_children_loop S c n (dismiss u j) (i + 1) ∧
            (dismiss u j).registry = u.registry ∧
            (dismiss u j).open_count = u.open_count)))) := by
  refine ⟨dismiss_children_terminates w S c me hme hwf.1 hwf.2.2.2, ?_⟩
  intro n u i hu
  refine ⟨List.get?_eq_none, dismiss_children_loop_exit S c n u i, ?_⟩
  intro j hg
  have hlt : i < u.registry.length := by
    by_contra hlt
    rw [List.get?_eq_none.mpr (Nat.le_of_not_lt hlt)] at hg
    cases hg
  obtain ⟨xj, hxj⟩ := hu.2.2.2.2 j (List.get?_mem hg)
  refine ⟨hlt, ⟨xj, hxj⟩, dismiss_children_test_some u hu.1 S j c xj hxj,
    dismiss_children_loop_skip S c n u i j hg, ?_⟩
  intro ht x hf
  obtain ⟨x1, hf1, _, hcase⟩ := dismiss_cases u S j c ht
  rw [hf] at hf1
  cases hf1
  refine ⟨well_formed_of_evolves (evolves_dismiss S c u j ht) hu, ?_, ?_⟩
  · intro hty
    rcases hcase with ⟨_, hopen, hd⟩ | ⟨hty2, _, _⟩
    · refine ⟨dismiss_children_loop_close S c n u i j x hg ht hf hty, ?_, ?_⟩
      · rw [hd]
        exact open_count_close u j x hf hopen (List.get?_mem hg)
      · rw [hd]
        exact (registry_close u j x hf hopen).1
    · rw [hty] at hty2
      cases hty2
  · intro hty
    rcases hcase with ⟨hty2, _, _⟩ | ⟨_, _, hd⟩
    · rw [hty] at hty2
      cases hty2
    · refine ⟨dismiss_children_loop_hide S c n u i j x hg ht hf hty, ?_, ?_⟩
      · rw [hd, registry_show_window]
      · rw [hd, open_count_show_window]

/-- Witness of C26: the owner chain scenario; the call returns with window 3
gone and window 2 hidden. -/
theorem dismiss_children_loop_measure_witness :
    owner_chain_world.find 1 = some owner_world_root ∧
    well_formed owner_chain_world ∧
    (∃ v, dismiss_children owner_chain_world 1 none = some v) ∧
    (dismiss_children owner_chain_world 1 none).map (fun v => v.registry) = some [1, 2] ∧
    (dismiss (dismiss owner_chain_world 2) 3).open_count
      < (dismiss owner_chain_world 2).open_count :=
  ⟨by decide,
    well_formed_of_list owner_chain_world (by decide) (by decide) (by decide) (by decide)
      (by decide),
    (dismiss_children_loop_measure owner_chain_world 1 none owner_world_root (by decide)
      (well_formed_of_list owner_chain_world (by decide) (by decide) (by decide) (by decide)
        (by decide))).1,
    by decide, by decide⟩

end neogfx
